import Mathlib

/-!
# PacketManager: codec registry, decode pipeline and encode pipeline

A shallow embedding of `src/managers/packet_manager.cc`, followed by one of the
closed-state handlers of `src/stream/tcp/tcp_state_closed.cc`.

Conventions of the embedding.

* Machine integers are natural numbers (or integers for `int`); a store into a
  narrower type is written with `u8`, `u16`, `u32`, `toInt32`.
* A pointer into a packet buffer is the offset from the start of that buffer
  (`Layer.start`, `Packet.data`, the decode cursor `pkt`).
* Process-wide statics live in `Registry`, thread-local statics in `ThreadCtx`.
* A codec is a record of functions.  The callbacks own the header bytes and
  the codec-facing fields of a packet (`CodecFields`); the layer table, the
  capture header and the payload pointer are written by PacketManager, and
  `format`, which is handed a writable `Layer* lyr` into the clone, also
  yields that layer as it leaves it (`FormatOut.lyr`).
* Calling through a null codec pointer or indexing outside a static array is
  reported as a `Fault`; `FatalError` ends the process and is a `Fault` too.
* Constants and types that are declared in headers outside this file
  (`LAYER_MAX`, `FINISHED_DECODE`, the flag bits, `Codec::PKT_MAX`, ...) are
  the fields of `Build`; the theorems hold for every value of them.
* What the program does to the outside (events raised, messages logged, hooks
  and codec callbacks called) is recorded in fields that the program itself
  never reads: `events`, `warnings`, `calls`, `accepted`, `log`, `history`,
  `copied`, `ip6_order_checked`.
* The loops of the source are functions by recursion on the loop counter; the
  `while` loop of `decode`, which has none, gets an iteration bound that is
  shown never to be reached.
* The TCP handlers call functions of the session, tracker, flow and telemetry
  logger that are defined outside their file; these are parameters
  (`TcpExternals`), and a handler yields its return value, the state these
  calls leave and the list of calls it made.
-/

namespace Snort

/-! ## Machine integers -/

/-- Store into a `uint8_t`. -/
def u8 (x : Nat) : Nat := x % 256

/-- Store into a `uint16_t`. -/
def u16 (x : Nat) : Nat := x % 65536

/-- Store into a `uint32_t`. -/
def u32 (x : Nat) : Nat := x % 4294967296

/-- Subtraction `a -= b` on a `uint32_t` (wraps around below zero). -/
def sub32 (a b : Nat) : Nat := (a + 4294967296 - b % 4294967296) % 4294967296

/-- Conversion of an integer value to `int` (32 bit, two's complement). -/
def toInt32 (x : Int) : Int := (x + 2147483648) % 4294967296 - 2147483648

/-- Conversion `(unsigned)len` of an `int`. -/
def toUnsigned (x : Int) : Nat := (x % 4294967296).toNat

/-! ## Constants of packet_manager.cc -/

/-- The constant `max_protocol_id`; also the number of entries of `s_proto_map`. -/
def max_protocol_id : Nat := 65535

/-- The constant `UINT8_MAX`; also the number of entries of `s_protocols`. -/
def UINT8_MAX : Nat := 255

def total_processed : Nat := 0

def other_codecs : Nat := 1

def discards : Nat := 2

def stat_offset : Nat := 3

/-- Which of the three `#ifdef` variants of the capture header code is compiled. -/
inductive DaqBuild
  | HAVE_DAQ_ADDRESS_SPACE_ID
  | HAVE_DAQ_ACQUIRE_WITH_META
  | plain
deriving DecidableEq, Repr

/-- Constants and build options that packet_manager.cc takes from headers
outside this file. -/
structure Build where
  LAYER_MAX : Nat
  FINISHED_DECODE : Nat
  IPPROTO_ID_ESP : Nat
  DECODE__UNSURE_ENCAP : Nat
  PKT_TRUST : Nat
  PKT_MODIFIED : Nat
  PKT_RESIZED : Nat
  PKT_PSEUDO : Nat
  ENC_FLAG_NET : Nat
  PKT_MAX : Nat
  IP_MAXPACKET : Nat
  DAQ_PKT_FLAG_HW_TCP_CS_GOOD : Nat
  daq : DaqBuild
  /-- True when `assert` is compiled out. -/
  NDEBUG : Bool
  /-- Whether a layer's `proto` tag is one of the IP tags (used by
  `layer::get_inner_ip_lyr`). -/
  is_ip_proto : Nat → Bool

/-- The run-time configuration read through `ScMaxEncapsulations()`. -/
structure SnortConfig where
  max_encapsulations : Int

/-! ## Data model -/

/-- One decoded header: `struct Layer`. -/
structure Layer where
  proto : Nat
  prot_id : Nat
  start : Nat
  length : Nat
deriving DecidableEq, Repr

/-- The capture header `DAQ_PktHdr_t`. -/
structure DAQ_PktHdr where
  ts : Nat
  caplen : Nat
  pktlen : Nat
  ingress_index : Int
  egress_index : Int
  ingress_group : Int
  egress_group : Int
  flags : Nat
  opaque_val : Nat
  address_space_id : Nat
deriving DecidableEq, Repr

/-- The fields of a `Packet` that codecs write while decoding or formatting. -/
structure CodecFields where
  decode_flags : Nat
  packet_flags : Nat
  proto_bits : Nat
  encapsulations : Nat
  ip6_extension_count : Nat
  /-- Stand-in for the convenience pointers (`ip_api`, `tcph`, ...). -/
  ptrs : Nat
deriving DecidableEq, Repr

/-- The packet, `struct Packet`.  `layers i` is slot `i` of the layer array. -/
structure Packet where
  pkth : DAQ_PktHdr
  pkt : List Nat
  data : Nat
  dsize : Nat
  max_dsize : Int
  num_layers : Nat
  layers : Nat → Layer
  cf : CodecFields
  pseudo_type : Nat
  user_policy_id : Nat

/-- What a codec's `decode` hands back: the return value, the two reference
arguments and the codec-facing packet fields. -/
structure DecodeOut where
  ok : Bool
  lyr_len : Nat
  prot_id : Nat
  cf : CodecFields

/-- The output cursor `struct Buffer` of the encoders. -/
structure Buffer where
  base : Nat
  off : Nat
  end_ : Nat
  size : Nat
deriving DecidableEq, Repr

/-- The encoder state `struct EncState`. -/
structure EncState where
  enc_type : Nat
  flags : Nat
  payLoad : List Nat
  payLen : Nat
  proto : Nat
  layer : Int
  p : Packet

/-- What a codec's `encode` hands back: the return value, the next-protocol
number it left in the state, the output cursor and the scratch bytes. -/
structure EncodeOut where
  ok : Bool
  proto : Nat
  obuf : Buffer
  mem : List Nat

/-- What a codec's `update` hands back: the length accumulator and the
rewritten packet bytes. -/
structure UpdateOut where
  len : Nat
  pkt : List Nat

/-- What a codec's `format` hands back: the clone's codec-facing fields, its
rewritten bytes, and the clone layer behind the writable `Layer* lyr` as the
callback leaves it. -/
structure FormatOut where
  cf : CodecFields
  pkt : List Nat
  lyr : Layer

/-- A live codec instance, `class Codec`. -/
structure Codec where
  name : String
  proto_id : Nat
  protocol_ids : List Nat
  data_link_types : List Int
  /-- Called as `decode cursor len p lyr_len prot_id`. -/
  decode : Nat → Nat → Packet → Nat → Nat → DecodeOut
  /-- Called as `encode enc obuf mem hdr_start`. -/
  encode : EncState → Buffer → List Nat → Nat → EncodeOut
  /-- Called as `update p layer_index len`. -/
  update : Packet → Nat → Nat → UpdateOut
  /-- Called as `format flags p c layer_index`; `lyr` points at
  `c.layers layer_index`. -/
  format : Nat → Packet → Packet → Nat → FormatOut

/-- The descriptor `struct CodecApi`; `addr` is the address of the descriptor,
by which `std::find` compares. -/
structure CodecApi where
  addr : Nat
  name : String
  pinit : Bool
  pterm : Bool
  tinit : Bool
  tterm : Bool
  ctor : Option (Nat → Codec)
  dtor : Bool

/-- Ways in which execution stops without returning. -/
inductive Fault
  | fatalError
  | nullDeref
  | outOfBounds
deriving DecidableEq, Repr

/-- Calls and messages of the registry, in the order they happen. -/
inductive RegEvent
  | pinit (api : Nat)
  | ctor (api : Nat) (index : Nat)
  | warn_proto (id : Nat) (old_index : Nat) (new_index : Nat)
  | pterm (api : Nat)
  | dtor (api : Nat) (index : Nat)
  | tinit (api : Nat)
  | tterm (api : Nat)
  | warn_grinder (old_index : Nat) (new_index : Nat)
deriving DecidableEq, Repr

/-- The process-wide statics of packet_manager.cc. -/
structure Registry where
  s_codecs : List CodecApi
  s_proto_map : Nat → Nat
  s_protocols : Nat → Option Codec
  /-- The function-local static of `instantiate`. -/
  codec_id : Nat
  /-- The function-local static of `api_instantiated`; `none` until the first
  call constructs it. -/
  instantiated_api : Option (List Bool)
  g_stats : Nat → Nat
  /-- Record of the hooks called and warnings written (not read by the program). -/
  log : List RegEvent
  /-- Record of the codecs bound so far with their index, oldest first (not
  read by the program). -/
  history : List (Nat × Codec)

/-- The thread-local statics of packet_manager.cc. -/
structure ThreadCtx where
  grinder : Nat
  s_stats : Nat → Nat
  encode_pkt : Option Packet
  total_rebuilt_pkts : Nat
  s_rand : Bool
  /-- The scratch buffer `s_pkt` of the encoders. -/
  s_pkt : List Nat

/-- The statics at program start. -/
def Registry.start : Registry :=
  { s_codecs := [], s_proto_map := fun _ => 0, s_protocols := fun _ => none,
    codec_id := 1, instantiated_api := none, g_stats := fun _ => 0,
    log := [], history := [] }

/-- Read of `s_proto_map[id]`. -/
def protoMapAt (r : Registry) (id : Nat) : Except Fault Nat :=
  if id < max_protocol_id then .ok (r.s_proto_map id) else .error .outOfBounds

/-- Read of `s_protocols[i]` followed by a call through the pointer. -/
def codecAt (r : Registry) (i : Nat) : Except Fault Codec :=
  if i < UINT8_MAX then
    match r.s_protocols i with
    | some cd => .ok cd
    | none => .error .nullDeref
  else .error .outOfBounds

/-- The increment `s[i]++` of a statistics array (`PegCount` is a 64-bit
counter, taken as unbounded). -/
def bump (s : Nat → Nat) (i : Nat) : Nat → Nat :=
  fun j => if j = i then s j + 1 else s j

/-- The sum of the lengths of the first `n` layer slots. -/
def layerLenSum (layers : Nat → Layer) : Nat → Nat
  | 0 => 0
  | n + 1 => layerLenSum layers n + (layers n).length

/-! ## Registration and instantiation -/

/-- The test `!strncasecmp(name, keyword, strlen(name))`: the first
`strlen(name)` characters of both agree, letter case aside. -/
def strncasecmp_zero (name : String) (keyword : String) : Bool :=
  (name.toList.map Char.toLower).isPrefixOf (keyword.toList.map Char.toLower)

/-- The loop of `get_codec`, `n` rounds from index `i` on. -/
def get_codec_loop (r : Registry) (keyword : String) : Nat → Nat → Nat
  | 0, _ => 0
  | n + 1, i =>
    match r.s_protocols i with
    | some cd => if strncasecmp_zero cd.name keyword then i else get_codec_loop r keyword n (i + 1)
    | none => get_codec_loop r keyword n (i + 1)

/-- The helper `get_codec`: the search runs over the indices 1 .. 254. -/
def get_codec (r : Registry) (keyword : String) : Nat :=
  get_codec_loop r keyword (UINT8_MAX - 1) 1

/-- The position `std::find` returns for a descriptor address, `none` for `end()`. -/
def findApi : List CodecApi → Nat → Option Nat
  | [], _ => none
  | a :: rest, addr => if a.addr = addr then some 0 else (findApi rest addr).map (· + 1)

/-- The static vector `instantiated_api` of `api_instantiated`: built at the
first call, all false, with the size `s_codecs` has then. -/
def instantiatedFlags (r : Registry) : List Bool :=
  match r.instantiated_api with
  | some v => v
  | none => List.replicate r.s_codecs.length false

/-- The helper `api_instantiated`; an index behind its static vector is a fault. -/
def api_instantiated (cd_api : CodecApi) (r : Registry) : Except Fault (Bool × Registry) :=
  match findApi r.s_codecs cd_api.addr with
  | none => .error .fatalError
  | some pos =>
    if pos < (instantiatedFlags r).length then
      if (instantiatedFlags r).getD pos false = true then
        .ok (true, { r with instantiated_api := some (instantiatedFlags r) })
      else .ok (false, { r with instantiated_api := some ((instantiatedFlags r).set pos true) })
    else .error .outOfBounds

/-- The function `PacketManager::add_plugin`. -/
def add_plugin (api : CodecApi) (r : Registry) : Except Fault Registry :=
  if api.ctor.isNone = true then .error .fatalError
  else if api.dtor = false then .error .fatalError
  else .ok { r with s_codecs := r.s_codecs ++ [api] }

/-- The loop over the protocol ids in `instantiate`: warn when the id is taken
(the message reads the name of the codec that holds it), then store the new
index. -/
def installIds : List Nat → Registry → Except Fault Registry
  | [], r => .ok r
  | id :: ids, r =>
    if id < max_protocol_id then
      if r.s_proto_map id ≠ 0 then
        match codecAt r (r.s_proto_map id) with
        | .error f => .error f
        | .ok _ =>
          installIds ids
            { r with
                log := r.log ++ [RegEvent.warn_proto id (r.s_proto_map id) r.codec_id],
                s_proto_map := fun j => if j = id then u8 r.codec_id else r.s_proto_map j }
      else
        installIds ids
          { r with s_proto_map := fun j => if j = id then u8 r.codec_id else r.s_proto_map j }
    else .error .outOfBounds

/-- The function `PacketManager::instantiate(cd_api, m, sc)`. -/
def instantiate (cd_api : CodecApi) (m : Nat) (r : Registry) : Except Fault Registry :=
  match api_instantiated cd_api r with
  | .error f => .error f
  | .ok (true, r1) => .ok r1
  | .ok (false, r1) =>
    if r1.codec_id ≥ UINT8_MAX then .error .fatalError
    else
      let r2 : Registry :=
        { r1 with
            log := r1.log ++ (if cd_api.pinit = true then [RegEvent.pinit cd_api.addr] else []) }
      match cd_api.ctor with
      | none => .error .nullDeref
      | some ctor =>
        let cd := ctor m
        match installIds cd.protocol_ids
            { r2 with log := r2.log ++ [RegEvent.ctor cd_api.addr r2.codec_id] } with
        | .error f => .error f
        | .ok r3 =>
          .ok { r3 with
                  s_protocols := fun i => if i = r3.codec_id then some cd else r3.s_protocols i,
                  codec_id := r3.codec_id + 1,
                  history := r3.history ++ [(r3.codec_id, cd)] }

/-- The loop `for (auto p : s_codecs) instantiate(p, nullptr, nullptr)`. -/
def instantiateEach : List CodecApi → Registry → Except Fault Registry
  | [], r => .ok r
  | a :: rest, r =>
    match instantiate a 0 r with
    | .error f => .error f
    | .ok r1 => instantiateEach rest r1

/-- The function `PacketManager::instantiate()`; `default_codec` is the
external descriptor of that name. -/
def instantiate_all (default_codec : CodecApi) (r : Registry) : Except Fault Registry :=
  match add_plugin default_codec r with
  | .error f => .error f
  | .ok r1 =>
    match instantiate default_codec 0 r1 with
    | .error f => .error f
    | .ok r2 =>
      let r3 : Registry :=
        { r2 with
            s_protocols := fun i =>
              if i = 0 then r2.s_protocols (get_codec r2 default_codec.name)
              else r2.s_protocols i }
      instantiateEach r3.s_codecs r3

/-- A call into the registry during start-up. -/
inductive RegOp
  | add_plugin (api : CodecApi)
  | instantiate (api : CodecApi) (m : Nat)
  | instantiate_all

/-- One start-up call. -/
def runOp (default_codec : CodecApi) (op : RegOp) (r : Registry) : Except Fault Registry :=
  match op with
  | .add_plugin api => add_plugin api r
  | .instantiate api m => instantiate api m r
  | .instantiate_all => instantiate_all default_codec r

/-- A sequence of start-up calls, stopping at the first fault. -/
def runOps (default_codec : CodecApi) : List RegOp → Registry → Except Fault Registry
  | [], r => .ok r
  | op :: ops, r =>
    match runOp default_codec op r with
    | .error f => .error f
    | .ok r1 => runOps default_codec ops r1

/-- The index of the most recently bound codec of the history that claims
`id`, and 0 when none does. -/
def lastClaimer (history : List (Nat × Codec)) (id : Nat) : Nat :=
  history.foldl (fun acc e => if id ∈ e.2.protocol_ids then e.1 else acc) 0

/-- The protocol map agrees with the history of bound codecs, and every codec
of the history sits in the slot of its index. -/
def RegistryInv (r : Registry) : Prop :=
  (∀ id, id < max_protocol_id → r.s_proto_map id = lastClaimer r.history id) ∧
  (∀ e, e ∈ r.history → 1 ≤ e.1 ∧ e.1 < r.codec_id ∧ r.s_protocols e.1 = some e.2) ∧
  1 ≤ r.codec_id

/-! ## Decode -/

/-- The events PacketManager::decode raises through `codec_events::decoder_event`. -/
inductive DecodeEvent
  | DECODE_TOO_MANY_LAYERS
  | DECODE_IP_MULTIPLE_ENCAPSULATION
deriving DecidableEq, Repr

/-- How a run of `decode` ends. `finished`: ran to the end of the function;
`tooManyLayers`: the return inside the loop; `fault`: stopped without
returning; `fuelExhausted`: the iteration bound of the embedding was hit. -/
inductive DecodeStatus
  | finished
  | tooManyLayers
  | fault (f : Fault)
  | fuelExhausted
deriving DecidableEq, Repr

/-- The packet, the per-thread statistics, the event sink and the locals of
`decode`, together with counters of what has happened so far. -/
structure DecodeState where
  p : Packet
  s_stats : Nat → Nat
  events : List DecodeEvent
  /-- Number of times `push_layer` logged its warning. -/
  warnings : Nat
  prot_id : Nat
  mapped_prot : Nat
  prev_prot_id : Nat
  lyr_len : Nat
  len : Nat
  /-- The cursor `pkt`, as an offset into the frame. -/
  pkt : Nat
  /-- Number of codec `decode` calls made. -/
  calls : Nat
  /-- Number of codec `decode` calls that returned true. -/
  accepted : Nat
  /-- Whether `ip_util::CheckIPv6ExtensionOrder` was called. -/
  ip6_order_checked : Bool

/-- The helper `push_layer`; the second component tells whether the warning
branch was taken. -/
def push_layer (b : Build) (p : Packet) (prot_id : Nat) (hdr_start : Nat) (len : Nat)
    (cd : Codec) : Packet × Bool :=
  if p.num_layers < b.LAYER_MAX then
    ({ p with
        layers := fun j =>
          if j = p.num_layers then
            { proto := cd.proto_id, prot_id := prot_id, start := hdr_start, length := u16 len }
          else p.layers j,
        num_layers := p.num_layers + 1 }, false)
  else (p, true)

/-- Outcome of one evaluation of the loop condition and, when it holds, of the
loop body. -/
inductive LoopStep
  | next (st : DecodeState)
  | stop (s : DecodeStatus) (st : DecodeState)

/-- One round of the `while` loop of `decode`: the codec call of the loop
condition, then the body. -/
def decodeStep (b : Build) (r : Registry) (st : DecodeState) : LoopStep :=
  match codecAt r st.mapped_prot with
  | .error f => .stop (.fault f) st
  | .ok cd =>
    let out := cd.decode st.pkt st.len st.p st.lyr_len st.prot_id
    let st1 : DecodeState :=
      { st with
          p := { st.p with cf := out.cf },
          lyr_len := u16 out.lyr_len,
          prot_id := u16 out.prot_id,
          calls := st.calls + 1 }
    if out.ok = false then .stop .finished st1
    else
      let st2 : DecodeState := { st1 with accepted := st1.accepted + 1 }
      if st2.p.num_layers = b.LAYER_MAX then
        .stop .tooManyLayers
          { st2 with
              events := st2.events ++ [DecodeEvent.DECODE_TOO_MANY_LAYERS],
              p := { st2.p with dsize := u16 st2.len, data := st2.pkt } }
      else
        let pw := push_layer b st2.p st2.prev_prot_id st2.pkt st2.lyr_len cd
        let st3 : DecodeState :=
          { st2 with
              p := pw.1,
              warnings := st2.warnings + (if pw.2 then 1 else 0),
              s_stats := bump st2.s_stats (st2.mapped_prot + stat_offset) }
        match protoMapAt r st3.prot_id with
        | .error f => .stop (.fault f) st3
        | .ok m =>
          .next
            { st3 with
                mapped_prot := m,
                prev_prot_id := st3.prot_id,
                prot_id := b.FINISHED_DECODE,
                len := sub32 st3.len st3.lyr_len,
                pkt := st3.pkt + st3.lyr_len,
                lyr_len := 0 }

/-- The `while` loop of `decode`, at most `fuel` rounds. -/
def decodeLoop (b : Build) (r : Registry) : Nat → DecodeState → DecodeStatus × DecodeState
  | 0, st => (.fuelExhausted, st)
  | fuel + 1, st =>
    match decodeStep b r st with
    | .stop s st1 => (s, st1)
    | .next st1 => decodeLoop b r fuel st1

/-- Read of `p->layers[i]` in `decode`. -/
def layerAt (b : Build) (p : Packet) (i : Nat) : Except Fault Layer :=
  if i < b.LAYER_MAX then .ok (p.layers i) else .error .outOfBounds

/-- The first part of what follows the loop: the accounting of a refused
layer (`if (prev_prot_id != FINISHED_DECODE) ...`). -/
def decodeRefused (b : Build) (r : Registry) (st : DecodeState) : Except Fault DecodeState :=
  if st.prev_prot_id ≠ b.FINISHED_DECODE then
    if st.p.cf.decode_flags &&& b.DECODE__UNSURE_ENCAP = 0 then
      match protoMapAt r st.prev_prot_id with
      | .error f => .error f
      | .ok m =>
        if m ≠ 0 then .ok { st with s_stats := bump st.s_stats discards }
        else .ok { st with s_stats := bump st.s_stats other_codecs }
    else
      match layerAt b st.p st.p.num_layers with
      | .error f => .error f
      | .ok l =>
        if l.prot_id = b.IPPROTO_ID_ESP then
          .ok { st with
                  p := { st.p with
                          cf := { st.p.cf with
                                  packet_flags := st.p.cf.packet_flags ||| b.PKT_TRUST } } }
        else .ok st
  else .ok st

/-- The rest of `decode` after the loop. -/
def decodeFinish (b : Build) (sc : SnortConfig) (r : Registry) (st : DecodeState) :
    DecodeStatus × DecodeState :=
  match decodeRefused b r st with
  | .error f => (.fault f, st)
  | .ok st1 =>
    let st2 : DecodeState :=
      if sc.max_encapsulations ≠ -1 ∧ (st1.p.cf.encapsulations : Int) > sc.max_encapsulations then
        { st1 with events := st1.events ++ [DecodeEvent.DECODE_IP_MULTIPLE_ENCAPSULATION] }
      else st1
    let st3 : DecodeState :=
      if st2.p.cf.ip6_extension_count > 0 then { st2 with ip6_order_checked := true } else st2
    let st4 : DecodeState :=
      { st3 with s_stats := bump st3.s_stats (st3.mapped_prot + stat_offset) }
    (.finished, { st4 with p := { st4.p with dsize := u16 st4.len, data := st4.pkt } })

/-- The codec-facing fields after `memset(p, 0, PKT_ZERO_LEN)`. -/
def CodecFields.zero : CodecFields :=
  { decode_flags := 0, packet_flags := 0, proto_bits := 0, encapsulations := 0,
    ip6_extension_count := 0, ptrs := 0 }

/-- The state of `decode` when the loop is entered: the packet is cleared
(`memset` up to `PKT_ZERO_LEN` resets the layer count and the codec-facing
fields; the layer slots keep what they held, and `data`, `dsize` are not
cleared, as the closing comment of `decode` says), the capture header and the
frame are bound, `total` is counted.  `prot_id0` is the indeterminate first
value of the local `prot_id`. -/
def decodeInit (b : Build) (t : ThreadCtx) (p : Packet) (pkthdr : DAQ_PktHdr)
    (pkt : List Nat) (prot_id0 : Nat) : DecodeState :=
  { p := { p with num_layers := 0, cf := CodecFields.zero, pkth := pkthdr, pkt := pkt },
    s_stats := bump t.s_stats total_processed,
    events := [],
    warnings := 0,
    prot_id := u16 prot_id0,
    mapped_prot := t.grinder,
    prev_prot_id := b.FINISHED_DECODE,
    lyr_len := 0,
    len := u32 pkthdr.caplen,
    pkt := 0,
    calls := 0,
    accepted := 0,
    ip6_order_checked := false }

/-- The result of a run of `decode`. -/
structure DecodeResult where
  status : DecodeStatus
  st : DecodeState

/-- The function `PacketManager::decode`.  The loop gets `LAYER_MAX + 1` rounds,
which it never uses up (`decode_terminates`). -/
def decode (b : Build) (sc : SnortConfig) (r : Registry) (t : ThreadCtx) (p : Packet)
    (pkthdr : DAQ_PktHdr) (pkt : List Nat) (prot_id0 : Nat) : DecodeResult :=
  match decodeLoop b r (b.LAYER_MAX + 1) (decodeInit b t p pkthdr pkt prot_id0) with
  | (.finished, st) =>
    let fin := decodeFinish b sc r st
    { status := fin.1, st := fin.2 }
  | (s, st) => { status := s, st := st }

/-- Codecs that never accept a header longer than the bytes that remain. -/
def CodecsWithinLength (r : Registry) : Prop :=
  ∀ i cd, r.s_protocols i = some cd →
    ∀ cur len p lyr_len prot_id,
      (cd.decode cur len p lyr_len prot_id).ok = true →
      u16 (cd.decode cur len p lyr_len prot_id).lyr_len ≤ len

/-! ## Encode -/

/-- The choice `i ? s_proto_map[l->prot_id] : grinder` of the encoders. -/
def mappedProt (r : Registry) (t : ThreadCtx) (i : Nat) (l : Layer) : Except Fault Nat :=
  if i ≠ 0 then protoMapAt r l.prot_id else .ok t.grinder

/-- One call of a codec's `encode` as `encode_packet` makes it: the loop index,
`enc->layer` at the call, the codec index, the third argument and the return
value. -/
structure EncodeCall where
  i : Nat
  enc_layer : Int
  mapped_prot : Nat
  hdr_start : Nat
  ok : Bool
deriving DecidableEq, Repr

/-- The arguments of a call without its return value. -/
def EncodeCall.args (c : EncodeCall) : Nat × Int × Nat × Nat :=
  (c.i, c.enc_layer, c.mapped_prot, c.hdr_start)

/-- How an encoder ends: it returned, or it stopped at a fault. -/
inductive EncodeStatus
  | returned
  | fault (f : Fault)
deriving DecidableEq, Repr

/-- The state the loop of `encode_packet` works on, and the calls made so far. -/
structure EncLoopState where
  enc : EncState
  obuf : Buffer
  mem : List Nat
  calls : List EncodeCall

/-- How the loop of `encode_packet` ends. -/
inductive EncLoopExit
  | done
  | failed
  | fault (f : Fault)
deriving DecidableEq, Repr

/-- The loop `for (int i = p->num_layers-1; i >= 0; i--)` of `encode_packet`;
the first argument is `i + 1`. -/
def encodeLoop (r : Registry) (t : ThreadCtx) (p : Packet) :
    Nat → EncLoopState → EncLoopExit × EncLoopState
  | 0, st => (.done, st)
  | i + 1, st =>
    let l := p.layers i
    let enc1 : EncState := { st.enc with layer := st.enc.layer - 1 }
    match mappedProt r t i l with
    | .error f => (.fault f, { st with enc := enc1 })
    | .ok mapped_prot =>
      match codecAt r mapped_prot with
      | .error f => (.fault f, { st with enc := enc1 })
      | .ok cd =>
        let out := cd.encode enc1 st.obuf st.mem l.start
        let st1 : EncLoopState :=
          { enc := { enc1 with proto := out.proto },
            obuf := out.obuf,
            mem := out.mem,
            calls := st.calls ++
              [{ i := i, enc_layer := enc1.layer, mapped_prot := mapped_prot,
                 hdr_start := l.start, ok := out.ok }] }
        if out.ok = false then (.failed, st1) else encodeLoop r t p i st1

/-- What `encode_packet` leaves behind: the returned pointer (`none` for
`nullptr`, otherwise an offset from the start of `s_pkt`), `*len`, and the
final encoder state, cursor, scratch bytes and calls. -/
structure EncodeResult where
  status : EncodeStatus
  buf : Option Nat
  len : Nat
  enc : EncState
  obuf : Buffer
  mem : List Nat
  calls : List EncodeCall

/-- The helper `encode_packet`; `len0` is what `*len` held before. -/
def encode_packet (b : Build) (r : Registry) (t : ThreadCtx) (enc : EncState) (p : Packet)
    (len0 : Nat) : EncodeResult :=
  let obuf : Buffer := { base := b.PKT_MAX + 1, off := 0, end_ := 0, size := b.PKT_MAX }
  let enc0 : EncState := { enc with layer := p.num_layers, p := p }
  match encodeLoop r t p p.num_layers { enc := enc0, obuf := obuf, mem := t.s_pkt, calls := [] } with
  | (.fault f, st) =>
    { status := .fault f, buf := none, len := len0, enc := st.enc, obuf := st.obuf,
      mem := st.mem, calls := st.calls }
  | (.failed, st) =>
    { status := .returned, buf := none, len := 0, enc := st.enc, obuf := st.obuf,
      mem := st.mem, calls := st.calls }
  | (.done, st) =>
    { status := .returned, buf := some (st.obuf.base + st.obuf.off), len := u32 st.obuf.end_,
      enc := st.enc, obuf := st.obuf, mem := st.mem, calls := st.calls }

/-- The packet `encode_response` encodes: `encode_pkt` when it is set. -/
def encodeTarget (t : ThreadCtx) (p : Packet) : Packet :=
  match t.encode_pkt with
  | some q => q
  | none => p

/-- The function `PacketManager::encode_response`. -/
def encode_response (b : Build) (r : Registry) (t : ThreadCtx) (type : Nat) (flags : Nat)
    (p : Packet) (len0 : Nat) (payLoad : List Nat) (payLen : Nat) : EncodeResult :=
  let enc : EncState :=
    { enc_type := type, flags := flags, payLoad := payLoad, payLen := payLen, proto := 0,
      layer := 0, p := p }
  encode_packet b r t enc (encodeTarget t p) len0

/-- The calls `encode_packet` makes for the layers below index `n` when no
call fails: innermost first, each with its own index in `enc->layer`, the
grinder for layer 0 and the mapped codec otherwise, and the layer's header
start. -/
def expectedEncodeCalls (r : Registry) (t : ThreadCtx) (p : Packet) : Nat → List (Nat × Int × Nat × Nat)
  | 0 => []
  | i + 1 =>
    (i, (i : Int), (if i ≠ 0 then r.s_proto_map (p.layers i).prot_id else t.grinder),
      (p.layers i).start) :: expectedEncodeCalls r t p i

/-! ## Update -/

/-- One call of a codec's `update`: the layer, the codec index and the length
accumulator before and after. -/
structure UpdateCall where
  i : Nat
  mapped_prot : Nat
  len_in : Nat
  len_out : Nat
deriving DecidableEq, Repr

/-- The packet, the accumulator `len` and the calls made so far. -/
structure UpdateState where
  p : Packet
  len : Nat
  calls : List UpdateCall

/-- The loop `for (i = p->num_layers - 1; i >= 0; i--)` of `encode_update`;
the first argument is `i + 1`. -/
def updateLoop (r : Registry) (t : ThreadCtx) : Nat → UpdateState → Option Fault × UpdateState
  | 0, st => (none, st)
  | i + 1, st =>
    match mappedProt r t i (st.p.layers i) with
    | .error f => (some f, st)
    | .ok mapped_prot =>
      match codecAt r mapped_prot with
      | .error f => (some f, st)
      | .ok cd =>
        let out := cd.update st.p i st.len
        updateLoop r t i
          { p := { st.p with pkt := out.pkt },
            len := u32 out.len,
            calls := st.calls ++
              [{ i := i, mapped_prot := mapped_prot, len_in := st.len, len_out := u32 out.len }] }

/-- What `encode_update` leaves behind. -/
structure UpdateResult where
  status : EncodeStatus
  p : Packet
  len : Nat
  calls : List UpdateCall

/-- The function `PacketManager::encode_update`. -/
def encode_update (b : Build) (r : Registry) (t : ThreadCtx) (p : Packet) : UpdateResult :=
  match updateLoop r t p.num_layers { p := p, len := 0, calls := [] } with
  | (some f, st) => { status := .fault f, p := st.p, len := st.len, calls := st.calls }
  | (none, st) =>
    if st.p.cf.packet_flags &&& b.PKT_MODIFIED = 0 ∨ st.p.cf.packet_flags &&& b.PKT_RESIZED ≠ 0 then
      { status := .returned,
        p := { st.p with pkth := { st.p.pkth with caplen := st.len, pktlen := st.len } },
        len := st.len, calls := st.calls }
    else { status := .returned, p := st.p, len := st.len, calls := st.calls }

/-- The accumulator is handed from call to call: it enters the first call as
`a`, every call gets what the call before it left, and `z` is what the last
call left. -/
def threaded : Nat → List UpdateCall → Nat → Prop
  | a, [], z => a = z
  | a, c :: cs, z => c.len_in = a ∧ threaded c.len_out cs z

/-- The layer indices `n - 1, ..., 0`. -/
def innerToOuter : Nat → List Nat
  | 0 => []
  | i + 1 => i :: innerToOuter i

/-- Every layer of the packet resolves to a bound codec. -/
def LayersBound (r : Registry) (t : ThreadCtx) (p : Packet) : Prop :=
  ∀ i, i < p.num_layers →
    ∃ m cd, mappedProt r t i (p.layers i) = .ok m ∧ codecAt r m = .ok cd

/-! ## Format -/

/-- The loop behind `layer::get_inner_ip_lyr`, over the layers below `n`. -/
def get_inner_ip_loop (b : Build) (p : Packet) : Nat → Int
  | 0 => -1
  | i + 1 =>
    if b.is_ip_proto (p.layers i).proto = true then (i : Int) else get_inner_ip_loop b p i

/-- Modelled from the spec: `layer::get_inner_ip_lyr` is defined outside this
file; following "stopping copy at the innermost IP layer" it is the index of
the innermost layer with an IP tag, and -1 (the value `encode_format` tests
for) when there is none. -/
def get_inner_ip_lyr (b : Build) (p : Packet) : Int :=
  get_inner_ip_loop b p p.num_layers

/-- The value `x & ~m`. -/
def andNot (x : Nat) (m : Nat) : Nat := x ^^^ (x &&& m)

/-- One call of a codec's `format`: the layer index, the codec index, and the
clone layer behind `lyr` as it is handed to the callback. -/
structure FormatCall where
  i : Nat
  mapped_prot : Nat
  lyr : Layer
deriving DecidableEq, Repr

/-- How `encode_format_with_daq_info` ends: `return 0`, `return -1`, a failed
`assert`, or a fault. -/
inductive FormatStatus
  | ret0
  | retNeg1
  | assertFailed
  | fault (f : Fault)
deriving DecidableEq, Repr

/-- The clone and the calls made so far. -/
structure FormatState where
  c : Packet
  calls : List FormatCall

/-- The loop `for (i = 0; i < num_layers; i++)` of `encode_format_with_daq_info`:
`k` rounds from index `i` on. -/
def formatLoop (r : Registry) (t : ThreadCtx) (f : Nat) (p : Packet) :
    Nat → Nat → FormatState → Option Fault × FormatState
  | 0, _, st => (none, st)
  | k + 1, i, st =>
    let c1 : Packet :=
      { st.c with
          layers := fun j =>
            if j = i then
              { proto := (p.layers i).proto, prot_id := (p.layers i).prot_id,
                length := (p.layers i).length, start := (p.layers i).start }
            else st.c.layers j }
    match mappedProt r t i (c1.layers i) with
    | .error e => (some e, { st with c := c1 })
    | .ok mapped_prot =>
      match codecAt r mapped_prot with
      | .error e => (some e, { st with c := c1 })
      | .ok cd =>
        let out := cd.format f p c1 i
        formatLoop r t f p k (i + 1)
          { c := { c1 with
                    cf := out.cf, pkt := out.pkt,
                    layers := fun j => if j = i then out.lyr else c1.layers j },
            calls := st.calls ++ [{ i := i, mapped_prot := mapped_prot, lyr := c1.layers i }] }

/-- The capture header of the clone after the `#ifdef` block. -/
def cloneHeader (b : Build) (pkth : DAQ_PktHdr) (phdr : Option DAQ_PktHdr) (opaque_arg : Nat) :
    Except Fault DAQ_PktHdr :=
  match b.daq with
  | .HAVE_DAQ_ADDRESS_SPACE_ID =>
    match phdr with
    | none => .error .nullDeref
    | some h =>
      .ok { pkth with
              ingress_index := h.ingress_index,
              ingress_group := h.ingress_group,
              egress_index := h.egress_index,
              egress_group := h.egress_group,
              flags := andNot h.flags b.DAQ_PKT_FLAG_HW_TCP_CS_GOOD,
              address_space_id := h.address_space_id,
              opaque_val := opaque_arg }
  | .HAVE_DAQ_ACQUIRE_WITH_META => .ok { pkth with opaque_val := opaque_arg }
  | .plain => .ok pkth

/-- The number of layers `encode_format_with_daq_info` copies, as the `int`
it computes. -/
def copiedLayers (b : Build) (f : Nat) (p : Packet) : Int :=
  if f &&& b.ENC_FLAG_NET ≠ 0 then get_inner_ip_lyr b p + 1 else (p.num_layers : Int)

/-- The offset at which the last copied layer ends. -/
def copiedLen (b : Build) (f : Nat) (p : Packet) : Nat :=
  (p.layers ((copiedLayers b f p).toNat - 1)).start +
    (p.layers ((copiedLayers b f p).toNat - 1)).length

/-- What `encode_format_with_daq_info` leaves behind: the clone, the counter of
rebuilt packets, the `format` calls, and the number of bytes `memcpy` copied. -/
structure FormatResult where
  status : FormatStatus
  c : Packet
  total_rebuilt_pkts : Nat
  calls : List FormatCall
  copied : Nat

/-- The part of `encode_format_with_daq_info` from "setup payload info" on;
`n` is `num_layers`. -/
def formatFinish (b : Build) (t : ThreadCtx) (p : Packet) (type : Nat) (n : Nat)
    (copied : Nat) (st : FormatState) : FormatResult :=
  let lyr := st.c.layers (n - 1)
  let c1 : Packet := { st.c with num_layers := n, data := lyr.start + lyr.length }
  let len : Int := toInt32 (c1.data : Int)
  if b.NDEBUG = false ∧ ¬ (toUnsigned len < b.PKT_MAX - b.IP_MAXPACKET) then
    { status := .assertFailed, c := c1, total_rebuilt_pkts := t.total_rebuilt_pkts,
      calls := st.calls, copied := copied }
  else
    { status := .ret0,
      c := { c1 with
              max_dsize := (b.IP_MAXPACKET : Int) - len,
              cf := { c1.cf with
                      proto_bits := p.cf.proto_bits,
                      packet_flags := c1.cf.packet_flags ||| b.PKT_PSEUDO },
              pseudo_type := type,
              user_policy_id := p.user_policy_id,
              pkth := { c1.pkth with
                        caplen := toUnsigned len, pktlen := toUnsigned len, ts := p.pkth.ts } },
      total_rebuilt_pkts := t.total_rebuilt_pkts + 1,
      calls := st.calls, copied := copied }

/-- The function `PacketManager::encode_format_with_daq_info`. -/
def encode_format_with_daq_info (b : Build) (r : Registry) (t : ThreadCtx) (f : Nat)
    (p : Packet) (c : Packet) (type : Nat) (phdr : Option DAQ_PktHdr) (opaque_arg : Nat) :
    FormatResult :=
  if (p.num_layers : Int) ≤ 0 then
    { status := .retNeg1, c := c, total_rebuilt_pkts := t.total_rebuilt_pkts, calls := [],
      copied := 0 }
  else
    let c0 : Packet := { c with num_layers := 0, cf := CodecFields.zero }
    match cloneHeader b c0.pkth phdr opaque_arg with
    | .error e =>
      { status := .fault e, c := c0, total_rebuilt_pkts := t.total_rebuilt_pkts, calls := [],
        copied := 0 }
    | .ok pkth =>
      let c1 : Packet := { c0 with pkth := pkth }
      if f &&& b.ENC_FLAG_NET ≠ 0 ∧ copiedLayers b f p = 0 then
        { status := .retNeg1, c := c1, total_rebuilt_pkts := t.total_rebuilt_pkts, calls := [],
          copied := 0 }
      else
        let n : Nat := (copiedLayers b f p).toNat
        let len : Int := toInt32 ((copiedLen b f p : Nat) : Int)
        if len < 0 then
          { status := .fault .outOfBounds, c := c1, total_rebuilt_pkts := t.total_rebuilt_pkts,
            calls := [], copied := 0 }
        else
          let c2 : Packet :=
            { c1 with pkt := p.pkt.take len.toNat ++ c1.pkt.drop len.toNat }
          match formatLoop r t f p n 0 { c := c2, calls := [] } with
          | (some e, st) =>
            { status := .fault e, c := st.c, total_rebuilt_pkts := t.total_rebuilt_pkts,
              calls := st.calls, copied := len.toNat }
          | (none, st) => formatFinish b t p type n len.toNat st

/-- A registry and thread on which the decode loop cannot fault: the grinder
and every mapped index name a bound codec, and no codec hands on a protocol id
outside the map. -/
def DecodeReady (r : Registry) (t : ThreadCtx) : Prop :=
  (∃ cd, codecAt r t.grinder = .ok cd) ∧
  (∀ id, id < max_protocol_id → ∃ cd, codecAt r (r.s_proto_map id) = .ok cd) ∧
  (∀ i cd, r.s_protocols i = some cd →
    ∀ cur len p lyr_len prot_id,
      u16 (cd.decode cur len p lyr_len prot_id).prot_id < max_protocol_id)

/-! ## Sample build, codecs and registries

Concrete values on which the theorems are exercised.  The numeric values of
the header constants are sample values; the codecs are small stand-ins for the
plugins. -/

/-- A sample build: 32 layers (the design default), asserts compiled in, and
`PKT_MAX - IP_MAXPACKET` = 14 + 4 + 1500 as the comment at the `assert` of
`encode_format_with_daq_info` has it. -/
def sampleBuild : Build :=
  { LAYER_MAX := 32, FINISHED_DECODE := 256, IPPROTO_ID_ESP := 50,
    DECODE__UNSURE_ENCAP := 8, PKT_TRUST := 16, PKT_MODIFIED := 1, PKT_RESIZED := 2,
    PKT_PSEUDO := 4, ENC_FLAG_NET := 1, PKT_MAX := 67053, IP_MAXPACKET := 65535,
    DAQ_PKT_FLAG_HW_TCP_CS_GOOD := 8, daq := .HAVE_DAQ_ADDRESS_SPACE_ID, NDEBUG := false,
    is_ip_proto := fun t => t == 2 || t == 3 }

/-- A codec that refuses every header and leaves everything as it found it. -/
def nullCodec : Codec :=
  { name := "unknown", proto_id := 0, protocol_ids := [256], data_link_types := [],
    decode := fun _ _ p lyr_len prot_id =>
      { ok := false, lyr_len := lyr_len, prot_id := prot_id, cf := p.cf },
    encode := fun enc obuf mem _ => { ok := true, proto := enc.proto, obuf := obuf, mem := mem },
    update := fun p _ len => { len := len, pkt := p.pkt },
    format := fun _ _ c i => { cf := c.cf, pkt := c.pkt, lyr := c.layers i } }

/-- A codec that accepts every header with length zero and hands on protocol 0. -/
def greedyCodec : Codec :=
  { nullCodec with
    name := "greedy",
    decode := fun _ _ p _ _ => { ok := true, lyr_len := 0, prot_id := 0, cf := p.cf } }

/-- A registry whose only codec sits in slot 0. -/
def registryOf (cd : Codec) : Registry :=
  { Registry.start with s_protocols := fun i => if i = 0 then some cd else none }

/-- A thread that has just been set up, with the given grinder. -/
def threadOf (grinder : Nat) : ThreadCtx :=
  { grinder := grinder, s_stats := fun _ => 0, encode_pkt := none, total_rebuilt_pkts := 0,
    s_rand := true, s_pkt := [] }

/-- A capture header with the given capture length. -/
def hdrOf (caplen : Nat) : DAQ_PktHdr :=
  { ts := 0, caplen := caplen, pktlen := caplen, ingress_index := 0, egress_index := 0,
    ingress_group := 0, egress_group := 0, flags := 0, opaque_val := 0, address_space_id := 0 }

/-- A packet object before its first use. -/
def blankPacket : Packet :=
  { pkth := hdrOf 0, pkt := [], data := 0, dsize := 0, max_dsize := 0, num_layers := 0,
    layers := fun _ => { proto := 0, prot_id := 0, start := 0, length := 0 },
    cf := CodecFields.zero, pseudo_type := 0, user_policy_id := 0 }

/-- A codec that accepts a 20-byte header whatever is left of the frame. -/
def overlongCodec : Codec :=
  { nullCodec with
    name := "overlong", protocol_ids := [],
    decode := fun _ _ p _ _ => { ok := true, lyr_len := 20, prot_id := 5, cf := p.cf } }

/-- A registry with `null` codec in slot 0 and `cd` in slot 1. -/
def registryWith (cd : Codec) : Registry :=
  { Registry.start with
    s_protocols := fun i => if i = 0 then some nullCodec else if i = 1 then some cd else none,
    codec_id := 2 }

/-- A link-layer stand-in: a 14-byte header, the next protocol read from its
last two bytes. -/
def ethCodec : Codec :=
  { nullCodec with
    name := "eth", proto_id := 1, protocol_ids := [], data_link_types := [1],
    update := fun p i len => { len := len + (p.layers i).length, pkt := p.pkt },
    decode := fun cur len p lyr_len prot_id =>
      if 14 ≤ len then
        { ok := true, lyr_len := 14,
          prot_id := p.pkt.getD (cur + 12) 0 * 256 + p.pkt.getD (cur + 13) 0, cf := p.cf }
      else { ok := false, lyr_len := lyr_len, prot_id := prot_id, cf := p.cf } }

/-- A 60-byte frame whose bytes 12 and 13 hold the given type. -/
def ethFrame (ethertype : Nat) : List Nat :=
  List.replicate 12 0 ++ [ethertype / 256, ethertype % 256] ++ List.replicate 46 0

/-- An IPv4 stand-in: a 20-byte header, the next protocol read from byte 9. -/
def ipv4Codec : Codec :=
  { nullCodec with
    name := "ipv4", proto_id := 2, protocol_ids := [2048, 4], data_link_types := [],
    update := fun p i len => { len := len + (p.layers i).length, pkt := p.pkt },
    decode := fun cur len p lyr_len prot_id =>
      if 20 ≤ len then
        { ok := true, lyr_len := 20, prot_id := p.pkt.getD (cur + 9) 0,
          cf := { p.cf with
                  encapsulations :=
                    if p.cf.ptrs = 0 then p.cf.encapsulations else p.cf.encapsulations + 1,
                  ptrs := 1 } }
      else { ok := false, lyr_len := lyr_len, prot_id := prot_id, cf := p.cf } }

/-- An IPv6 stand-in: a 40-byte header, the next protocol read from byte 6; an
IP header inside another one counts as an encapsulation. -/
def ipv6Codec : Codec :=
  { nullCodec with
    name := "ipv6", proto_id := 3, protocol_ids := [34525, 41], data_link_types := [],
    update := fun p i len => { len := len + (p.layers i).length, pkt := p.pkt },
    decode := fun cur len p lyr_len prot_id =>
      if 40 ≤ len then
        { ok := true, lyr_len := 40, prot_id := p.pkt.getD (cur + 6) 0,
          cf := { p.cf with
                  encapsulations :=
                    if p.cf.ptrs = 0 then p.cf.encapsulations else p.cf.encapsulations + 1,
                  ptrs := 1 } }
      else { ok := false, lyr_len := lyr_len, prot_id := prot_id, cf := p.cf } }

/-- A UDP stand-in: an 8-byte header, no next protocol. -/
def udpCodec : Codec :=
  { nullCodec with
    name := "udp", proto_id := 4, protocol_ids := [17], data_link_types := [],
    update := fun p i len => { len := len + (p.layers i).length + p.dsize, pkt := p.pkt },
    decode := fun _ len p lyr_len prot_id =>
      if 8 ≤ len then { ok := true, lyr_len := 8, prot_id := prot_id, cf := p.cf }
      else { ok := false, lyr_len := lyr_len, prot_id := prot_id, cf := p.cf } }

/-- A registry as instantiation leaves it: the default codec in slots 0 and 1,
then the link layer, IPv4, IPv6 and UDP. -/
def sampleRegistry : Registry :=
  { Registry.start with
    s_protocols := fun i =>
      if i = 0 then some nullCodec else if i = 1 then some nullCodec
      else if i = 2 then some ethCodec else if i = 3 then some ipv4Codec
      else if i = 4 then some ipv6Codec else if i = 5 then some udpCodec else none,
    s_proto_map := fun id =>
      if id = 256 then 1 else if id = 2048 then 3 else if id = 4 then 3
      else if id = 34525 then 4 else if id = 41 then 4 else if id = 17 then 5 else 0,
    codec_id := 6 }

/-- A 14-byte link-layer header carrying the given type. -/
def ethHdr (ethertype : Nat) : List Nat :=
  List.replicate 12 0 ++ [ethertype / 256, ethertype % 256]

/-- A 20-byte IPv4 header carrying the given protocol. -/
def ip4Hdr (proto : Nat) : List Nat :=
  List.replicate 9 0 ++ [proto] ++ List.replicate 10 0

/-- A 40-byte IPv6 header carrying the given next header. -/
def ip6Hdr (next : Nat) : List Nat :=
  List.replicate 6 0 ++ [next] ++ List.replicate 33 0

/-- A link-layer header followed by `n + 1` IPv6 headers, each but the last
announcing another IPv6 header, and 8 bytes of payload. -/
def nestedIp6Frame (n : Nat) : List Nat :=
  ethHdr 34525 ++ (List.replicate n (ip6Hdr 41)).flatten ++ ip6Hdr 59 ++ List.replicate 8 0

/-- A descriptor at the given address whose constructor yields `cd`. -/
def apiOf (addr : Nat) (cd : Codec) : CodecApi :=
  { addr := addr, name := cd.name, pinit := true, pterm := true, tinit := false, tterm := false,
    ctor := some (fun _ => cd), dtor := true }

/-- The registry a start-up sequence ends with (the start state if it faults). -/
def registryAfter (default_codec : CodecApi) (ops : List RegOp) : Registry :=
  match runOps default_codec ops Registry.start with
  | .ok r => r
  | .error _ => Registry.start

/-- Start-up in which the link layer and IPv4 stand-ins are registered and
bound in this order; both list further ids, and the IPv4 stand-in is bound
last. -/
def sampleOps : List RegOp :=
  [.add_plugin (apiOf 100 { ethCodec with protocol_ids := [2048, 9] }),
   .add_plugin (apiOf 200 ipv4Codec),
   .instantiate (apiOf 100 { ethCodec with protocol_ids := [2048, 9] }) 0,
   .instantiate (apiOf 200 ipv4Codec) 0,
   .instantiate (apiOf 100 { ethCodec with protocol_ids := [2048, 9] }) 0]

/-- The IPv4 stand-in with an `encode` that gives up. -/
def refusingCodec : Codec :=
  { ipv4Codec with
    encode := fun enc obuf mem _ => { ok := false, proto := enc.proto, obuf := obuf, mem := mem } }

/-- The sample registry with the refusing codec in the IPv4 slot. -/
def refusingRegistry : Registry :=
  { sampleRegistry with
    s_protocols := fun i => if i = 3 then some refusingCodec else sampleRegistry.s_protocols i }

/-- The frame of scenario S1: link layer, IPv4, UDP and 18 bytes of payload. -/
def udpFrame : List Nat :=
  ethHdr 2048 ++ ip4Hdr 17 ++ List.replicate 8 0 ++ List.replicate 18 0

/-- The packet decode produces from the frame of scenario S1. -/
def udpPacket : Packet :=
  (decode sampleBuild ⟨-1⟩ sampleRegistry (threadOf 2) blankPacket (hdrOf 60) udpFrame 0).st.p

/-- An encoder state as `encode_response` sets it up. -/
def sampleEnc : EncState :=
  { enc_type := 0, flags := 0, payLoad := [], payLen := 0, proto := 0, layer := 0,
    p := blankPacket }

/-- A source packet with a single layer of 2000 bytes. -/
def longPacket : Packet :=
  { blankPacket with
    num_layers := 1,
    layers := fun _ => { proto := 1, prot_id := 256, start := 0, length := 2000 },
    pkt := List.replicate 2000 0 }

/-- The sample build with `assert` compiled out. -/
def releaseBuild : Build := { sampleBuild with NDEBUG := true }

/-- A source packet with a link-layer header only. -/
def ethOnlyPacket : Packet :=
  { blankPacket with
    num_layers := 1,
    layers := fun _ => { proto := 1, prot_id := 256, start := 0, length := 14 },
    pkt := List.replicate 60 0 }

/-! ## Expected calls of the formatter -/

/-- The `format` calls of a clean run of the loop of
`encode_format_with_daq_info` over `k` layers from index `i` on: outermost
first, the grinder for layer 0 and the mapped codec otherwise, each handed a
clone layer with the four fields of the source layer. -/
def expectedFormatCalls (r : Registry) (t : ThreadCtx) (p : Packet) : Nat → Nat → List FormatCall
  | 0, _ => []
  | k + 1, i =>
    { i := i, mapped_prot := if i ≠ 0 then r.s_proto_map (p.layers i).prot_id else t.grinder,
      lyr := p.layers i } ::
      expectedFormatCalls r t p k (i + 1)

/-- The `format` callbacks of the bound codecs leave the layer behind `lyr` as
they find it. -/
def FormatKeepsLayer (r : Registry) (f : Nat) (p : Packet) : Prop :=
  ∀ idx cd, r.s_protocols idx = some cd → ∀ c i, (cd.format f p c i).lyr = c.layers i

/-- The offset at which the last layer of a packet ends. -/
def lastLayerEnd (c : Packet) : Nat :=
  (c.layers (c.num_layers - 1)).start + (c.layers (c.num_layers - 1)).length

/-- A source packet whose IPv4 header carries four bytes of options: a
link-layer header of 14 bytes and an IPv4 header of 24 bytes. -/
def optionsPacket : Packet :=
  { blankPacket with
    num_layers := 2,
    layers := fun j =>
      if j = 0 then { proto := 1, prot_id := 256, start := 0, length := 14 }
      else { proto := 2, prot_id := 2048, start := 14, length := 24 },
    pkt := List.replicate 60 0 }

/-- The IPv4 stand-in with a `format` that drops the options: it sets the
length of its layer to the 20 bytes of a plain header. -/
def plainHeaderCodec : Codec :=
  { ipv4Codec with
    format := fun _ _ c i =>
      { cf := c.cf, pkt := c.pkt, lyr := { c.layers i with length := 20 } } }

/-- The sample registry with the option-dropping codec in the IPv4 slot. -/
def plainHeaderRegistry : Registry :=
  { sampleRegistry with
    s_protocols := fun i =>
      if i = 3 then some plainHeaderCodec else sampleRegistry.s_protocols i }

/-! ## Further sample values -/

/-- A capture header that differs from `hdrOf 60` in its time stamp and in
every field `encode_format_with_daq_info` copies. -/
def stampedHdr : DAQ_PktHdr :=
  { hdrOf 60 with
    ts := 7, ingress_index := 3, egress_index := 4, ingress_group := 5, egress_group := 6,
    flags := 12, address_space_id := 2 }

/-- The sample build without either capture-header option. -/
def plainBuild : Build := { sampleBuild with daq := .plain }

/-- The sample build with `HAVE_DAQ_ACQUIRE_WITH_META` only. -/
def metaBuild : Build := { sampleBuild with daq := .HAVE_DAQ_ACQUIRE_WITH_META }

/-! ## Release and per-thread set-up -/

/-- One round of the loop of `release_plugins`: the `pterm` hook when there is
one, then the lookup by name and, for an index other than 0, the call of the
descriptor's `dtor` on that slot, which is emptied. -/
def releaseOne (p : CodecApi) (r : Registry) : Except Fault Registry :=
  let r1 : Registry :=
    { r with log := r.log ++ (if p.pterm = true then [RegEvent.pterm p.addr] else []) }
  if get_codec r1 p.name ≠ 0 then
    if p.dtor = true then
      .ok { r1 with
              log := r1.log ++ [RegEvent.dtor p.addr (get_codec r1 p.name)],
              s_protocols := fun i =>
                if i = get_codec r1 p.name then none else r1.s_protocols i }
    else .error .nullDeref
  else .ok r1

/-- The loop `for (auto* p : s_codecs)` of `release_plugins`. -/
def releaseEach : List CodecApi → Registry → Except Fault Registry
  | [], r => .ok r
  | p :: rest, r =>
    match releaseOne p r with
    | .error f => .error f
    | .ok r1 => releaseEach rest r1

/-- The function `PacketManager::release_plugins`. -/
def release_plugins (r : Registry) : Except Fault Registry :=
  match releaseEach r.s_codecs r with
  | .error f => .error f
  | .ok r1 =>
    .ok { r1 with
            s_codecs := [],
            s_protocols := fun i => if i = 0 then none else r1.s_protocols i }

/-- What `thread_init` reads from outside the file: the value of
`DAQ_GetBaseProtocol()`, the test `!ScReadMode() || ScPcapShow()`, whether
`VALGRIND_TESTING` is defined, and whether `rand_open()` yields a handle. -/
structure ThreadEnv where
  daq_dlt : Int
  log_decoder : Bool
  VALGRIND_TESTING : Bool
  rand_open_ok : Bool

/-- How `thread_init` ends: it returned, one of its two `FatalError` calls, or
a fault. -/
inductive ThreadInitStatus
  | returned
  | fatalNoCodec
  | fatalRand
  | fault (f : Fault)
deriving DecidableEq, Repr

/-- The grinder and the messages written while the codecs are scanned. -/
structure GrinderScan where
  grinder : Nat
  log : List RegEvent

/-- The loop over the data link types of the codec in slot `i`; the warning
reads the name of the codec the grinder names so far. -/
def scanTypes (r : Registry) (daq_dlt : Int) (i : Nat) :
    List Int → GrinderScan → Except Fault GrinderScan
  | [], st => .ok st
  | curr_dlt :: rest, st =>
    if curr_dlt = daq_dlt then
      if st.grinder ≠ 0 then
        match codecAt r st.grinder with
        | .error f => .error f
        | .ok _ =>
          scanTypes r daq_dlt i rest
            { grinder := u8 i, log := st.log ++ [RegEvent.warn_grinder st.grinder i] }
      else scanTypes r daq_dlt i rest { st with grinder := u8 i }
    else scanTypes r daq_dlt i rest st

/-- The loop `for (int i = 0; s_protocols[i] != 0; i++)` of `thread_init`, from
index `i` on with `n` slots of the array left; the read behind the last slot
is a fault. -/
def grinderLoop (r : Registry) (daq_dlt : Int) : Nat → Nat → GrinderScan → Except Fault GrinderScan
  | 0, _, _ => .error .outOfBounds
  | n + 1, i, st =>
    match r.s_protocols i with
    | none => .ok st
    | some cd =>
      match scanTypes r daq_dlt i cd.data_link_types st with
      | .error f => .error f
      | .ok st1 => grinderLoop r daq_dlt n (i + 1) st1

/-- The `tinit` calls of `thread_init`, in the order of `s_codecs`. -/
def tinitEvents : List CodecApi → List RegEvent
  | [] => []
  | p :: rest => (if p.tinit = true then [RegEvent.tinit p.addr] else []) ++ tinitEvents rest

/-- What `thread_init` leaves behind: the thread's statics, the hooks called
and warnings written, the index named in the "Decoding with" message, and
whether the id pool was refilled. -/
structure ThreadInitResult where
  status : ThreadInitStatus
  t : ThreadCtx
  log : List RegEvent
  decoding_with : Option Nat
  id_pool_refilled : Bool

/-- The function `PacketManager::thread_init`. -/
def thread_init (env : ThreadEnv) (r : Registry) (t : ThreadCtx) : ThreadInitResult :=
  match grinderLoop r env.daq_dlt UINT8_MAX 0
      { grinder := t.grinder, log := r.log ++ tinitEvents r.s_codecs } with
  | .error f =>
    { status := .fault f, t := t, log := r.log ++ tinitEvents r.s_codecs, decoding_with := none,
      id_pool_refilled := false }
  | .ok st =>
    if st.grinder = 0 then
      { status := .fatalNoCodec, t := { t with grinder := st.grinder }, log := st.log,
        decoding_with := none, id_pool_refilled := false }
    else
      match (if env.log_decoder = true then codecAt r st.grinder else .ok nullCodec) with
      | .error f =>
        { status := .fault f, t := { t with grinder := st.grinder }, log := st.log,
          decoding_with := none, id_pool_refilled := false }
      | .ok _ =>
        if env.VALGRIND_TESTING = true then
          { status := .returned, t := { t with grinder := st.grinder }, log := st.log,
            decoding_with := if env.log_decoder = true then some st.grinder else none,
            id_pool_refilled := false }
        else if env.rand_open_ok = true then
          { status := .returned, t := { t with grinder := st.grinder, s_rand := true },
            log := st.log,
            decoding_with := if env.log_decoder = true then some st.grinder else none,
            id_pool_refilled := true }
        else
          { status := .fatalRand, t := { t with grinder := st.grinder, s_rand := false },
            log := st.log,
            decoding_with := if env.log_decoder = true then some st.grinder else none,
            id_pool_refilled := false }

/-- A codec named "ethernet" that lists no protocol id. -/
def ethernetCodec : Codec := { ethCodec with name := "ethernet" }

/-- Start-up in which the codec named "eth" is registered and bound through
its module before `instantiate()` binds the default codec, here the codec
named "ethernet". -/
def shadowOps : List RegOp :=
  [.add_plugin (apiOf 100 ethCodec),
   .add_plugin (apiOf 200 ethernetCodec),
   .instantiate (apiOf 100 ethCodec) 0,
   .instantiate_all]

/-- Start-up in which the codec named "ethernet" is registered before
`instantiate()` binds the default codec, here the codec named "eth". -/
def releaseOps : List RegOp :=
  [.add_plugin (apiOf 200 ethernetCodec), .instantiate_all]

/-- The registry `release_plugins` ends with (the start state if it faults). -/
def registryReleased (r : Registry) : Registry :=
  match release_plugins r with
  | .ok r1 => r1
  | .error _ => Registry.start

/-! ## The instance table during start-up -/

/-- The instance table follows the counter of `instantiate`: the codecs of the
history carry the indices 1, 2, ... in the order they were bound, the counter
is one more than their number and at most `UINT8_MAX`, the slots from the
counter on are empty, the slots between 1 and the counter hold the codecs of
the history, and slot 0 is empty or repeats one of these slots. -/
def SlotInv (r : Registry) : Prop :=
  r.history.map Prod.fst = List.range' 1 r.history.length ∧
  r.codec_id = r.history.length + 1 ∧
  r.codec_id ≤ UINT8_MAX ∧
  (∀ i, r.codec_id ≤ i → r.s_protocols i = none) ∧
  (∀ i, 1 ≤ i → i < r.codec_id → ∃ cd, r.s_protocols i = some cd ∧ (i, cd) ∈ r.history) ∧
  (r.s_protocols 0 = none ∨ ∃ k, 1 ≤ k ∧ k < r.codec_id ∧ r.s_protocols 0 = r.s_protocols k)

/-- A property of the registry that the four kinds of writes made during
start-up keep: a longer descriptor list, a marked descriptor, a codec bound
under the next index, and slot 0 set to a copy of a slot. -/
def StartupStable (I : Registry → Prop) : Prop :=
  (∀ r api, I r → I { r with s_codecs := r.s_codecs ++ [api] }) ∧
  (∀ r v, I r → I { r with instantiated_api := some v }) ∧
  (∀ r r1 cd, I r → r.codec_id < UINT8_MAX → r1.codec_id = r.codec_id + 1 →
    r1.history = r.history ++ [(r.codec_id, cd)] →
    (∀ i, r1.s_protocols i = if i = r.codec_id then some cd else r.s_protocols i) → I r1) ∧
  (∀ r k, I r →
    I { r with s_protocols := fun i => if i = 0 then r.s_protocols k else r.s_protocols i })

/-- The descriptors number `1 .. n`, each constructing a codec that claims no
protocol id. -/
def manyApis (n : Nat) : List CodecApi :=
  (List.range n).map (fun i => apiOf (i + 1) { nullCodec with protocol_ids := [] })

/-- Start-up in which `n` descriptors are registered and then the first `k` of
them are bound one after the other. -/
def manyOps (n k : Nat) : List RegOp :=
  (manyApis n).map RegOp.add_plugin ++ (manyApis k).map (fun a => RegOp.instantiate a 0)

/-- The fault a start-up call or sequence ends with, if any. -/
def faultOf (x : Except Fault Registry) : Option Fault :=
  match x with
  | .ok _ => none
  | .error f => some f

/-- The environment of the sample threads: base protocol 1, the "Decoding
with" message switched on, and a working `rand_open`. -/
def sampleEnv : ThreadEnv :=
  { daq_dlt := 1, log_decoder := true, VALGRIND_TESTING := false, rand_open_ok := true }

/-! ## The closed state of the TCP state machine (tcp_state_closed.cc)

The handlers of `TcpStateClosed` call into the session, the tracker, the flow
and the telemetry logger, all defined outside the file.  These calls are
parameters (`TcpExternals`); a handler returns its return value, the state it
leaves, and the calls it made in order. -/

/-- Modelled from the spec: `TcpStreamTracker::TcpState` is declared outside the
file; these are the canonical states of section 4.4. -/
inductive TcpState
  | TCP_LISTEN
  | TCP_SYN_SENT
  | TCP_SYN_RECV
  | TCP_ESTABLISHED
  | TCP_FIN_WAIT1
  | TCP_FIN_WAIT2
  | TCP_CLOSE_WAIT
  | TCP_CLOSING
  | TCP_LAST_ACK
  | TCP_TIME_WAIT
  | TCP_CLOSED
deriving DecidableEq, Repr

/-- The telemetry events this file passes to `session.tel.set_tcp_event`. -/
inductive TelEvent
  | EVENT_DATA_AFTER_RESET
  | EVENT_DATA_AFTER_RST_RCVD
  | EVENT_DATA_ON_CLOSED
  | EVENT_BAD_RST
deriving DecidableEq, Repr

/-- Flag values that tcp_state_closed.cc takes from headers outside the file. -/
structure TcpBuild where
  SSNFLAG_RESET : Nat
  STREAM_STATE_CLOSED : Nat
  ACTION_RST : Nat
  ACTION_LWSSN_CLOSED : Nat

/-- The segment descriptor; of its contents the file uses the packet only. -/
structure TcpSegmentDescriptor where
  pkt : Nat
deriving DecidableEq, Repr

/-- What the handlers read of the flow, the tracker passed to them and the
session, and in `rest` everything else these hold. -/
structure TcpWorld (X : Type) where
  /-- The value of `flow->get_session_flags()`. -/
  session_flags : Nat
  /-- The member `flow->session_state`. -/
  session_state : Nat
  /-- The value of `flow->two_way_traffic()`. -/
  two_way_traffic : Bool
  /-- The value of `trk.is_rst_pkt_sent()`. -/
  rst_pkt_sent : Bool
  /-- The value of `session.get_talker_state()`. -/
  talker_state : TcpState
  /-- The member `session.config->session_timeout`. -/
  session_timeout : Nat
  rest : X

/-- The functions the handlers call, defined outside the file; each may change
the whole state. -/
structure TcpExternals (X : Type) where
  check_for_repeated_syn : TcpSegmentDescriptor → TcpWorld X → TcpWorld X
  set_expire : Nat → Nat → TcpWorld X → TcpWorld X
  update_tracker_ack_sent : TcpSegmentDescriptor → TcpWorld X → TcpWorld X
  update_tracker_ack_recv : TcpSegmentDescriptor → TcpWorld X → TcpWorld X
  set_tcp_event : TelEvent → TcpWorld X → TcpWorld X
  mark_packet_for_drop : TcpSegmentDescriptor → TcpWorld X → TcpWorld X
  update_on_rst_recv : TcpSegmentDescriptor → TcpWorld X → Bool × TcpWorld X
  update_session_on_rst : TcpSegmentDescriptor → Bool → TcpWorld X → TcpWorld X
  update_perf_base_state : TcpState → TcpWorld X → TcpWorld X
  set_pkt_action_flag : Nat → TcpWorld X → TcpWorld X
  default_state_action : TcpSegmentDescriptor → TcpWorld X → Bool × TcpWorld X
  validate_packet_established_session : TcpSegmentDescriptor → TcpWorld X → Bool × TcpWorld X
  update_paws_timestamps : TcpSegmentDescriptor → TcpWorld X → TcpWorld X
  check_for_window_slam : TcpSegmentDescriptor → TcpWorld X → TcpWorld X
  cleanup_session : Nat → Nat → TcpWorld X → TcpWorld X

/-- A call a handler makes, with the arguments and return values that matter. -/
inductive TcpCall
  | check_for_repeated_syn
  | set_expire (timeout : Nat)
  | update_tracker_ack_sent
  | update_tracker_ack_recv
  | set_tcp_event (e : TelEvent)
  | mark_packet_for_drop
  | update_on_rst_recv (ret : Bool)
  | update_session_on_rst (flag : Bool)
  | update_perf_base_state (s : TcpState)
  | set_pkt_action_flag (flag : Nat)
  | default_state_action (ret : Bool)
  | validate_packet_established_session (ret : Bool)
  | update_paws_timestamps
  | check_for_window_slam
  | cleanup_session (freeApplicationData : Nat)
deriving DecidableEq, Repr

/-- What a handler leaves behind. -/
structure TcpOut (X : Type) where
  ret : Bool
  w : TcpWorld X
  calls : List TcpCall

/-- The closing `return default_state_action(tsd, trk)` of the event methods. -/
def finishWith {X : Type} (ext : TcpExternals X) (tsd : TcpSegmentDescriptor)
    (w : TcpWorld X) (calls : List TcpCall) : TcpOut X :=
  { ret := (ext.default_state_action tsd w).1, w := (ext.default_state_action tsd w).2,
    calls := calls ++ [TcpCall.default_state_action (ext.default_state_action tsd w).1] }

/-- The method `TcpStateClosed::syn_sent`. -/
def TcpStateClosed.syn_sent {X : Type} (ext : TcpExternals X) (tsd : TcpSegmentDescriptor)
    (w : TcpWorld X) : TcpOut X :=
  finishWith ext tsd (ext.check_for_repeated_syn tsd w) [.check_for_repeated_syn]

/-- The method `TcpStateClosed::syn_recv`. -/
def TcpStateClosed.syn_recv {X : Type} (ext : TcpExternals X) (tsd : TcpSegmentDescriptor)
    (w : TcpWorld X) : TcpOut X :=
  finishWith ext tsd (ext.set_expire tsd.pkt w.session_timeout w) [.set_expire w.session_timeout]

/-- The method `TcpStateClosed::syn_ack_sent`. -/
def TcpStateClosed.syn_ack_sent {X : Type} (ext : TcpExternals X) (tsd : TcpSegmentDescriptor)
    (w : TcpWorld X) : TcpOut X :=
  finishWith ext tsd w []

/-- The method `TcpStateClosed::syn_ack_recv`. -/
def TcpStateClosed.syn_ack_recv {X : Type} (ext : TcpExternals X) (tsd : TcpSegmentDescriptor)
    (w : TcpWorld X) : TcpOut X :=
  finishWith ext tsd w []

/-- The method `TcpStateClosed::ack_sent`. -/
def TcpStateClosed.ack_sent {X : Type} (ext : TcpExternals X) (tsd : TcpSegmentDescriptor)
    (w : TcpWorld X) : TcpOut X :=
  finishWith ext tsd (ext.update_tracker_ack_sent tsd w) [.update_tracker_ack_sent]

/-- The method `TcpStateClosed::ack_recv`. -/
def TcpStateClosed.ack_recv {X : Type} (ext : TcpExternals X) (tsd : TcpSegmentDescriptor)
    (w : TcpWorld X) : TcpOut X :=
  finishWith ext tsd (ext.update_tracker_ack_recv tsd w) [.update_tracker_ack_recv]

/-- The event `data_seg_sent` chooses, from the state it reads. -/
def dataSegSentEvent {X : Type} (k : TcpBuild) (w : TcpWorld X) : TelEvent :=
  if w.session_flags &&& k.SSNFLAG_RESET ≠ 0 then
    if w.rst_pkt_sent = true then .EVENT_DATA_AFTER_RESET else .EVENT_DATA_AFTER_RST_RCVD
  else .EVENT_DATA_ON_CLOSED

/-- The method `TcpStateClosed::data_seg_sent`. -/
def TcpStateClosed.data_seg_sent {X : Type} (k : TcpBuild) (ext : TcpExternals X)
    (tsd : TcpSegmentDescriptor) (w : TcpWorld X) : TcpOut X :=
  let w1 := ext.update_tracker_ack_sent tsd w
  let w2 := ext.set_tcp_event (dataSegSentEvent k w1) w1
  let w3 := ext.mark_packet_for_drop tsd w2
  finishWith ext tsd w3
    [.update_tracker_ack_sent, .set_tcp_event (dataSegSentEvent k w1), .mark_packet_for_drop]

/-- The method `TcpStateClosed::data_seg_recv`. -/
def TcpStateClosed.data_seg_recv {X : Type} (ext : TcpExternals X) (tsd : TcpSegmentDescriptor)
    (w : TcpWorld X) : TcpOut X :=
  finishWith ext tsd (ext.update_tracker_ack_recv tsd w) [.update_tracker_ack_recv]

/-- The method `TcpStateClosed::fin_sent`. -/
def TcpStateClosed.fin_sent {X : Type} (ext : TcpExternals X) (tsd : TcpSegmentDescriptor)
    (w : TcpWorld X) : TcpOut X :=
  finishWith ext tsd (ext.update_tracker_ack_sent tsd w) [.update_tracker_ack_sent]

/-- The event `fin_recv` chooses, from the state it reads. -/
def finRecvEvent {X : Type} (w : TcpWorld X) : TelEvent :=
  if w.rst_pkt_sent = true then .EVENT_DATA_AFTER_RESET else .EVENT_DATA_AFTER_RST_RCVD

/-- The method `TcpStateClosed::fin_recv`. -/
def TcpStateClosed.fin_recv {X : Type} (ext : TcpExternals X) (tsd : TcpSegmentDescriptor)
    (w : TcpWorld X) : TcpOut X :=
  let w1 := ext.update_tracker_ack_recv tsd w
  let w2 := ext.set_tcp_event (finRecvEvent w1) w1
  finishWith ext tsd w2 [.update_tracker_ack_recv, .set_tcp_event (finRecvEvent w1)]

/-- The method `TcpStateClosed::rst_sent`. -/
def TcpStateClosed.rst_sent {X : Type} (ext : TcpExternals X) (tsd : TcpSegmentDescriptor)
    (w : TcpWorld X) : TcpOut X :=
  finishWith ext tsd w []

/-- The method `TcpStateClosed::rst_recv`. -/
def TcpStateClosed.rst_recv {X : Type} (k : TcpBuild) (ext : TcpExternals X)
    (tsd : TcpSegmentDescriptor) (w : TcpWorld X) : TcpOut X :=
  if (ext.update_on_rst_recv tsd w).1 = true then
    let w1 := ext.update_session_on_rst tsd false (ext.update_on_rst_recv tsd w).2
    let w2 := ext.update_perf_base_state .TCP_CLOSING w1
    let w3 := ext.set_pkt_action_flag k.ACTION_RST w2
    finishWith ext tsd w3
      [.update_on_rst_recv true, .update_session_on_rst false,
       .update_perf_base_state .TCP_CLOSING, .set_pkt_action_flag k.ACTION_RST]
  else
    let w1 := ext.set_tcp_event .EVENT_BAD_RST (ext.update_on_rst_recv tsd w).2
    finishWith ext tsd w1 [.update_on_rst_recv false, .set_tcp_event .EVENT_BAD_RST]

/-- The method `TcpStateClosed::do_pre_sm_packet_actions`. -/
def TcpStateClosed.do_pre_sm_packet_actions {X : Type} (ext : TcpExternals X)
    (tsd : TcpSegmentDescriptor) (w : TcpWorld X) : TcpOut X :=
  { ret := (ext.validate_packet_established_session tsd w).1,
    w := (ext.validate_packet_established_session tsd w).2,
    calls := [.validate_packet_established_session
      (ext.validate_packet_established_session tsd w).1] }

/-- The telemetry events among the calls of a handler, in order. -/
def telemetryOf : List TcpCall → List TelEvent
  | [] => []
  | .set_tcp_event e :: rest => e :: telemetryOf rest
  | _ :: rest => telemetryOf rest

/-- The action flags among the calls of a handler, in order. -/
def actionFlagsOf : List TcpCall → List Nat
  | [] => []
  | .set_pkt_action_flag f :: rest => f :: actionFlagsOf rest
  | _ :: rest => actionFlagsOf rest

/-- Sample flag values. -/
def sampleTcpBuild : TcpBuild :=
  { SSNFLAG_RESET := 4096, STREAM_STATE_CLOSED := 64, ACTION_RST := 4, ACTION_LWSSN_CLOSED := 32 }

/-- Stand-ins for the outside functions: each leaves the state as it is, except
that `update_on_rst_recv` accepts the segments of packet 1 only, and
`cleanup_session` clears the session state. -/
def sampleExternals : TcpExternals Nat :=
  { check_for_repeated_syn := fun _ w => w,
    set_expire := fun _ _ w => w,
    update_tracker_ack_sent := fun _ w => w,
    update_tracker_ack_recv := fun _ w => w,
    set_tcp_event := fun _ w => w,
    mark_packet_for_drop := fun _ w => w,
    update_on_rst_recv := fun tsd w => (tsd.pkt == 1, w),
    update_session_on_rst := fun _ _ w => w,
    update_perf_base_state := fun _ w => w,
    set_pkt_action_flag := fun _ w => w,
    default_state_action := fun _ w => (true, w),
    validate_packet_established_session := fun _ w => (true, w),
    update_paws_timestamps := fun _ w => w,
    check_for_window_slam := fun _ w => w,
    cleanup_session := fun _ _ w => { w with session_state := 0 } }

/-- A closed flow after a reset sent by the tracker's side, with traffic in both
directions and the talker in TIME_WAIT. -/
def sampleWorld : TcpWorld Nat :=
  { session_flags := 4096, session_state := 3, two_way_traffic := true, rst_pkt_sent := true,
    talker_state := .TCP_TIME_WAIT, session_timeout := 30, rest := 0 }

/-! ## Further start-up sequences -/

/-- Start-up in which a second descriptor is registered after the first call of
`instantiate`, and then instantiated. -/
def lateOps : List RegOp :=
  [.add_plugin (apiOf 100 ethCodec),
   .instantiate (apiOf 100 ethCodec) 0,
   .add_plugin (apiOf 200 ipv4Codec),
   .instantiate (apiOf 200 ipv4Codec) 0]

/-- Start-up in which a codec is bound through its module before
`instantiate()` registers and binds the default codec. -/
def moduleFirstOps : List RegOp :=
  [.add_plugin (apiOf 100 ethCodec),
   .instantiate (apiOf 100 ethCodec) 0,
   .instantiate_all]

/-- A codec that claims the protocol id 65535. -/
def lastIdCodec : Codec := { nullCodec with name := "last", protocol_ids := [65535] }

/-- A codec that accepts a one-byte header and hands on the protocol id 65535. -/
def lastIdNextCodec : Codec :=
  { nullCodec with
    name := "next", protocol_ids := [],
    decode := fun _ _ p _ _ => { ok := true, lyr_len := 1, prot_id := 65535, cf := p.cf } }

/-! ## Statistics at thread end -/

/-- Modelled from the spec: `sum_stats` is defined outside the file; following
"global counters after N thread terminations equal the element-wise sum of
each thread's local counters" it adds the first `n` thread counters to the
global ones, entry by entry (`PegCount` taken as unbounded, as in `bump`). -/
def sum_stats (gpegs : Nat → Nat) (tpegs : Nat → Nat) (n : Nat) : Nat → Nat :=
  fun i => if i < n then gpegs i + tpegs i else gpegs i

/-- The helper `accumulate`; `s_stats.size()` is `stat_offset + UINT8_MAX`.
The mutex makes the call atomic, so calls of several threads happen one after
the other. -/
def accumulate (r : Registry) (t : ThreadCtx) : Registry :=
  { r with g_stats := sum_stats r.g_stats t.s_stats (stat_offset + UINT8_MAX) }

/-- The `tterm` calls of `thread_term`, in the order of `s_codecs`. -/
def ttermEvents : List CodecApi → List RegEvent
  | [] => []
  | p :: rest => (if p.tterm = true then [RegEvent.tterm p.addr] else []) ++ ttermEvents rest

/-- The function `PacketManager::thread_term`. -/
def thread_term (r : Registry) (t : ThreadCtx) : Registry × ThreadCtx :=
  ({ accumulate r t with log := (accumulate r t).log ++ ttermEvents r.s_codecs },
   { t with s_rand := false })

/-- The registry after the given threads have run `thread_term`, in this order. -/
def threadsTerm : List ThreadCtx → Registry → Registry
  | [], r => r
  | t :: rest, r => threadsTerm rest (thread_term r t).1

/-- An ESP stand-in: an 8-byte header, the next protocol read from its last
byte; what follows is a guess, so DECODE__UNSURE_ENCAP (8 in the sample build)
is set. -/
def espCodec : Codec :=
  { nullCodec with
    name := "esp", proto_id := 5, protocol_ids := [50], data_link_types := [],
    decode := fun cur len p lyr_len prot_id =>
      if 8 ≤ len then
        { ok := true, lyr_len := 8, prot_id := p.pkt.getD (cur + 7) 0,
          cf := { p.cf with decode_flags := p.cf.decode_flags ||| 8 } }
      else { ok := false, lyr_len := lyr_len, prot_id := prot_id, cf := p.cf } }

/-- The sample registry with the ESP stand-in bound at index 6 for protocol 50. -/
def espRegistry : Registry :=
  { sampleRegistry with
    s_protocols := fun i => if i = 6 then some espCodec else sampleRegistry.s_protocols i,
    s_proto_map := fun id => if id = 50 then 6 else sampleRegistry.s_proto_map id,
    codec_id := 7 }

/-- A frame of link layer, IPv4 and ESP announcing UDP, followed by 4 bytes,
too few for a UDP header. -/
def espFrame : List Nat :=
  ethHdr 2048 ++ ip4Hdr 50 ++ (List.replicate 7 0 ++ [17]) ++ List.replicate 4 0

/-- Two codecs whose next-protocol ids lead to each other: each accepts an
empty header and hands on the id the other claims. -/
def cycleCodec (own next : Nat) : Codec :=
  { nullCodec with
    name := "cycle", protocol_ids := [own],
    decode := fun _ _ p _ _ => { ok := true, lyr_len := 0, prot_id := next, cf := p.cf } }

/-- A registry with the two cycling codecs at the indices 1 and 2. -/
def cycleRegistry : Registry :=
  { Registry.start with
    s_protocols := fun i =>
      if i = 0 then some nullCodec else if i = 1 then some (cycleCodec 10 20)
      else if i = 2 then some (cycleCodec 20 10) else none,
    s_proto_map := fun id => if id = 10 then 1 else if id = 20 then 2 else 0,
    codec_id := 3 }

/-- A thread at its end, after it has decoded the given frame once. -/
def threadAfter (frame : List Nat) : ThreadCtx :=
  { threadOf 2 with
    s_stats :=
      (decode sampleBuild ⟨-1⟩ sampleRegistry (threadOf 2) blankPacket (hdrOf 60) frame 0).st.s_stats }

/-! ## The codecs behind the layers -/

/-- The codec indices of the rounds of the `while` loop of `decode` that
appended a layer, in order: `mapped_prot` at each codec call that returned
true below the layer limit with a next protocol inside the map. -/
def decodeCodecs (b : Build) (r : Registry) : Nat → DecodeState → List Nat
  | 0, _ => []
  | fuel + 1, st =>
    match decodeStep b r st with
    | .next st1 => st.mapped_prot :: decodeCodecs b r fuel st1
    | .stop _ _ => []

/-- The index of the codec whose `decode` produced each layer of a run of
`PacketManager::decode`, outermost first. -/
def decodedBy (b : Build) (r : Registry) (t : ThreadCtx) (p : Packet) (pkthdr : DAQ_PktHdr)
    (pkt : List Nat) (prot_id0 : Nat) : List Nat :=
  decodeCodecs b r (b.LAYER_MAX + 1) (decodeInit b t p pkthdr pkt prot_id0)

/-! ## Further sample values and the record of hooks -/

/-- Stand-ins for the outside functions that append the call they stand for to
the `rest` of the state and change nothing else; `update_on_rst_recv` accepts
the segments of packet 1 only. -/
def loggingExternals : TcpExternals (List TcpCall) :=
  { check_for_repeated_syn := fun _ w => { w with rest := w.rest ++ [.check_for_repeated_syn] },
    set_expire := fun _ n w => { w with rest := w.rest ++ [.set_expire n] },
    update_tracker_ack_sent := fun _ w => { w with rest := w.rest ++ [.update_tracker_ack_sent] },
    update_tracker_ack_recv := fun _ w => { w with rest := w.rest ++ [.update_tracker_ack_recv] },
    set_tcp_event := fun e w => { w with rest := w.rest ++ [.set_tcp_event e] },
    mark_packet_for_drop := fun _ w => { w with rest := w.rest ++ [.mark_packet_for_drop] },
    update_on_rst_recv := fun tsd w =>
      (tsd.pkt == 1, { w with rest := w.rest ++ [.update_on_rst_recv (tsd.pkt == 1)] }),
    update_session_on_rst := fun _ flag w =>
      { w with rest := w.rest ++ [.update_session_on_rst flag] },
    update_perf_base_state := fun s w => { w with rest := w.rest ++ [.update_perf_base_state s] },
    set_pkt_action_flag := fun flag w => { w with rest := w.rest ++ [.set_pkt_action_flag flag] },
    default_state_action := fun _ w =>
      (true, { w with rest := w.rest ++ [.default_state_action true] }),
    validate_packet_established_session := fun _ w =>
      (true, { w with rest := w.rest ++ [.validate_packet_established_session true] }),
    update_paws_timestamps := fun _ w => { w with rest := w.rest ++ [.update_paws_timestamps] },
    check_for_window_slam := fun _ w => { w with rest := w.rest ++ [.check_for_window_slam] },
    cleanup_session := fun n _ w => { w with rest := w.rest ++ [.cleanup_session n] } }

/-- The flow of `sampleWorld` with an empty record of calls. -/
def loggingWorld : TcpWorld (List TcpCall) :=
  { session_flags := 4096, session_state := 3, two_way_traffic := true, rst_pkt_sent := true,
    talker_state := .TCP_TIME_WAIT, session_timeout := 30, rest := [] }

/-- Start-up in which the link layer stand-in is registered and bound through
its module and `instantiate()` is never called, so that slot 0 of the instance
table stays empty. -/
def moduleOnlyOps : List RegOp :=
  [.add_plugin (apiOf 100 ethCodec), .instantiate (apiOf 100 ethCodec) 0]

/-- Loop rule for `decodeLoop`: an invariant kept by every round that continues,
and a conclusion established by every round that stops. -/
theorem decodeLoop_rule (b : Build) (r : Registry) (I : DecodeState → Prop)
    (Q : DecodeStatus → DecodeState → Prop)
    (hnext : ∀ st st1, I st → decodeStep b r st = .next st1 → I st1)
    (hstop : ∀ st s st1, I st → decodeStep b r st = .stop s st1 → Q s st1)
    (hfuel : ∀ st, I st → Q .fuelExhausted st) :
    ∀ fuel st, I st → Q (decodeLoop b r fuel st).1 (decodeLoop b r fuel st).2 := by
  intro fuel
  induction fuel with
  | zero => intro st h; exact hfuel st h
  | succ n ih =>
    intro st h
    unfold decodeLoop
    cases hs : decodeStep b r st with
    | next st1 => simpa using ih st1 (hnext st st1 h hs)
    | stop s st1 => simpa using hstop st s st1 h hs

/-- What a continuing round does to the state. -/
theorem decodeStep_next (b : Build) (r : Registry) (st st1 : DecodeState)
    (h : decodeStep b r st = .next st1) :
    ∃ cd, codecAt r st.mapped_prot = .ok cd ∧
      (cd.decode st.pkt st.len st.p st.lyr_len st.prot_id).ok = true ∧
      st.p.num_layers ≠ b.LAYER_MAX ∧
      st1 =
        { st with
            p := (push_layer b { st.p with cf := (cd.decode st.pkt st.len st.p st.lyr_len st.prot_id).cf }
                    st.prev_prot_id st.pkt
                    (u16 (cd.decode st.pkt st.len st.p st.lyr_len st.prot_id).lyr_len) cd).1,
            warnings := st.warnings +
              (if (push_layer b { st.p with cf := (cd.decode st.pkt st.len st.p st.lyr_len st.prot_id).cf }
                    st.prev_prot_id st.pkt
                    (u16 (cd.decode st.pkt st.len st.p st.lyr_len st.prot_id).lyr_len) cd).2
               then 1 else 0),
            s_stats := bump st.s_stats (st.mapped_prot + stat_offset),
            calls := st.calls + 1,
            accepted := st.accepted + 1,
            mapped_prot := r.s_proto_map (u16 (cd.decode st.pkt st.len st.p st.lyr_len st.prot_id).prot_id),
            prev_prot_id := u16 (cd.decode st.pkt st.len st.p st.lyr_len st.prot_id).prot_id,
            prot_id := b.FINISHED_DECODE,
            len := sub32 st.len (u16 (cd.decode st.pkt st.len st.p st.lyr_len st.prot_id).lyr_len),
            pkt := st.pkt + u16 (cd.decode st.pkt st.len st.p st.lyr_len st.prot_id).lyr_len,
            lyr_len := 0 } := by
  unfold decodeStep at h
  split at h
  · simp at h
  · rename_i cd hc
    refine ⟨cd, hc, ?_⟩
    cases hok : (cd.decode st.pkt st.len st.p st.lyr_len st.prot_id).ok with
    | false => simp [hok] at h
    | true =>
      by_cases hl : st.p.num_layers = b.LAYER_MAX
      · simp [hok, hl] at h
      · by_cases hp : u16 (cd.decode st.pkt st.len st.p st.lyr_len st.prot_id).prot_id < max_protocol_id
        · simp only [hok, hl, protoMapAt, hp, if_true, if_false, Bool.true_eq_false,
            LoopStep.next.injEq] at h
          exact ⟨rfl, hl, h.symm⟩
        · simp [hok, hl, protoMapAt, hp] at h

/-- What a stopping round does to the state: a fault at the codec slot, a
refusal by the codec, the layer limit, or a fault at the protocol map. -/
theorem decodeStep_stop (b : Build) (r : Registry) (st st1 : DecodeState) (s : DecodeStatus)
    (h : decodeStep b r st = .stop s st1) :
    (∃ f, codecAt r st.mapped_prot = .error f ∧ s = .fault f ∧ st1 = st) ∨
    ∃ cd, codecAt r st.mapped_prot = .ok cd ∧
      (((cd.decode st.pkt st.len st.p st.lyr_len st.prot_id).ok = false ∧ s = .finished ∧
          st1 =
            { st with
                p := { st.p with cf := (cd.decode st.pkt st.len st.p st.lyr_len st.prot_id).cf },
                lyr_len := u16 (cd.decode st.pkt st.len st.p st.lyr_len st.prot_id).lyr_len,
                prot_id := u16 (cd.decode st.pkt st.len st.p st.lyr_len st.prot_id).prot_id,
                calls := st.calls + 1 }) ∨
       ((cd.decode st.pkt st.len st.p st.lyr_len st.prot_id).ok = true ∧
          st.p.num_layers = b.LAYER_MAX ∧ s = .tooManyLayers ∧
          st1 =
            { st with
                p := { st.p with
                        cf := (cd.decode st.pkt st.len st.p st.lyr_len st.prot_id).cf,
                        dsize := u16 st.len, data := st.pkt },
                events := st.events ++ [DecodeEvent.DECODE_TOO_MANY_LAYERS],
                lyr_len := u16 (cd.decode st.pkt st.len st.p st.lyr_len st.prot_id).lyr_len,
                prot_id := u16 (cd.decode st.pkt st.len st.p st.lyr_len st.prot_id).prot_id,
                calls := st.calls + 1,
                accepted := st.accepted + 1 }) ∨
       ((cd.decode st.pkt st.len st.p st.lyr_len st.prot_id).ok = true ∧
          st.p.num_layers ≠ b.LAYER_MAX ∧
          ¬ u16 (cd.decode st.pkt st.len st.p st.lyr_len st.prot_id).prot_id < max_protocol_id ∧
          s = .fault .outOfBounds ∧
          st1 =
            { st with
                p := (push_layer b
                        { st.p with cf := (cd.decode st.pkt st.len st.p st.lyr_len st.prot_id).cf }
                        st.prev_prot_id st.pkt
                        (u16 (cd.decode st.pkt st.len st.p st.lyr_len st.prot_id).lyr_len) cd).1,
                warnings := st.warnings +
                  (if (push_layer b
                        { st.p with cf := (cd.decode st.pkt st.len st.p st.lyr_len st.prot_id).cf }
                        st.prev_prot_id st.pkt
                        (u16 (cd.decode st.pkt st.len st.p st.lyr_len st.prot_id).lyr_len) cd).2
                   then 1 else 0),
                s_stats := bump st.s_stats (st.mapped_prot + stat_offset),
                lyr_len := u16 (cd.decode st.pkt st.len st.p st.lyr_len st.prot_id).lyr_len,
                prot_id := u16 (cd.decode st.pkt st.len st.p st.lyr_len st.prot_id).prot_id,
                calls := st.calls + 1,
                accepted := st.accepted + 1 })) := by
  unfold decodeStep at h
  split at h
  · rename_i f hc
    simp only [LoopStep.stop.injEq] at h
    exact Or.inl ⟨f, hc, h.1.symm, h.2.symm⟩
  · rename_i cd hc
    refine Or.inr ⟨cd, hc, ?_⟩
    cases hok : (cd.decode st.pkt st.len st.p st.lyr_len st.prot_id).ok with
    | false =>
      simp only [hok, if_true, LoopStep.stop.injEq] at h
      exact Or.inl ⟨rfl, h.1.symm, h.2.symm⟩
    | true =>
      by_cases hl : st.p.num_layers = b.LAYER_MAX
      · simp only [hok, hl, if_true, if_false, Bool.true_eq_false, LoopStep.stop.injEq] at h
        exact Or.inr (Or.inl ⟨rfl, hl, h.1.symm, by rw [← h.2]; simp [hl]⟩)
      · by_cases hp : u16 (cd.decode st.pkt st.len st.p st.lyr_len st.prot_id).prot_id < max_protocol_id
        · simp [hok, hl, protoMapAt, hp] at h
        · simp only [hok, hl, protoMapAt, hp, if_true, if_false, Bool.true_eq_false,
            LoopStep.stop.injEq] at h
          exact Or.inr (Or.inr ⟨rfl, hl, hp, h.1.symm, h.2.symm⟩)

/-- Below the limit `push_layer` appends and does not warn. -/
theorem push_layer_below (b : Build) (p : Packet) (prot_id hdr_start len : Nat) (cd : Codec)
    (h : p.num_layers < b.LAYER_MAX) :
    push_layer b p prot_id hdr_start len cd =
      ({ p with
          layers := fun j =>
            if j = p.num_layers then
              { proto := cd.proto_id, prot_id := prot_id, start := hdr_start, length := u16 len }
            else p.layers j,
          num_layers := p.num_layers + 1 }, false) := by
  simp [push_layer, h]

/-- The layer count, the warning count, the accepted-call count and the
too-many-layers events along the loop. -/
theorem decodeLoop_layers (b : Build) (r : Registry) (fuel : Nat) (st : DecodeState)
    (hn : st.p.num_layers ≤ b.LAYER_MAX) (hw : st.warnings = 0)
    (he : st.events.count DecodeEvent.DECODE_TOO_MANY_LAYERS = 0)
    (ha : st.accepted = st.p.num_layers) :
    (decodeLoop b r fuel st).2.p.num_layers ≤ b.LAYER_MAX ∧
    (decodeLoop b r fuel st).2.warnings = 0 ∧
    ((decodeLoop b r fuel st).1 = .tooManyLayers →
      (decodeLoop b r fuel st).2.events.count DecodeEvent.DECODE_TOO_MANY_LAYERS = 1 ∧
      (decodeLoop b r fuel st).2.p.num_layers = b.LAYER_MAX ∧
      (decodeLoop b r fuel st).2.accepted = b.LAYER_MAX + 1) ∧
    ((decodeLoop b r fuel st).1 ≠ .tooManyLayers →
      (decodeLoop b r fuel st).2.events.count DecodeEvent.DECODE_TOO_MANY_LAYERS = 0 ∧
      (decodeLoop b r fuel st).2.accepted = (decodeLoop b r fuel st).2.p.num_layers) := by
  refine decodeLoop_rule b r
    (fun st => st.p.num_layers ≤ b.LAYER_MAX ∧ st.warnings = 0 ∧
      st.events.count DecodeEvent.DECODE_TOO_MANY_LAYERS = 0 ∧ st.accepted = st.p.num_layers)
    (fun s st => st.p.num_layers ≤ b.LAYER_MAX ∧ st.warnings = 0 ∧
      (s = .tooManyLayers →
        st.events.count DecodeEvent.DECODE_TOO_MANY_LAYERS = 1 ∧
        st.p.num_layers = b.LAYER_MAX ∧ st.accepted = b.LAYER_MAX + 1) ∧
      (s ≠ .tooManyLayers →
        st.events.count DecodeEvent.DECODE_TOO_MANY_LAYERS = 0 ∧
        st.accepted = st.p.num_layers))
    ?_ ?_ ?_ fuel st ⟨hn, hw, he, ha⟩
  · intro st st1 ⟨hn, hw, he, ha⟩ h
    obtain ⟨cd, -, -, hl, rfl⟩ := decodeStep_next b r st st1 h
    have hlt : st.p.num_layers < b.LAYER_MAX := lt_of_le_of_ne hn hl
    simp only [push_layer, hlt, if_true, if_false, Bool.false_eq_true]
    exact ⟨hlt, by omega, he, by omega⟩
  · intro st s st1 ⟨hn, hw, he, ha⟩ h
    rcases decodeStep_stop b r st st1 s h with ⟨f, -, rfl, rfl⟩ | ⟨cd, -, h1 | h1 | h1⟩
    · exact ⟨hn, hw, by simp, fun _ => ⟨he, ha⟩⟩
    · obtain ⟨-, rfl, rfl⟩ := h1
      exact ⟨hn, hw, by simp, fun _ => ⟨he, ha⟩⟩
    · obtain ⟨-, hl, rfl, rfl⟩ := h1
      refine ⟨hn, hw, fun _ => ⟨?_, hl, ?_⟩, by simp⟩
      · simp [List.count_append, he]
      · simp [ha, hl]
    · obtain ⟨-, hl, -, rfl, rfl⟩ := h1
      have hlt : st.p.num_layers < b.LAYER_MAX := lt_of_le_of_ne hn hl
      simp only [push_layer, hlt, if_true, if_false, Bool.false_eq_true]
      exact ⟨hlt, by omega, by simp, fun _ => ⟨he, by omega⟩⟩
  · intro st ⟨hn, hw, he, ha⟩
    exact ⟨hn, hw, by simp, fun _ => ⟨he, ha⟩⟩

/-- The loop never uses up a bound that exceeds the free layer slots. -/
theorem decodeLoop_fuel (b : Build) (r : Registry) :
    ∀ (fuel : Nat) (st : DecodeState), st.p.num_layers ≤ b.LAYER_MAX →
      b.LAYER_MAX - st.p.num_layers < fuel →
      (decodeLoop b r fuel st).1 ≠ .fuelExhausted := by
  intro fuel
  induction fuel with
  | zero => intro st _ h; omega
  | succ n ih =>
    intro st hn hf
    unfold decodeLoop
    cases hs : decodeStep b r st with
    | next st1 =>
      obtain ⟨cd, -, -, hl, rfl⟩ := decodeStep_next b r st st1 hs
      have hlt : st.p.num_layers < b.LAYER_MAX := lt_of_le_of_ne hn hl
      simp only
      apply ih
      · simp only [push_layer, hlt, if_true]; exact hlt
      · simp only [push_layer, hlt, if_true]; omega
    | stop s st1 =>
      simp only
      rcases decodeStep_stop b r st st1 s hs with ⟨f, -, rfl, -⟩ | ⟨cd, -, h1 | h1 | h1⟩
      · simp
      · obtain ⟨-, rfl, -⟩ := h1; simp
      · obtain ⟨-, -, rfl, -⟩ := h1; simp
      · obtain ⟨-, -, -, rfl, -⟩ := h1; simp

/-- The accounting of a refused layer changes the statistics and the packet
flags only. -/
theorem decodeRefused_ok (b : Build) (r : Registry) (st st1 : DecodeState)
    (h : decodeRefused b r st = .ok st1) :
    ∃ stats flags,
      st1 = { st with
                s_stats := stats,
                p := { st.p with cf := { st.p.cf with packet_flags := flags } } } := by
  unfold decodeRefused at h
  split at h
  · split at h
    · split at h
      · simp at h
      · split at h
        · simp only [Except.ok.injEq] at h
          exact ⟨_, st.p.cf.packet_flags, h.symm⟩
        · simp only [Except.ok.injEq] at h
          exact ⟨_, st.p.cf.packet_flags, h.symm⟩
    · split at h
      · simp at h
      · split at h
        · simp only [Except.ok.injEq] at h
          exact ⟨st.s_stats, _, h.symm⟩
        · simp only [Except.ok.injEq] at h
          exact ⟨st.s_stats, st.p.cf.packet_flags, h.symm⟩
  · simp only [Except.ok.injEq] at h
    exact ⟨st.s_stats, st.p.cf.packet_flags, h.symm⟩

/-- The shape of the state after the part of `decode` that follows the loop. -/
theorem decodeFinish_shape (b : Build) (sc : SnortConfig) (r : Registry) (st : DecodeState) :
    (∃ f, decodeRefused b r st = .error f ∧ decodeFinish b sc r st = (.fault f, st)) ∨
    ∃ stats flags evs chk,
      decodeFinish b sc r st =
        (.finished,
          { st with
              s_stats := stats,
              events := st.events ++ evs,
              ip6_order_checked := chk,
              p := { st.p with
                      cf := { st.p.cf with packet_flags := flags },
                      dsize := u16 st.len, data := st.pkt } }) ∧
      evs = (if sc.max_encapsulations ≠ -1 ∧
                (st.p.cf.encapsulations : Int) > sc.max_encapsulations
             then [DecodeEvent.DECODE_IP_MULTIPLE_ENCAPSULATION] else []) := by
  unfold decodeFinish
  cases h : decodeRefused b r st with
  | error f => exact Or.inl ⟨f, rfl, rfl⟩
  | ok st1 =>
    obtain ⟨stats, flags, rfl⟩ := decodeRefused_ok b r st st1 h
    right
    by_cases hm : sc.max_encapsulations ≠ -1 ∧
        (st.p.cf.encapsulations : Int) > sc.max_encapsulations
    · by_cases h6 : st.p.cf.ip6_extension_count > 0
      · exact ⟨bump stats (st.mapped_prot + stat_offset), flags,
          [DecodeEvent.DECODE_IP_MULTIPLE_ENCAPSULATION], true, by simp [hm, h6], by simp [hm]⟩
      · exact ⟨bump stats (st.mapped_prot + stat_offset), flags,
          [DecodeEvent.DECODE_IP_MULTIPLE_ENCAPSULATION], st.ip6_order_checked,
          by simp [hm, h6], by simp [hm]⟩
    · by_cases h6 : st.p.cf.ip6_extension_count > 0
      · exact ⟨bump stats (st.mapped_prot + stat_offset), flags, [], true,
          by simp [hm, h6], by simp [hm]⟩
      · exact ⟨bump stats (st.mapped_prot + stat_offset), flags, [], st.ip6_order_checked,
          by simp [hm, h6], by simp [hm]⟩

/-- How `decode` is put together from the loop and the part after it. -/
theorem decode_split (b : Build) (sc : SnortConfig) (r : Registry) (t : ThreadCtx) (p : Packet)
    (pkthdr : DAQ_PktHdr) (pkt : List Nat) (prot_id0 : Nat) :
    ((decodeLoop b r (b.LAYER_MAX + 1) (decodeInit b t p pkthdr pkt prot_id0)).1 = .finished ∧
      decode b sc r t p pkthdr pkt prot_id0 =
        { status := (decodeFinish b sc r
            (decodeLoop b r (b.LAYER_MAX + 1) (decodeInit b t p pkthdr pkt prot_id0)).2).1,
          st := (decodeFinish b sc r
            (decodeLoop b r (b.LAYER_MAX + 1) (decodeInit b t p pkthdr pkt prot_id0)).2).2 }) ∨
    ((decodeLoop b r (b.LAYER_MAX + 1) (decodeInit b t p pkthdr pkt prot_id0)).1 ≠ .finished ∧
      decode b sc r t p pkthdr pkt prot_id0 =
        { status := (decodeLoop b r (b.LAYER_MAX + 1) (decodeInit b t p pkthdr pkt prot_id0)).1,
          st := (decodeLoop b r (b.LAYER_MAX + 1) (decodeInit b t p pkthdr pkt prot_id0)).2 }) := by
  unfold decode
  rcases hL : decodeLoop b r (b.LAYER_MAX + 1) (decodeInit b t p pkthdr pkt prot_id0) with ⟨s, st⟩
  cases s with
  | finished => left; exact ⟨rfl, rfl⟩
  | tooManyLayers => right; exact ⟨by simp, rfl⟩
  | fault f => right; exact ⟨by simp, rfl⟩
  | fuelExhausted => right; exact ⟨by simp, rfl⟩

/-- C1. Layer bound of PacketManager::decode: for every frame, every registry and
every behaviour of the codecs the packet ends with at most LAYER_MAX layers,
push_layer never takes its warning branch, and DECODE_TOO_MANY_LAYERS is raised
at most once; when the codecs accept more than LAYER_MAX layers in a row, decode
raises DECODE_TOO_MANY_LAYERS exactly once and returns from inside the loop with
exactly LAYER_MAX layers. -/
theorem decode_layer_bound (b : Build) (sc : SnortConfig) (r : Registry) (t : ThreadCtx)
    (p : Packet) (pkthdr : DAQ_PktHdr) (pkt : List Nat) (prot_id0 : Nat) :
    (decode b sc r t p pkthdr pkt prot_id0).st.p.num_layers ≤ b.LAYER_MAX ∧
    (decode b sc r t p pkthdr pkt prot_id0).st.warnings = 0 ∧
    (decode b sc r t p pkthdr pkt prot_id0).st.events.count
        DecodeEvent.DECODE_TOO_MANY_LAYERS ≤ 1 ∧
    (decode b sc r t p pkthdr pkt prot_id0).status ≠ .fuelExhausted ∧
    (b.LAYER_MAX < (decode b sc r t p pkthdr pkt prot_id0).st.accepted →
      (decode b sc r t p pkthdr pkt prot_id0).status = .tooManyLayers ∧
      (decode b sc r t p pkthdr pkt prot_id0).st.events.count
          DecodeEvent.DECODE_TOO_MANY_LAYERS = 1 ∧
      (decode b sc r t p pkthdr pkt prot_id0).st.p.num_layers = b.LAYER_MAX) := by
  have hinv := decodeLoop_layers b r (b.LAYER_MAX + 1) (decodeInit b t p pkthdr pkt prot_id0)
    (by simp [decodeInit]) rfl (by simp [decodeInit]) rfl
  have hfuel := decodeLoop_fuel b r (b.LAYER_MAX + 1) (decodeInit b t p pkthdr pkt prot_id0)
    (by simp [decodeInit]) (by simp [decodeInit])
  obtain ⟨hn, hw, htm, hntm⟩ := hinv
  rcases decode_split b sc r t p pkthdr pkt prot_id0 with ⟨hs, hd⟩ | ⟨hs, hd⟩
  · have hne : (decodeLoop b r (b.LAYER_MAX + 1) (decodeInit b t p pkthdr pkt prot_id0)).1 ≠
        .tooManyLayers := by rw [hs]; simp
    obtain ⟨he, ha⟩ := hntm hne
    rcases decodeFinish_shape b sc r
        (decodeLoop b r (b.LAYER_MAX + 1) (decodeInit b t p pkthdr pkt prot_id0)).2 with
      ⟨f, -, hf⟩ | ⟨stats, flags, evs, chk, hf, hevs⟩
    · rw [hd, hf]
      simp only
      exact ⟨hn, hw, by omega, by simp, fun h => by omega⟩
    · rw [hd, hf]
      simp only
      have hc : evs.count DecodeEvent.DECODE_TOO_MANY_LAYERS = 0 := by
        rw [hevs]; split <;> simp
      refine ⟨hn, hw, ?_, by simp, fun h => by omega⟩
      rw [List.count_append, he, hc]
      omega
  · rw [hd]
    simp only
    by_cases htl : (decodeLoop b r (b.LAYER_MAX + 1) (decodeInit b t p pkthdr pkt prot_id0)).1 =
        .tooManyLayers
    · obtain ⟨he, hl, -⟩ := htm htl
      exact ⟨hn, hw, by omega, hfuel, fun _ => ⟨htl, he, hl⟩⟩
    · obtain ⟨he, ha⟩ := hntm htl
      exact ⟨hn, hw, by omega, hfuel, fun h => by omega⟩

/-- C1, exercised: with 32 layer slots and a codec that accepts forever, decode
sees 33 accepted calls, raises the event once and returns with 32 layers. -/
theorem decode_layer_bound_witness :
    sampleBuild.LAYER_MAX <
        (decode sampleBuild ⟨-1⟩ (registryOf greedyCodec) (threadOf 0) blankPacket (hdrOf 60)
          (List.replicate 60 0) 0).st.accepted ∧
    (decode sampleBuild ⟨-1⟩ (registryOf greedyCodec) (threadOf 0) blankPacket (hdrOf 60)
        (List.replicate 60 0) 0).status = .tooManyLayers ∧
    (decode sampleBuild ⟨-1⟩ (registryOf greedyCodec) (threadOf 0) blankPacket (hdrOf 60)
        (List.replicate 60 0) 0).st.events.count DecodeEvent.DECODE_TOO_MANY_LAYERS = 1 ∧
    (decode sampleBuild ⟨-1⟩ (registryOf greedyCodec) (threadOf 0) blankPacket (hdrOf 60)
        (List.replicate 60 0) 0).st.p.num_layers = sampleBuild.LAYER_MAX :=
  ⟨by decide,
   (decode_layer_bound sampleBuild ⟨-1⟩ (registryOf greedyCodec) (threadOf 0) blankPacket
      (hdrOf 60) (List.replicate 60 0) 0).2.2.2.2 (by decide)⟩

/-- A successful codec lookup found a bound slot. -/
theorem codecAt_ok (r : Registry) (i : Nat) (cd : Codec) (h : codecAt r i = .ok cd) :
    i < UINT8_MAX ∧ r.s_protocols i = some cd := by
  unfold codecAt at h
  split at h
  · rename_i hi
    split at h
    · rename_i cd1 hcd
      simp only [Except.ok.injEq] at h
      exact ⟨hi, by rw [hcd, h]⟩
    · simp at h
  · simp at h

/-- Writing slot `n` does not change the sum over the slots below `n`. -/
theorem layerLenSum_update (f : Nat → Layer) (n : Nat) (x : Layer) :
    ∀ m, m ≤ n → layerLenSum (fun j => if j = n then x else f j) m = layerLenSum f m := by
  intro m
  induction m with
  | zero => intro _; rfl
  | succ k ih =>
    intro hk
    have hne : k ≠ n := by omega
    simp only [layerLenSum, hne, if_false]
    rw [ih (by omega)]

/-- No wrap-around when the subtrahend fits. -/
theorem sub32_of_le (a c : Nat) (hc : c ≤ a) (ha : a < 4294967296) : sub32 a c = a - c := by
  unfold sub32
  have h1 : c % 4294967296 = c := Nat.mod_eq_of_lt (by omega)
  rw [h1]
  have h2 : a + 4294967296 - c = (a - c) + 4294967296 := by omega
  rw [h2, Nat.add_mod_right]
  exact Nat.mod_eq_of_lt (by omega)

theorem u16_idem (x : Nat) : u16 (u16 x) = u16 x := by
  unfold u16
  exact Nat.mod_mod _ _

theorem u16_of_lt (x : Nat) (h : x < 65536) : u16 x = x := Nat.mod_eq_of_lt h

/-- The coverage invariant along the loop: unless the loop ends in a fault, the
layers recorded so far end at the cursor, and cursor plus remaining length is
the capture length. -/
theorem decodeLoop_coverage (b : Build) (r : Registry) (caplen : Nat) (hcap : caplen < 65536)
    (hcd : CodecsWithinLength r) (fuel : Nat) (st : DecodeState)
    (hsum : layerLenSum st.p.layers st.p.num_layers = st.pkt)
    (hlen : st.pkt + st.len = caplen)
    (hlay : ∀ i, i < st.p.num_layers → (st.p.layers i).start + (st.p.layers i).length ≤ st.pkt)
    (hn : st.p.num_layers ≤ b.LAYER_MAX)
    (hnf : ∀ f, (decodeLoop b r fuel st).1 ≠ .fault f) :
    layerLenSum (decodeLoop b r fuel st).2.p.layers (decodeLoop b r fuel st).2.p.num_layers =
        (decodeLoop b r fuel st).2.pkt ∧
    (decodeLoop b r fuel st).2.pkt + (decodeLoop b r fuel st).2.len = caplen ∧
    (∀ i, i < (decodeLoop b r fuel st).2.p.num_layers →
        ((decodeLoop b r fuel st).2.p.layers i).start +
          ((decodeLoop b r fuel st).2.p.layers i).length ≤ (decodeLoop b r fuel st).2.pkt) ∧
    ((decodeLoop b r fuel st).1 = .tooManyLayers →
        (decodeLoop b r fuel st).2.p.dsize = u16 (decodeLoop b r fuel st).2.len ∧
        (decodeLoop b r fuel st).2.p.data = (decodeLoop b r fuel st).2.pkt) := by
  refine decodeLoop_rule b r
    (fun st => layerLenSum st.p.layers st.p.num_layers = st.pkt ∧ st.pkt + st.len = caplen ∧
      (∀ i, i < st.p.num_layers → (st.p.layers i).start + (st.p.layers i).length ≤ st.pkt) ∧
      st.p.num_layers ≤ b.LAYER_MAX)
    (fun s st => (∀ f, s ≠ .fault f) →
      layerLenSum st.p.layers st.p.num_layers = st.pkt ∧ st.pkt + st.len = caplen ∧
      (∀ i, i < st.p.num_layers → (st.p.layers i).start + (st.p.layers i).length ≤ st.pkt) ∧
      (s = .tooManyLayers → st.p.dsize = u16 st.len ∧ st.p.data = st.pkt))
    ?_ ?_ ?_ fuel st ⟨hsum, hlen, hlay, hn⟩ hnf
  · intro st st1 ⟨hsum, hlen, hlay, hn⟩ h
    obtain ⟨cd, hc, hok, hl, rfl⟩ := decodeStep_next b r st st1 h
    have hlt : st.p.num_layers < b.LAYER_MAX := lt_of_le_of_ne hn hl
    have hle := hcd _ cd (codecAt_ok r _ cd hc).2 st.pkt st.len st.p st.lyr_len st.prot_id hok
    simp only [push_layer, hlt, if_true]
    refine ⟨?_, ?_, ?_, hlt⟩
    · simp only [layerLenSum, if_true]
      rw [layerLenSum_update _ _ _ _ (le_refl _), hsum, u16_idem]
    · rw [sub32_of_le _ _ hle (by omega)]
      omega
    · intro i hi
      by_cases hin : i = st.p.num_layers
      · simp only [hin, if_true, u16_idem]
        omega
      · simp only [hin, if_false]
        have := hlay i (by omega)
        omega
  · intro st s st1 ⟨hsum, hlen, hlay, hn⟩ h hnf
    rcases decodeStep_stop b r st st1 s h with ⟨f, -, rfl, rfl⟩ | ⟨cd, hc, h1 | h1 | h1⟩
    · exact absurd rfl (hnf f)
    · obtain ⟨-, rfl, rfl⟩ := h1
      exact ⟨hsum, hlen, hlay, by simp⟩
    · obtain ⟨-, -, rfl, rfl⟩ := h1
      exact ⟨hsum, hlen, hlay, fun _ => ⟨rfl, rfl⟩⟩
    · obtain ⟨-, -, -, rfl, -⟩ := h1
      exact absurd rfl (hnf _)
  · intro st ⟨hsum, hlen, hlay, hn⟩ _
    exact ⟨hsum, hlen, hlay, by simp⟩

/-- C2, as amended. Coverage of PacketManager::decode: when the capture length
fits 16 bits and no codec accepts a header longer than the bytes that remain,
then on return (at the end of the function or at the layer limit) the layer
lengths plus dsize equal caplen, dsize is what lies behind the payload pointer,
the payload pointer is the sum of the layer lengths and lies within the capture,
and every layer ends within the capture. -/
theorem decode_coverage (b : Build) (sc : SnortConfig) (r : Registry) (t : ThreadCtx)
    (p : Packet) (pkthdr : DAQ_PktHdr) (pkt : List Nat) (prot_id0 : Nat) (res : DecodeResult)
    (hres : decode b sc r t p pkthdr pkt prot_id0 = res)
    (hcap : pkthdr.caplen ≤ 65535)
    (hcd : CodecsWithinLength r)
    (hret : res.status = .finished ∨ res.status = .tooManyLayers) :
    layerLenSum res.st.p.layers res.st.p.num_layers + res.st.p.dsize = pkthdr.caplen ∧
    res.st.p.data + res.st.p.dsize = pkthdr.caplen ∧
    res.st.p.data = layerLenSum res.st.p.layers res.st.p.num_layers ∧
    res.st.p.data ≤ pkthdr.caplen ∧
    (∀ i, i < res.st.p.num_layers →
      (res.st.p.layers i).start + (res.st.p.layers i).length ≤ pkthdr.caplen) := by
  subst hres
  have h32 : u32 pkthdr.caplen = pkthdr.caplen := Nat.mod_eq_of_lt (by omega)
  have hcov := decodeLoop_coverage b r pkthdr.caplen (by omega) hcd (b.LAYER_MAX + 1)
    (decodeInit b t p pkthdr pkt prot_id0) (by simp [decodeInit, layerLenSum])
    (by simp [decodeInit, h32]) (by simp [decodeInit]) (by simp [decodeInit])
  rcases decode_split b sc r t p pkthdr pkt prot_id0 with ⟨hs, hd⟩ | ⟨hs, hd⟩
  · obtain ⟨hsum, hlen, hlay, -⟩ := hcov (by rw [hs]; simp)
    rcases decodeFinish_shape b sc r
        (decodeLoop b r (b.LAYER_MAX + 1) (decodeInit b t p pkthdr pkt prot_id0)).2 with
      ⟨f, -, hf⟩ | ⟨stats, flags, evs, chk, hf, -⟩
    · rw [hd, hf] at hret
      simp at hret
    · rw [hd, hf]
      simp only
      rw [u16_of_lt _ (by omega)]
      refine ⟨by omega, by omega, by omega, by omega, fun i hi => ?_⟩
      have := hlay i hi
      omega
  · rw [hd] at hret ⊢
    simp only at hret ⊢
    have htl : (decodeLoop b r (b.LAYER_MAX + 1) (decodeInit b t p pkthdr pkt prot_id0)).1 =
        .tooManyLayers := by
      rcases hret with h | h
      · exact absurd h hs
      · exact h
    obtain ⟨hsum, hlen, hlay, hds⟩ := hcov (by rw [htl]; simp)
    obtain ⟨hd1, hd2⟩ := hds htl
    rw [hd1, hd2, u16_of_lt _ (by omega)]
    refine ⟨by omega, by omega, by omega, by omega, fun i hi => ?_⟩
    have := hlay i hi
    omega

/-- C2, exercised: a 60-byte frame whose link-layer header is accepted and whose
next protocol is unknown ends with one 14-byte layer and 46 bytes of payload. -/
theorem decode_coverage_witness :
    (decode sampleBuild ⟨-1⟩ (registryWith ethCodec) (threadOf 1) blankPacket (hdrOf 60)
        (ethFrame 2048) 0).st.p.num_layers = 1 ∧
    (decode sampleBuild ⟨-1⟩ (registryWith ethCodec) (threadOf 1) blankPacket (hdrOf 60)
        (ethFrame 2048) 0).st.p.dsize = 46 ∧
    layerLenSum
        (decode sampleBuild ⟨-1⟩ (registryWith ethCodec) (threadOf 1) blankPacket (hdrOf 60)
          (ethFrame 2048) 0).st.p.layers
        (decode sampleBuild ⟨-1⟩ (registryWith ethCodec) (threadOf 1) blankPacket (hdrOf 60)
          (ethFrame 2048) 0).st.p.num_layers +
      (decode sampleBuild ⟨-1⟩ (registryWith ethCodec) (threadOf 1) blankPacket (hdrOf 60)
        (ethFrame 2048) 0).st.p.dsize = (hdrOf 60).caplen :=
  ⟨by decide, by decide,
   (decode_coverage sampleBuild ⟨-1⟩ (registryWith ethCodec) (threadOf 1) blankPacket (hdrOf 60)
      (ethFrame 2048) 0 _ rfl (by decide)
      (by
        intro i cd hcd cur len p lyr_len prot_id hok
        have hcases : cd = nullCodec ∨ cd = ethCodec := by
          simp only [registryWith] at hcd
          split at hcd
          · exact Or.inl (Option.some.inj hcd).symm
          · split at hcd
            · exact Or.inr (Option.some.inj hcd).symm
            · simp at hcd
        rcases hcases with rfl | rfl
        · simp [nullCodec] at hok
        · simp only [ethCodec] at hok ⊢
          split at hok
          · rename_i h14
            simp only [h14, if_true]
            exact le_trans (by decide) h14
          · simp at hok)
      (Or.inl (by decide))).1⟩

/-- C2, refuted as stated. First run: a capture length of 66000 with a codec
that refuses at once returns with no layer and dsize 464. Second run: a codec
that accepts a 20-byte header in a 10-byte capture returns with one layer that
ends behind the capture, the payload pointer behind the capture and dsize
65526. -/
theorem decode_coverage_counterexample :
    ((decode sampleBuild ⟨-1⟩ (registryOf nullCodec) (threadOf 0) blankPacket (hdrOf 66000)
        (List.replicate 66000 0) 0).status = .finished ∧
      layerLenSum
          (decode sampleBuild ⟨-1⟩ (registryOf nullCodec) (threadOf 0) blankPacket (hdrOf 66000)
            (List.replicate 66000 0) 0).st.p.layers
          (decode sampleBuild ⟨-1⟩ (registryOf nullCodec) (threadOf 0) blankPacket (hdrOf 66000)
            (List.replicate 66000 0) 0).st.p.num_layers +
        (decode sampleBuild ⟨-1⟩ (registryOf nullCodec) (threadOf 0) blankPacket (hdrOf 66000)
          (List.replicate 66000 0) 0).st.p.dsize ≠ (hdrOf 66000).caplen ∧
      (decode sampleBuild ⟨-1⟩ (registryOf nullCodec) (threadOf 0) blankPacket (hdrOf 66000)
        (List.replicate 66000 0) 0).st.p.num_layers = 0 ∧
      (decode sampleBuild ⟨-1⟩ (registryOf nullCodec) (threadOf 0) blankPacket (hdrOf 66000)
        (List.replicate 66000 0) 0).st.p.dsize = 464) ∧
    ((decode sampleBuild ⟨-1⟩ (registryWith overlongCodec) (threadOf 1) blankPacket (hdrOf 10)
        (List.replicate 10 0) 0).status = .finished ∧
      layerLenSum
          (decode sampleBuild ⟨-1⟩ (registryWith overlongCodec) (threadOf 1) blankPacket
            (hdrOf 10) (List.replicate 10 0) 0).st.p.layers
          (decode sampleBuild ⟨-1⟩ (registryWith overlongCodec) (threadOf 1) blankPacket
            (hdrOf 10) (List.replicate 10 0) 0).st.p.num_layers +
        (decode sampleBuild ⟨-1⟩ (registryWith overlongCodec) (threadOf 1) blankPacket (hdrOf 10)
          (List.replicate 10 0) 0).st.p.dsize ≠ (hdrOf 10).caplen ∧
      (decode sampleBuild ⟨-1⟩ (registryWith overlongCodec) (threadOf 1) blankPacket (hdrOf 10)
        (List.replicate 10 0) 0).st.p.num_layers = 1 ∧
      (decode sampleBuild ⟨-1⟩ (registryWith overlongCodec) (threadOf 1) blankPacket (hdrOf 10)
        (List.replicate 10 0) 0).st.p.dsize = 65526 ∧
      ¬ (((decode sampleBuild ⟨-1⟩ (registryWith overlongCodec) (threadOf 1) blankPacket
            (hdrOf 10) (List.replicate 10 0) 0).st.p.layers 0).start +
          ((decode sampleBuild ⟨-1⟩ (registryWith overlongCodec) (threadOf 1) blankPacket
            (hdrOf 10) (List.replicate 10 0) 0).st.p.layers 0).length ≤ (hdrOf 10).caplen) ∧
      ¬ ((decode sampleBuild ⟨-1⟩ (registryWith overlongCodec) (threadOf 1) blankPacket
            (hdrOf 10) (List.replicate 10 0) 0).st.p.data ≤ (hdrOf 10).caplen)) := by
  refine ⟨⟨by decide, by decide, by decide, by decide⟩,
    by decide, by decide, by decide, by decide, by decide, by decide⟩

theorem bump_ne (s : Nat → Nat) (i j : Nat) (h : j ≠ i) : bump s i j = s j := by
  simp [bump, h]

theorem bump_eq (s : Nat → Nat) (i : Nat) : bump s i i = s i + 1 := by
  simp [bump]

/-- The loop leaves the counters below `stat_offset` alone and raises no
encapsulation event. -/
theorem decodeLoop_counters (b : Build) (r : Registry) (fuel : Nat) (st : DecodeState)
    (d o : Nat) (hd : st.s_stats discards = d) (ho : st.s_stats other_codecs = o)
    (he : DecodeEvent.DECODE_IP_MULTIPLE_ENCAPSULATION ∉ st.events) :
    (decodeLoop b r fuel st).2.s_stats discards = d ∧
    (decodeLoop b r fuel st).2.s_stats other_codecs = o ∧
    DecodeEvent.DECODE_IP_MULTIPLE_ENCAPSULATION ∉ (decodeLoop b r fuel st).2.events := by
  refine decodeLoop_rule b r
    (fun st => st.s_stats discards = d ∧ st.s_stats other_codecs = o ∧
      DecodeEvent.DECODE_IP_MULTIPLE_ENCAPSULATION ∉ st.events)
    (fun _ st => st.s_stats discards = d ∧ st.s_stats other_codecs = o ∧
      DecodeEvent.DECODE_IP_MULTIPLE_ENCAPSULATION ∉ st.events)
    ?_ ?_ ?_ fuel st ⟨hd, ho, he⟩
  · intro st st1 ⟨hd, ho, he⟩ h
    obtain ⟨cd, -, -, -, rfl⟩ := decodeStep_next b r st st1 h
    simp only
    rw [bump_ne _ _ _ (by simp [discards, stat_offset]),
      bump_ne _ _ _ (by simp [other_codecs, stat_offset])]
    exact ⟨hd, ho, he⟩
  · intro st s st1 ⟨hd, ho, he⟩ h
    rcases decodeStep_stop b r st st1 s h with ⟨f, -, rfl, rfl⟩ | ⟨cd, -, h1 | h1 | h1⟩
    · exact ⟨hd, ho, he⟩
    · obtain ⟨-, rfl, rfl⟩ := h1
      exact ⟨hd, ho, he⟩
    · obtain ⟨-, -, rfl, rfl⟩ := h1
      exact ⟨hd, ho, by simpa using he⟩
    · obtain ⟨-, -, -, rfl, rfl⟩ := h1
      simp only
      rw [bump_ne _ _ _ (by simp [discards, stat_offset]),
        bump_ne _ _ _ (by simp [other_codecs, stat_offset])]
      exact ⟨hd, ho, he⟩
  · intro st h
    exact h

/-- The statistics after the accounting of a refused layer. -/
theorem decodeRefused_stats (b : Build) (r : Registry) (st st1 : DecodeState)
    (h : decodeRefused b r st = .ok st1) :
    (st.prev_prot_id ≠ b.FINISHED_DECODE ∧ st.p.cf.decode_flags &&& b.DECODE__UNSURE_ENCAP = 0 →
      (r.s_proto_map st.prev_prot_id ≠ 0 → st1.s_stats = bump st.s_stats discards) ∧
      (r.s_proto_map st.prev_prot_id = 0 → st1.s_stats = bump st.s_stats other_codecs)) ∧
    (st.prev_prot_id = b.FINISHED_DECODE ∨ st.p.cf.decode_flags &&& b.DECODE__UNSURE_ENCAP ≠ 0 →
      st1.s_stats = st.s_stats) := by
  unfold decodeRefused at h
  by_cases hp : st.prev_prot_id ≠ b.FINISHED_DECODE
  · by_cases hu : st.p.cf.decode_flags &&& b.DECODE__UNSURE_ENCAP = 0
    · simp only [hp, hu, if_true, ne_eq, not_false_eq_true] at h
      unfold protoMapAt at h
      by_cases hid : st.prev_prot_id < max_protocol_id
      · simp only [hid, if_true] at h
        by_cases hm : r.s_proto_map st.prev_prot_id = 0
        · simp only [hm, ne_eq, not_true_eq_false, if_false, Except.ok.injEq] at h
          subst h
          exact ⟨fun _ => ⟨fun h0 => absurd hm h0, fun _ => rfl⟩,
            fun h0 => by rcases h0 with h0 | h0 <;> simp_all⟩
        · simp only [hm, ne_eq, not_false_eq_true, if_true, Except.ok.injEq] at h
          subst h
          exact ⟨fun _ => ⟨fun _ => rfl, fun h0 => absurd h0 hm⟩,
            fun h0 => by rcases h0 with h0 | h0 <;> simp_all⟩
      · simp [hid] at h
    · simp only [hp, hu, if_true, if_false, ne_eq, not_false_eq_true] at h
      split at h
      · simp at h
      · split at h
        · simp only [Except.ok.injEq] at h
          subst h
          exact ⟨fun h0 => absurd h0.2 hu, fun _ => rfl⟩
        · simp only [Except.ok.injEq] at h
          subst h
          exact ⟨fun h0 => absurd h0.2 hu, fun _ => rfl⟩
  · simp only [hp, if_false, Except.ok.injEq] at h
    subst h
    exact ⟨fun h0 => absurd h0.1 hp, fun _ => rfl⟩

/-- When the part after the loop runs to its end, the refusal accounting went
through and was followed by the count for the last codec. -/
theorem decodeFinish_stats (b : Build) (sc : SnortConfig) (r : Registry) (st : DecodeState)
    (h : (decodeFinish b sc r st).1 = .finished) :
    ∃ st1, decodeRefused b r st = .ok st1 ∧
      (decodeFinish b sc r st).2.s_stats = bump st1.s_stats (st.mapped_prot + stat_offset) := by
  unfold decodeFinish at h ⊢
  cases hr : decodeRefused b r st with
  | error f => simp [hr] at h
  | ok st1 =>
    obtain ⟨stats, flags, rfl⟩ := decodeRefused_ok b r st st1 hr
    refine ⟨_, rfl, ?_⟩
    simp only
    split <;> split <;> rfl

/-- C4. Refusal accounting of PacketManager::decode: when decode runs to the
end of the function, then (a) if the last protocol id handed on is not
FINISHED_DECODE and DECODE__UNSURE_ENCAP is clear, exactly one of the counters
discards / other grows by one: discards when s_proto_map maps that id to a
non-zero index, other when it maps it to 0; (b) if the last id is
FINISHED_DECODE or the flag is set, neither counter changes. -/
theorem decode_refusal_accounting (b : Build) (sc : SnortConfig) (r : Registry) (t : ThreadCtx)
    (p : Packet) (pkthdr : DAQ_PktHdr) (pkt : List Nat) (prot_id0 : Nat) (res : DecodeResult)
    (hres : decode b sc r t p pkthdr pkt prot_id0 = res)
    (hfin : res.status = .finished) :
    (res.st.prev_prot_id ≠ b.FINISHED_DECODE ∧
        res.st.p.cf.decode_flags &&& b.DECODE__UNSURE_ENCAP = 0 →
      (r.s_proto_map res.st.prev_prot_id ≠ 0 →
        res.st.s_stats discards = t.s_stats discards + 1 ∧
        res.st.s_stats other_codecs = t.s_stats other_codecs) ∧
      (r.s_proto_map res.st.prev_prot_id = 0 →
        res.st.s_stats other_codecs = t.s_stats other_codecs + 1 ∧
        res.st.s_stats discards = t.s_stats discards)) ∧
    (res.st.prev_prot_id = b.FINISHED_DECODE ∨
        res.st.p.cf.decode_flags &&& b.DECODE__UNSURE_ENCAP ≠ 0 →
      res.st.s_stats discards = t.s_stats discards ∧
      res.st.s_stats other_codecs = t.s_stats other_codecs) := by
  subst hres
  rcases decode_split b sc r t p pkthdr pkt prot_id0 with ⟨hs, hd⟩ | ⟨hs, hd⟩
  · rw [hd] at hfin ⊢
    simp only at hfin ⊢
    obtain ⟨hld, hlo, -⟩ := decodeLoop_counters b r (b.LAYER_MAX + 1)
      (decodeInit b t p pkthdr pkt prot_id0) (t.s_stats discards) (t.s_stats other_codecs)
      (by simp [decodeInit, bump, discards, total_processed])
      (by simp [decodeInit, bump, other_codecs, total_processed])
      (by simp [decodeInit])
    obtain ⟨st1, hr, hstats⟩ := decodeFinish_stats b sc r _ hfin
    obtain ⟨hA, hB⟩ := decodeRefused_stats b r _ st1 hr
    have hflags :
        (decodeFinish b sc r
          (decodeLoop b r (b.LAYER_MAX + 1) (decodeInit b t p pkthdr pkt prot_id0)).2).2.prev_prot_id =
          (decodeLoop b r (b.LAYER_MAX + 1) (decodeInit b t p pkthdr pkt prot_id0)).2.prev_prot_id ∧
        (decodeFinish b sc r
          (decodeLoop b r (b.LAYER_MAX + 1)
            (decodeInit b t p pkthdr pkt prot_id0)).2).2.p.cf.decode_flags =
          (decodeLoop b r (b.LAYER_MAX + 1)
            (decodeInit b t p pkthdr pkt prot_id0)).2.p.cf.decode_flags := by
      rcases decodeFinish_shape b sc r
          (decodeLoop b r (b.LAYER_MAX + 1) (decodeInit b t p pkthdr pkt prot_id0)).2 with
        ⟨f, -, hf⟩ | ⟨stats, flags, evs, chk, hf, -⟩
      · rw [hf] at hfin; simp at hfin
      · rw [hf]; exact ⟨rfl, rfl⟩
    rw [hflags.1, hflags.2, hstats]
    rw [bump_ne _ _ _ (by simp [discards, stat_offset]),
      bump_ne _ _ _ (by simp [other_codecs, stat_offset])]
    refine ⟨fun h => ⟨fun hm => ?_, fun hm => ?_⟩, fun h => ?_⟩
    · rw [(hA h).1 hm, bump_eq, bump_ne _ _ _ (by simp [discards, other_codecs])]
      exact ⟨by rw [hld], hlo⟩
    · rw [(hA h).2 hm, bump_eq, bump_ne _ _ _ (by simp [discards, other_codecs])]
      exact ⟨by rw [hlo], hld⟩
    · rw [hB h]
      exact ⟨hld, hlo⟩
  · rw [hd] at hfin
    exact absurd hfin hs

/-- C4, exercised (scenario S3): a link-layer header and an IPv4 header
announcing protocol 253, which no codec claims; decode ends with two layers,
the last protocol id 253, `other` counted once and `discards` untouched. -/
theorem decode_refusal_accounting_witness :
    (decode sampleBuild ⟨-1⟩ sampleRegistry (threadOf 2) blankPacket (hdrOf 60)
        (ethHdr 2048 ++ ip4Hdr 253 ++ List.replicate 26 0) 0).status = .finished ∧
    (decode sampleBuild ⟨-1⟩ sampleRegistry (threadOf 2) blankPacket (hdrOf 60)
        (ethHdr 2048 ++ ip4Hdr 253 ++ List.replicate 26 0) 0).st.prev_prot_id = 253 ∧
    (decode sampleBuild ⟨-1⟩ sampleRegistry (threadOf 2) blankPacket (hdrOf 60)
        (ethHdr 2048 ++ ip4Hdr 253 ++ List.replicate 26 0) 0).st.s_stats other_codecs =
      (threadOf 2).s_stats other_codecs + 1 ∧
    (decode sampleBuild ⟨-1⟩ sampleRegistry (threadOf 2) blankPacket (hdrOf 60)
        (ethHdr 2048 ++ ip4Hdr 253 ++ List.replicate 26 0) 0).st.s_stats discards =
      (threadOf 2).s_stats discards :=
  ⟨by decide, by decide,
   ((decode_refusal_accounting sampleBuild ⟨-1⟩ sampleRegistry (threadOf 2) blankPacket
      (hdrOf 60) (ethHdr 2048 ++ ip4Hdr 253 ++ List.replicate 26 0) 0 _ rfl (by decide)).1
      ⟨by decide, by decide⟩).2 (by decide)⟩

/-- On a ready registry the loop of `decode` ends without a fault, with a last
protocol id that is FINISHED_DECODE or within the map. -/
theorem decodeLoop_ready (b : Build) (r : Registry) (t : ThreadCtx) (hr : DecodeReady r t)
    (fuel : Nat) (st : DecodeState)
    (hm : ∃ cd, codecAt r st.mapped_prot = .ok cd)
    (hp : st.prev_prot_id = b.FINISHED_DECODE ∨ st.prev_prot_id < max_protocol_id) :
    (∀ f, (decodeLoop b r fuel st).1 ≠ .fault f) ∧
    ((decodeLoop b r fuel st).2.prev_prot_id = b.FINISHED_DECODE ∨
      (decodeLoop b r fuel st).2.prev_prot_id < max_protocol_id) := by
  obtain ⟨-, hmap, hids⟩ := hr
  refine decodeLoop_rule b r
    (fun st => (∃ cd, codecAt r st.mapped_prot = .ok cd) ∧
      (st.prev_prot_id = b.FINISHED_DECODE ∨ st.prev_prot_id < max_protocol_id))
    (fun s st => (∀ f, s ≠ .fault f) ∧
      (st.prev_prot_id = b.FINISHED_DECODE ∨ st.prev_prot_id < max_protocol_id))
    ?_ ?_ ?_ fuel st ⟨hm, hp⟩
  · intro st st1 ⟨_, _⟩ h
    obtain ⟨cd, hc, -, -, rfl⟩ := decodeStep_next b r st st1 h
    have hid := hids _ cd (codecAt_ok r _ cd hc).2 st.pkt st.len st.p st.lyr_len st.prot_id
    exact ⟨hmap _ hid, Or.inr hid⟩
  · intro st s st1 ⟨⟨cd0, hc0⟩, hp⟩ h
    rcases decodeStep_stop b r st st1 s h with ⟨f, hc, rfl, rfl⟩ | ⟨cd, hc, h1 | h1 | h1⟩
    · rw [hc0] at hc
      simp at hc
    · obtain ⟨-, rfl, rfl⟩ := h1
      exact ⟨by simp, hp⟩
    · obtain ⟨-, -, rfl, rfl⟩ := h1
      exact ⟨by simp, hp⟩
    · obtain ⟨-, -, hbad, -, -⟩ := h1
      exact absurd
        (hids _ cd (codecAt_ok r _ cd hc).2 st.pkt st.len st.p st.lyr_len st.prot_id) hbad
  · intro st ⟨_, hp⟩
    exact ⟨by simp, hp⟩

/-- On a ready registry `decode` returns, unless it reads the layer slot behind
a full layer array on the DECODE__UNSURE_ENCAP path. -/
theorem decode_returns (b : Build) (sc : SnortConfig) (r : Registry) (t : ThreadCtx)
    (p : Packet) (pkthdr : DAQ_PktHdr) (pkt : List Nat) (prot_id0 : Nat)
    (hr : DecodeReady r t) :
    (decode b sc r t p pkthdr pkt prot_id0).status = .finished ∨
    (decode b sc r t p pkthdr pkt prot_id0).status = .tooManyLayers ∨
    ((decode b sc r t p pkthdr pkt prot_id0).status = .fault .outOfBounds ∧
      (decode b sc r t p pkthdr pkt prot_id0).st.p.cf.decode_flags &&&
        b.DECODE__UNSURE_ENCAP ≠ 0 ∧
      (decode b sc r t p pkthdr pkt prot_id0).st.p.num_layers = b.LAYER_MAX) := by
  have hfuel := decodeLoop_fuel b r (b.LAYER_MAX + 1) (decodeInit b t p pkthdr pkt prot_id0)
    (by simp [decodeInit]) (by simp [decodeInit])
  obtain ⟨hnf, hprev⟩ := decodeLoop_ready b r t hr (b.LAYER_MAX + 1)
    (decodeInit b t p pkthdr pkt prot_id0) hr.1 (Or.inl rfl)
  obtain ⟨hnl, -, -, -⟩ := decodeLoop_layers b r (b.LAYER_MAX + 1)
    (decodeInit b t p pkthdr pkt prot_id0) (by simp [decodeInit]) rfl (by simp [decodeInit]) rfl
  rcases decode_split b sc r t p pkthdr pkt prot_id0 with ⟨hs, hd⟩ | ⟨hs, hd⟩
  · rcases decodeFinish_shape b sc r
        (decodeLoop b r (b.LAYER_MAX + 1) (decodeInit b t p pkthdr pkt prot_id0)).2 with
      ⟨f, hf1, hf⟩ | ⟨stats, flags, evs, chk, hf, -⟩
    · right; right
      rw [hd, hf]
      simp only
      generalize (decodeLoop b r (b.LAYER_MAX + 1) (decodeInit b t p pkthdr pkt prot_id0)).2 = st
        at hf1 hprev hnl
      unfold decodeRefused at hf1
      by_cases hp : st.prev_prot_id ≠ b.FINISHED_DECODE
      · by_cases hu : st.p.cf.decode_flags &&& b.DECODE__UNSURE_ENCAP = 0
        · simp only [hp, hu, if_true, ne_eq, not_false_eq_true] at hf1
          have hlt : st.prev_prot_id < max_protocol_id := by
            rcases hprev with h | h
            · exact absurd h hp
            · exact h
          simp only [protoMapAt, hlt, if_true] at hf1
          split at hf1 <;> simp at hf1
        · simp only [hp, hu, if_true, if_false, ne_eq, not_false_eq_true] at hf1
          unfold layerAt at hf1
          by_cases hl : st.p.num_layers < b.LAYER_MAX
          · simp only [hl, if_true] at hf1
            split at hf1 <;> simp at hf1
          · simp only [hl, if_false, Except.error.injEq] at hf1
            exact ⟨by rw [← hf1], hu, by omega⟩
      · simp [hp] at hf1
    · left
      rw [hd, hf]
  · right; left
    rw [hd]
    simp only
    cases hst : (decodeLoop b r (b.LAYER_MAX + 1) (decodeInit b t p pkthdr pkt prot_id0)).1 with
    | finished => exact absurd hst hs
    | tooManyLayers => rfl
    | fault f => exact absurd hst (hnf f)
    | fuelExhausted => exact absurd hst hfuel

/-- The encapsulation event and the payload fields at the ends of `decode`. -/
theorem decode_encapsulation_core (b : Build) (sc : SnortConfig) (r : Registry) (t : ThreadCtx)
    (p : Packet) (pkthdr : DAQ_PktHdr) (pkt : List Nat) (prot_id0 : Nat) (res : DecodeResult)
    (hres : decode b sc r t p pkthdr pkt prot_id0 = res) :
    res.status ≠ .fuelExhausted ∧
    (res.status = .finished →
      res.st.events.count DecodeEvent.DECODE_IP_MULTIPLE_ENCAPSULATION =
        if sc.max_encapsulations ≠ -1 ∧
            (res.st.p.cf.encapsulations : Int) > sc.max_encapsulations then 1 else 0) ∧
    (res.status ≠ .finished →
      DecodeEvent.DECODE_IP_MULTIPLE_ENCAPSULATION ∉ res.st.events) ∧
    (res.status = .finished ∨ res.status = .tooManyLayers →
      res.st.p.data = res.st.pkt ∧ res.st.p.dsize = u16 res.st.len) := by
  subst hres
  have hfuel := decodeLoop_fuel b r (b.LAYER_MAX + 1) (decodeInit b t p pkthdr pkt prot_id0)
    (by simp [decodeInit]) (by simp [decodeInit])
  obtain ⟨-, -, hev⟩ := decodeLoop_counters b r (b.LAYER_MAX + 1)
    (decodeInit b t p pkthdr pkt prot_id0) _ _ rfl rfl (by simp [decodeInit])
  have hcov := decodeLoop_rule b r (fun _ => True)
    (fun s st => s = .tooManyLayers → st.p.data = st.pkt ∧ st.p.dsize = u16 st.len)
    (fun _ _ _ _ => trivial)
    (fun st s st1 _ h => by
      rcases decodeStep_stop b r st st1 s h with ⟨f, -, rfl, rfl⟩ | ⟨cd, -, h1 | h1 | h1⟩
      · simp
      · obtain ⟨-, rfl, rfl⟩ := h1; simp
      · obtain ⟨-, -, rfl, rfl⟩ := h1; exact fun _ => ⟨rfl, rfl⟩
      · obtain ⟨-, -, -, rfl, rfl⟩ := h1; simp)
    (fun _ _ => by simp)
    (b.LAYER_MAX + 1) (decodeInit b t p pkthdr pkt prot_id0) trivial
  rcases decode_split b sc r t p pkthdr pkt prot_id0 with ⟨hs, hd⟩ | ⟨hs, hd⟩
  · rcases decodeFinish_shape b sc r
        (decodeLoop b r (b.LAYER_MAX + 1) (decodeInit b t p pkthdr pkt prot_id0)).2 with
      ⟨f, -, hf⟩ | ⟨stats, flags, evs, chk, hf, hevs⟩
    · rw [hd, hf]
      simp only
      exact ⟨by simp, by simp, fun _ => hev, by simp⟩
    · rw [hd, hf]
      simp only
      refine ⟨by simp, fun _ => ?_, by simp, fun _ => by simp⟩
      rw [List.count_append, List.count_eq_zero_of_not_mem hev, hevs]
      split <;> simp
  · rw [hd]
    simp only
    refine ⟨hfuel, fun h => absurd h hs, fun _ => hev, fun h => ?_⟩
    rcases h with h | h
    · exact absurd h hs
    · exact hcov h

/-- C5, as amended. Encapsulation limit of PacketManager::decode: the loop always
ends within its bound; when decode runs to the end of the function,
DECODE_IP_MULTIPLE_ENCAPSULATION is raised exactly once if max_encapsulations is
configured (not -1) and the packet's encapsulation count exceeds it, and not at
all otherwise; when decode ends in any other way (the return at the layer limit
included) the event is not raised; on either return the payload pointer and
dsize are set from the cursor and the remaining length; and on a registry whose
grinder and mapped indices name bound codecs that hand on ids within the map,
decode does return, unless it reads the slot behind a full layer array on the
DECODE__UNSURE_ENCAP path. -/
theorem decode_encapsulation_event (b : Build) (sc : SnortConfig) (r : Registry) (t : ThreadCtx)
    (p : Packet) (pkthdr : DAQ_PktHdr) (pkt : List Nat) (prot_id0 : Nat) (res : DecodeResult)
    (hres : decode b sc r t p pkthdr pkt prot_id0 = res) :
    res.status ≠ .fuelExhausted ∧
    (res.status = .finished →
      res.st.events.count DecodeEvent.DECODE_IP_MULTIPLE_ENCAPSULATION =
        if sc.max_encapsulations ≠ -1 ∧
            (res.st.p.cf.encapsulations : Int) > sc.max_encapsulations then 1 else 0) ∧
    (res.status ≠ .finished →
      DecodeEvent.DECODE_IP_MULTIPLE_ENCAPSULATION ∉ res.st.events) ∧
    (res.status = .finished ∨ res.status = .tooManyLayers →
      res.st.p.data = res.st.pkt ∧ res.st.p.dsize = u16 res.st.len) ∧
    (DecodeReady r t →
      res.status = .finished ∨ res.status = .tooManyLayers ∨
      (res.status = .fault .outOfBounds ∧
        res.st.p.cf.decode_flags &&& b.DECODE__UNSURE_ENCAP ≠ 0 ∧
        res.st.p.num_layers = b.LAYER_MAX)) := by
  obtain ⟨h1, h2, h3, h4⟩ := decode_encapsulation_core b sc r t p pkthdr pkt prot_id0 res hres
  subst hres
  exact ⟨h1, h2, h3, h4, fun hr => decode_returns b sc r t p pkthdr pkt prot_id0 hr⟩

/-- C5, exercised: six IPv6 headers inside one another with the maximum set to
4; decode runs to its end with 7 layers and raises the event once. -/
theorem decode_encapsulation_event_witness :
    (decode sampleBuild ⟨4⟩ sampleRegistry (threadOf 2) blankPacket (hdrOf 262)
        (nestedIp6Frame 5) 0).status = .finished ∧
    (decode sampleBuild ⟨4⟩ sampleRegistry (threadOf 2) blankPacket (hdrOf 262)
        (nestedIp6Frame 5) 0).st.p.num_layers = 7 ∧
    (decode sampleBuild ⟨4⟩ sampleRegistry (threadOf 2) blankPacket (hdrOf 262)
        (nestedIp6Frame 5) 0).st.p.cf.encapsulations = 5 ∧
    (decode sampleBuild ⟨4⟩ sampleRegistry (threadOf 2) blankPacket (hdrOf 262)
        (nestedIp6Frame 5) 0).st.events.count DecodeEvent.DECODE_IP_MULTIPLE_ENCAPSULATION = 1 :=
  ⟨by decide, by decide, by decide,
   by
    rw [(decode_encapsulation_event sampleBuild ⟨4⟩ sampleRegistry (threadOf 2) blankPacket
      (hdrOf 262) (nestedIp6Frame 5) 0 _ rfl).2.1 (by decide)]
    decide⟩

set_option maxRecDepth 100000 in
/-- C5, refuted as stated (scenario S2): a link-layer header and 41 IPv6 headers
inside one another, 32 layer slots, the maximum set to 4. Decode returns at the
layer limit with 32 layers and an encapsulation count of 31, which exceeds the
maximum; it has raised DECODE_TOO_MANY_LAYERS and has not raised
DECODE_IP_MULTIPLE_ENCAPSULATION. -/
theorem decode_encapsulation_event_counterexample :
    (decode sampleBuild ⟨4⟩ sampleRegistry (threadOf 2) blankPacket (hdrOf 1662)
        (nestedIp6Frame 40) 0).status = .tooManyLayers ∧
    (decode sampleBuild ⟨4⟩ sampleRegistry (threadOf 2) blankPacket (hdrOf 1662)
        (nestedIp6Frame 40) 0).st.p.num_layers = 32 ∧
    (decode sampleBuild ⟨4⟩ sampleRegistry (threadOf 2) blankPacket (hdrOf 1662)
        (nestedIp6Frame 40) 0).st.p.cf.encapsulations = 31 ∧
    ((4 : Int) ≠ -1 ∧
      ((decode sampleBuild ⟨4⟩ sampleRegistry (threadOf 2) blankPacket (hdrOf 1662)
        (nestedIp6Frame 40) 0).st.p.cf.encapsulations : Int) > 4) ∧
    (decode sampleBuild ⟨4⟩ sampleRegistry (threadOf 2) blankPacket (hdrOf 1662)
        (nestedIp6Frame 40) 0).st.events = [DecodeEvent.DECODE_TOO_MANY_LAYERS] ∧
    DecodeEvent.DECODE_IP_MULTIPLE_ENCAPSULATION ∉
      (decode sampleBuild ⟨4⟩ sampleRegistry (threadOf 2) blankPacket (hdrOf 1662)
        (nestedIp6Frame 40) 0).st.events := by
  refine ⟨by decide, by decide, by decide, ⟨by decide, by decide⟩, by decide, by decide⟩

/-- What the id loop of `instantiate` leaves behind when it goes through. -/
theorem installIds_ok : ∀ (ids : List Nat) (r r1 : Registry), installIds ids r = .ok r1 →
    r1.codec_id = r.codec_id ∧ r1.history = r.history ∧ r1.s_protocols = r.s_protocols ∧
    r1.s_codecs = r.s_codecs ∧ r1.instantiated_api = r.instantiated_api ∧
    (∀ id, r1.s_proto_map id = if id ∈ ids then u8 r.codec_id else r.s_proto_map id) := by
  intro ids
  induction ids with
  | nil =>
    intro r r1 h
    simp only [installIds, Except.ok.injEq] at h
    subst h
    simp
  | cons a rest ih =>
    intro r r1 h
    unfold installIds at h
    by_cases ha : a < max_protocol_id
    · simp only [ha, if_true] at h
      by_cases hz : r.s_proto_map a ≠ 0
      · simp only [hz, if_true, ne_eq, not_false_eq_true] at h
        cases hc : codecAt r (r.s_proto_map a) with
        | error f => simp [hc] at h
        | ok cd =>
          simp only [hc] at h
          obtain ⟨h1, h2, h3, h4, h5, h6⟩ := ih _ r1 h
          refine ⟨h1, h2, h3, h4, h5, fun id => ?_⟩
          rw [h6 id]
          by_cases hid : id = a
          · subst hid; simp
          · simp [hid]
      · simp only [hz, if_false] at h
        obtain ⟨h1, h2, h3, h4, h5, h6⟩ := ih _ r1 h
        refine ⟨h1, h2, h3, h4, h5, fun id => ?_⟩
        rw [h6 id]
        by_cases hid : id = a
        · subst hid; simp
        · simp [hid]
    · simp [ha] at h

/-- The helper `api_instantiated` changes its own static only. -/
theorem api_instantiated_ok (cd_api : CodecApi) (r r1 : Registry) (bv : Bool)
    (h : api_instantiated cd_api r = .ok (bv, r1)) :
    ∃ v, r1 = { r with instantiated_api := some v } := by
  unfold api_instantiated at h
  split at h
  · simp at h
  · split at h
    · split at h
      · simp only [Except.ok.injEq, Prod.mk.injEq] at h
        exact ⟨_, h.2.symm⟩
      · simp only [Except.ok.injEq, Prod.mk.injEq] at h
        exact ⟨_, h.2.symm⟩
    · simp at h

/-- What a call of `instantiate` that returns has done: nothing but mark the
descriptor, or bind a new codec under the next index. -/
theorem instantiate_ok (cd_api : CodecApi) (m : Nat) (r r1 : Registry)
    (h : instantiate cd_api m r = .ok r1) :
    (∃ v, r1 = { r with instantiated_api := some v }) ∨
    (r.codec_id < UINT8_MAX ∧ ∃ ctor, cd_api.ctor = some ctor ∧
      r1.codec_id = r.codec_id + 1 ∧
      r1.history = r.history ++ [(r.codec_id, ctor m)] ∧
      r1.s_codecs = r.s_codecs ∧
      (∀ i, r1.s_protocols i = if i = r.codec_id then some (ctor m) else r.s_protocols i) ∧
      (∀ id, r1.s_proto_map id =
        if id ∈ (ctor m).protocol_ids then r.codec_id else r.s_proto_map id)) := by
  unfold instantiate at h
  split at h
  · simp at h
  · rename_i r0 hap
    simp only [Except.ok.injEq] at h
    subst h
    exact Or.inl (api_instantiated_ok cd_api r r0 true hap)
  · rename_i r0 hap
    obtain ⟨v, rfl⟩ := api_instantiated_ok cd_api r r0 false hap
    right
    by_cases hge : r.codec_id ≥ UINT8_MAX
    · simp [hge] at h
    · simp only [hge, if_false] at h
      split at h
      · simp at h
      · rename_i ctor hctor
        split at h
        · simp at h
        · rename_i r3 hids
          simp only [Except.ok.injEq] at h
          subst h
          obtain ⟨h1, h2, h3, h4, h5, h6⟩ := installIds_ok _ _ r3 hids
          have hu8 : u8 r.codec_id = r.codec_id :=
            Nat.mod_eq_of_lt (by unfold UINT8_MAX at hge; omega)
          refine ⟨by omega, ctor, hctor, ?_, ?_, ?_, ?_, ?_⟩
          · simp only [h1]
          · simp only [h1, h2]
          · simp only [h4]
          · intro i
            simp only [h1, h3]
          · intro id
            simp only
            rw [h6 id, hu8]

theorem lastClaimer_append (h : List (Nat × Codec)) (k : Nat) (cd : Codec) (id : Nat) :
    lastClaimer (h ++ [(k, cd)]) id = if id ∈ cd.protocol_ids then k else lastClaimer h id := by
  simp [lastClaimer, List.foldl_append]

theorem add_plugin_ok (api : CodecApi) (r r1 : Registry) (h : add_plugin api r = .ok r1) :
    r1 = { r with s_codecs := r.s_codecs ++ [api] } := by
  unfold add_plugin at h
  split at h
  · simp at h
  · split at h
    · simp at h
    · simp only [Except.ok.injEq] at h
      exact h.symm

/-- A call of `instantiate` keeps the registry invariant. -/
theorem instantiate_inv (cd_api : CodecApi) (m : Nat) (r r1 : Registry)
    (h : instantiate cd_api m r = .ok r1) (hinv : RegistryInv r) : RegistryInv r1 := by
  obtain ⟨hmap, hhist, hone⟩ := hinv
  rcases instantiate_ok cd_api m r r1 h with ⟨v, rfl⟩ | ⟨hlt, ctor, -, h1, h2, -, h3, h4⟩
  · exact ⟨hmap, hhist, hone⟩
  · refine ⟨fun id hid => ?_, fun e he => ?_, by omega⟩
    · rw [h4 id, h2, lastClaimer_append, hmap id hid]
    · rw [h2] at he
      rcases List.mem_append.mp he with he | he
      · obtain ⟨e1, e2, e3⟩ := hhist e he
        refine ⟨e1, by omega, ?_⟩
        rw [h3 e.1, if_neg (by omega), e3]
      · simp only [List.mem_singleton] at he
        subst he
        refine ⟨hone, by simp only; omega, ?_⟩
        rw [h3]
        simp

theorem instantiateEach_inv : ∀ (apis : List CodecApi) (r r1 : Registry),
    instantiateEach apis r = .ok r1 → RegistryInv r → RegistryInv r1 := by
  intro apis
  induction apis with
  | nil =>
    intro r r1 h hinv
    simp only [instantiateEach, Except.ok.injEq] at h
    subst h
    exact hinv
  | cons a rest ih =>
    intro r r1 h hinv
    unfold instantiateEach at h
    split at h
    · simp at h
    · rename_i r2 h2
      exact ih r2 r1 h (instantiate_inv a 0 r r2 h2 hinv)

/-- The no-argument form of `instantiate` keeps the registry invariant. -/
theorem instantiate_all_inv (default_codec : CodecApi) (r r1 : Registry)
    (h : instantiate_all default_codec r = .ok r1) (hinv : RegistryInv r) : RegistryInv r1 := by
  unfold instantiate_all at h
  split at h
  · simp at h
  · rename_i ra ha
    have hra := add_plugin_ok default_codec r ra ha
    split at h
    · simp at h
    · rename_i rb hb
      have hinva : RegistryInv ra := by
        rw [hra]; exact hinv
      obtain ⟨hmap, hhist, hone⟩ := instantiate_inv default_codec 0 ra rb hb hinva
      refine instantiateEach_inv _ _ r1 h ⟨hmap, fun e he => ?_, hone⟩
      obtain ⟨e1, e2, e3⟩ := hhist e he
      refine ⟨e1, e2, ?_⟩
      simp only
      rw [if_neg (by omega), e3]

/-- Every sequence of start-up calls keeps the registry invariant. -/
theorem runOps_inv (default_codec : CodecApi) : ∀ (ops : List RegOp) (r r1 : Registry),
    runOps default_codec ops r = .ok r1 → RegistryInv r → RegistryInv r1 := by
  intro ops
  induction ops with
  | nil =>
    intro r r1 h hinv
    simp only [runOps, Except.ok.injEq] at h
    subst h
    exact hinv
  | cons op rest ih =>
    intro r r1 h hinv
    unfold runOps at h
    split at h
    · simp at h
    · rename_i r2 h2
      refine ih r2 r1 h ?_
      cases op with
      | add_plugin api =>
        rw [add_plugin_ok api r r2 h2]
        exact hinv
      | instantiate api m => exact instantiate_inv api m r r2 h2 hinv
      | instantiate_all => exact instantiate_all_inv default_codec r r2 h2 hinv

theorem registry_start_inv : RegistryInv Registry.start := by
  refine ⟨fun id _ => rfl, fun e he => ?_, by simp [Registry.start]⟩
  simp [Registry.start] at he

/-- C3. Protocol map after instantiation: after any sequence of add_plugin and
instantiate calls (both forms) that runs from program start without a fault,
for every protocol id within the map s_proto_map[id] is the index of the most
recently bound codec whose protocol ids contain id, and 0 when no bound codec
claims it; every bound codec sits in the slot of its index; and a further
instantiate call leaves the entry of every id that the new codec does not
claim as it was. -/
theorem instantiate_proto_map (default_codec : CodecApi) (ops : List RegOp) (r : Registry)
    (h : runOps default_codec ops Registry.start = .ok r) :
    (∀ id, id < max_protocol_id → r.s_proto_map id = lastClaimer r.history id) ∧
    (∀ e, e ∈ r.history → r.s_protocols e.1 = some e.2) ∧
    (∀ api m r1, instantiate api m r = .ok r1 →
      ∀ id, (∀ ctor, api.ctor = some ctor → id ∉ (ctor m).protocol_ids) →
        r1.s_proto_map id = r.s_proto_map id) := by
  obtain ⟨hmap, hhist, -⟩ := runOps_inv default_codec ops Registry.start r h registry_start_inv
  refine ⟨hmap, fun e he => (hhist e he).2.2, fun api m r1 h1 id hid => ?_⟩
  rcases instantiate_ok api m r r1 h1 with ⟨v, rfl⟩ | ⟨-, ctor, hctor, -, -, -, -, h4⟩
  · rfl
  · rw [h4 id, if_neg (hid ctor hctor)]

/-- C3, exercised: two codecs that both claim id 2048 are bound one after the
other (and the first is offered once more); the map sends 2048 and 4 to the
second codec, index 2, keeps 9 with the first, index 1, and holds 0 for the
unclaimed id 17. -/
theorem instantiate_proto_map_witness :
    runOps (apiOf 0 nullCodec) sampleOps Registry.start =
      .ok (registryAfter (apiOf 0 nullCodec) sampleOps) ∧
    (registryAfter (apiOf 0 nullCodec) sampleOps).s_proto_map 2048 =
      lastClaimer (registryAfter (apiOf 0 nullCodec) sampleOps).history 2048 ∧
    (registryAfter (apiOf 0 nullCodec) sampleOps).s_proto_map 2048 = 2 ∧
    (registryAfter (apiOf 0 nullCodec) sampleOps).s_proto_map 4 = 2 ∧
    (registryAfter (apiOf 0 nullCodec) sampleOps).s_proto_map 9 = 1 ∧
    (registryAfter (apiOf 0 nullCodec) sampleOps).s_proto_map 17 = 0 :=
  ⟨rfl,
   (instantiate_proto_map (apiOf 0 nullCodec) sampleOps
      (registryAfter (apiOf 0 nullCodec) sampleOps) rfl).1 2048 (by decide),
   by decide, by decide, by decide, by decide⟩

theorem mappedProt_ok (r : Registry) (t : ThreadCtx) (i : Nat) (l : Layer) (m : Nat)
    (h : mappedProt r t i l = .ok m) :
    m = if i ≠ 0 then r.s_proto_map l.prot_id else t.grinder := by
  unfold mappedProt at h
  by_cases hi : i ≠ 0
  · simp only [hi, if_true, ne_eq, not_false_eq_true] at h ⊢
    unfold protoMapAt at h
    split at h
    · simp only [Except.ok.injEq] at h
      exact h.symm
    · simp at h
  · simp only [hi, if_false, Except.ok.injEq] at h ⊢
    exact h.symm

/-- One round of the loop of `encode_packet`, by cases. -/
theorem encodeLoop_succ (r : Registry) (t : ThreadCtx) (p : Packet) (i : Nat) (st : EncLoopState) :
    (∃ f, encodeLoop r t p (i + 1) st =
        (.fault f, { st with enc := { st.enc with layer := st.enc.layer - 1 } })) ∨
    ∃ m cd,
      m = (if i ≠ 0 then r.s_proto_map (p.layers i).prot_id else t.grinder) ∧
      codecAt r m = .ok cd ∧
      ∃ st1 : EncLoopState,
        st1 =
          { enc := { st.enc with
                      layer := st.enc.layer - 1,
                      proto := (cd.encode { st.enc with layer := st.enc.layer - 1 } st.obuf st.mem
                                  (p.layers i).start).proto },
            obuf := (cd.encode { st.enc with layer := st.enc.layer - 1 } st.obuf st.mem
                      (p.layers i).start).obuf,
            mem := (cd.encode { st.enc with layer := st.enc.layer - 1 } st.obuf st.mem
                      (p.layers i).start).mem,
            calls := st.calls ++
              [{ i := i, enc_layer := st.enc.layer - 1,
                 mapped_prot := m,
                 hdr_start := (p.layers i).start,
                 ok := (cd.encode { st.enc with layer := st.enc.layer - 1 } st.obuf st.mem
                          (p.layers i).start).ok }] } ∧
        (((cd.encode { st.enc with layer := st.enc.layer - 1 } st.obuf st.mem
              (p.layers i).start).ok = false ∧
            encodeLoop r t p (i + 1) st = (.failed, st1)) ∨
         ((cd.encode { st.enc with layer := st.enc.layer - 1 } st.obuf st.mem
              (p.layers i).start).ok = true ∧
            encodeLoop r t p (i + 1) st = encodeLoop r t p i st1)) := by
  cases hm : mappedProt r t i (p.layers i) with
  | error f => exact Or.inl ⟨f, by simp [encodeLoop, hm]⟩
  | ok m =>
    cases hc : codecAt r m with
    | error f => exact Or.inl ⟨f, by simp [encodeLoop, hm, hc]⟩
    | ok cd =>
      refine Or.inr ⟨m, cd, mappedProt_ok r t i _ m hm, hc, _, rfl, ?_⟩
      cases hok : (cd.encode { st.enc with layer := st.enc.layer - 1 } st.obuf st.mem
          (p.layers i).start).ok with
      | false => exact Or.inl ⟨rfl, by simp [encodeLoop, hm, hc, hok]⟩
      | true => exact Or.inr ⟨rfl, by simp [encodeLoop, hm, hc, hok]⟩

/-- The return values along the loop of `encode_packet`: a call that returns
false is the last call made. -/
theorem encodeLoop_calls (r : Registry) (t : ThreadCtx) (p : Packet) :
    ∀ (n : Nat) (st : EncLoopState), (∀ c, c ∈ st.calls → c.ok = true) →
      ((encodeLoop r t p n st).1 = .done →
        (∀ c, c ∈ (encodeLoop r t p n st).2.calls → c.ok = true) ∧
        (encodeLoop r t p n st).2.calls.length = st.calls.length + n) ∧
      ((encodeLoop r t p n st).1 = .failed →
        ∃ pre c, (encodeLoop r t p n st).2.calls = pre ++ [c] ∧ c.ok = false ∧
          ∀ x, x ∈ pre → x.ok = true) ∧
      (∀ f, (encodeLoop r t p n st).1 = .fault f →
        ∀ c, c ∈ (encodeLoop r t p n st).2.calls → c.ok = true) := by
  intro n
  induction n with
  | zero =>
    intro st hst
    simp only [encodeLoop]
    exact ⟨fun _ => ⟨hst, rfl⟩, by simp, by simp⟩
  | succ i ih =>
    intro st hst
    rcases encodeLoop_succ r t p i st with ⟨f, hf⟩ | ⟨m, cd, -, -, st1, hst1, ⟨hok, hf⟩ | ⟨hok, hf⟩⟩
    · rw [hf]
      exact ⟨by simp, by simp, fun _ _ => hst⟩
    · rw [hf]
      refine ⟨by simp, fun _ => ?_, by simp⟩
      rw [hst1]
      exact ⟨st.calls, _, rfl, hok, hst⟩
    · rw [hf]
      have hst1c : ∀ c, c ∈ st1.calls → c.ok = true := by
        intro c hc
        rw [hst1] at hc
        rcases List.mem_append.mp hc with hc | hc
        · exact hst c hc
        · simp only [List.mem_singleton] at hc
          rw [hc]
          exact hok
      obtain ⟨h1, h2, h3⟩ := ih st1 hst1c
      refine ⟨fun hd => ⟨(h1 hd).1, ?_⟩, h2, h3⟩
      rw [(h1 hd).2, hst1]
      simp only [List.length_append, List.length_singleton]
      omega

/-- The arguments along the loop of `encode_packet`: the calls made are an
initial stretch of the expected ones, and all of them when the loop runs to
its end. -/
theorem encodeLoop_args (r : Registry) (t : ThreadCtx) (p : Packet) :
    ∀ (n : Nat) (st : EncLoopState), st.enc.layer = (n : Int) →
      ∃ rest,
        st.calls.map EncodeCall.args ++ expectedEncodeCalls r t p n =
          (encodeLoop r t p n st).2.calls.map EncodeCall.args ++ rest ∧
        ((encodeLoop r t p n st).1 = .done → rest = []) := by
  intro n
  induction n with
  | zero =>
    intro st _
    exact ⟨[], by simp [encodeLoop, expectedEncodeCalls], fun _ => rfl⟩
  | succ i ih =>
    intro st hl
    have hl1 : st.enc.layer - 1 = (i : Int) := by rw [hl]; push_cast; omega
    rcases encodeLoop_succ r t p i st with ⟨f, hf⟩ | ⟨m, cd, hm, -, st1, hst1, ⟨hok, hf⟩ | ⟨hok, hf⟩⟩
    · rw [hf]
      exact ⟨expectedEncodeCalls r t p (i + 1), rfl, by simp⟩
    · rw [hf]
      refine ⟨expectedEncodeCalls r t p i, ?_, by simp⟩
      rw [hst1]
      simp only [List.map_append, List.map_cons, List.map_nil, EncodeCall.args,
        expectedEncodeCalls, hl1, hm, List.append_assoc, List.singleton_append]
    · rw [hf]
      obtain ⟨rest, h1, h2⟩ := ih st1 (by rw [hst1]; exact hl1)
      refine ⟨rest, ?_, h2⟩
      rw [← h1, hst1]
      simp only [List.map_append, List.map_cons, List.map_nil, EncodeCall.args,
        expectedEncodeCalls, hl1, hm, List.append_assoc, List.singleton_append]

/-- How `encode_packet` is put together from its loop. -/
theorem encode_packet_split (b : Build) (r : Registry) (t : ThreadCtx) (enc : EncState)
    (p : Packet) (len0 : Nat) :
    ∃ st0 : EncLoopState, st0.calls = [] ∧ st0.enc.layer = (p.num_layers : Int) ∧
      (encode_packet b r t enc p len0).calls = (encodeLoop r t p p.num_layers st0).2.calls ∧
      (encode_packet b r t enc p len0).obuf = (encodeLoop r t p p.num_layers st0).2.obuf ∧
      ((∃ f, (encodeLoop r t p p.num_layers st0).1 = .fault f ∧
          (encode_packet b r t enc p len0).status = .fault f ∧
          (encode_packet b r t enc p len0).buf = none) ∨
       ((encodeLoop r t p p.num_layers st0).1 = .failed ∧
          (encode_packet b r t enc p len0).status = .returned ∧
          (encode_packet b r t enc p len0).buf = none ∧
          (encode_packet b r t enc p len0).len = 0) ∨
       ((encodeLoop r t p p.num_layers st0).1 = .done ∧
          (encode_packet b r t enc p len0).status = .returned ∧
          (encode_packet b r t enc p len0).buf =
            some ((encode_packet b r t enc p len0).obuf.base +
              (encode_packet b r t enc p len0).obuf.off) ∧
          (encode_packet b r t enc p len0).len =
            u32 (encode_packet b r t enc p len0).obuf.end_)) := by
  refine ⟨{ enc := { enc with layer := p.num_layers, p := p },
            obuf := { base := b.PKT_MAX + 1, off := 0, end_ := 0, size := b.PKT_MAX },
            mem := t.s_pkt, calls := [] }, rfl, rfl, ?_⟩
  unfold encode_packet
  simp only
  rcases hL : encodeLoop r t p p.num_layers
      { enc := { enc with layer := p.num_layers, p := p },
        obuf := { base := b.PKT_MAX + 1, off := 0, end_ := 0, size := b.PKT_MAX },
        mem := t.s_pkt, calls := [] } with ⟨e, st⟩
  cases e with
  | done => exact ⟨rfl, rfl, Or.inr (Or.inr ⟨rfl, rfl, rfl, rfl⟩)⟩
  | failed => exact ⟨rfl, rfl, Or.inr (Or.inl ⟨rfl, rfl, rfl, rfl⟩)⟩
  | fault f => exact ⟨rfl, rfl, Or.inl ⟨f, rfl, rfl, rfl⟩⟩

/-- C6. Abort of encode_response: as soon as a codec's encode returns false the
function returns a null buffer with *len == 0, and that call is the last one
made, every call before it (the layers inside the failing one) having returned
true, so that no codec of a layer outside the failing one is invoked; when the
function returns and every call returned true, every layer was encoded, the
returned pointer is base + off of the output cursor and *len is its end offset
as a 32-bit value (the end offset itself when that is below 2^32). -/
theorem encode_response_abort (b : Build) (r : Registry) (t : ThreadCtx) (type : Nat)
    (flags : Nat) (p : Packet) (len0 : Nat) (payLoad : List Nat) (payLen : Nat)
    (res : EncodeResult)
    (hres : encode_response b r t type flags p len0 payLoad payLen = res) :
    ((∃ c, c ∈ res.calls ∧ c.ok = false) →
      res.status = .returned ∧ res.buf = none ∧ res.len = 0 ∧
      ∃ pre c, res.calls = pre ++ [c] ∧ c.ok = false ∧ ∀ x, x ∈ pre → x.ok = true) ∧
    (res.status = .returned ∧ (∀ c, c ∈ res.calls → c.ok = true) →
      res.calls.length = (encodeTarget t p).num_layers ∧
      res.buf = some (res.obuf.base + res.obuf.off) ∧
      res.len = u32 res.obuf.end_ ∧
      (res.obuf.end_ < 4294967296 → res.len = res.obuf.end_)) := by
  subst hres
  unfold encode_response
  simp only
  obtain ⟨st0, hc0, -, hcalls, -, hcases⟩ :=
    encode_packet_split b r t
      { enc_type := type, flags := flags, payLoad := payLoad, payLen := payLen, proto := 0,
        layer := 0, p := p } (encodeTarget t p) len0
  obtain ⟨h1, h2, h3⟩ := encodeLoop_calls r t (encodeTarget t p) (encodeTarget t p).num_layers st0
    (by rw [hc0]; simp)
  rw [hcalls]
  rcases hcases with ⟨f, he, hs, -⟩ | ⟨he, hs, hb, hl⟩ | ⟨he, hs, hb, hl⟩
  · refine ⟨fun ⟨c, hc, hok⟩ => ?_, fun ⟨hret, _⟩ => ?_⟩
    · have := h3 f he c hc
      rw [hok] at this
      exact absurd this (by simp)
    · rw [hs] at hret
      exact absurd hret (by simp)
  · obtain ⟨pre, c, hpc, hok, hpre⟩ := h2 he
    refine ⟨fun _ => ⟨hs, hb, hl, pre, c, hpc, hok, hpre⟩, fun ⟨_, hall⟩ => ?_⟩
    have := hall c (by rw [hpc]; simp)
    rw [hok] at this
    exact absurd this (by simp)
  · obtain ⟨hall, hlen⟩ := h1 he
    refine ⟨fun ⟨c, hc, hok⟩ => ?_, fun _ => ⟨?_, hb, hl, fun hlt => ?_⟩⟩
    · have := hall c hc
      rw [hok] at this
      exact absurd this (by simp)
    · rw [hlen, hc0]
      simp
    · rw [hl]
      exact Nat.mod_eq_of_lt hlt

/-- C6, exercised: the decoded packet of scenario S1 is encoded with a registry
whose IPv4 codec gives up; the call for layer 1 fails, the result is a null
buffer of length 0, and after the calls for layers 2 and 1 none is made for
layer 0. -/
theorem encode_response_abort_witness :
    (encode_response sampleBuild refusingRegistry (threadOf 2) 0 0 udpPacket 7 [] 0).status =
      .returned ∧
    (encode_response sampleBuild refusingRegistry (threadOf 2) 0 0 udpPacket 7 [] 0).buf = none ∧
    (encode_response sampleBuild refusingRegistry (threadOf 2) 0 0 udpPacket 7 [] 0).len = 0 ∧
    (encode_response sampleBuild refusingRegistry (threadOf 2) 0 0 udpPacket 7 [] 0).calls.map
      (fun c => (c.i, c.ok)) = [(2, true), (1, false)] :=
  ⟨((encode_response_abort sampleBuild refusingRegistry (threadOf 2) 0 0 udpPacket 7 [] 0 _
      rfl).1 ⟨⟨1, 1, 3, 14, false⟩, by decide, rfl⟩).1,
   by decide, by decide, by decide⟩

theorem expectedEncodeCalls_indices (r : Registry) (t : ThreadCtx) (p : Packet) :
    ∀ n, (expectedEncodeCalls r t p n).map Prod.fst = innerToOuter n := by
  intro n
  induction n with
  | zero => rfl
  | succ i ih => simp [expectedEncodeCalls, innerToOuter, ih]

/-- C7, as amended. Order of the encode calls of encode_packet: the calls made
are an initial stretch of the sequence that visits the layers n-1, n-2, ..., 0
once each, every call with enc->layer equal to the index of its layer, that
layer's header start as third argument, the grinder codec for layer 0 and the
codec s_proto_map[layers[i].prot_id] for i > 0; the stretch is the whole
sequence when the function returns a buffer; when it returns a null buffer the
stretch ends with the first call that returned false. -/
theorem encode_packet_calls (b : Build) (r : Registry) (t : ThreadCtx) (enc : EncState)
    (p : Packet) (len0 : Nat) (res : EncodeResult)
    (hres : encode_packet b r t enc p len0 = res) :
    (expectedEncodeCalls r t p p.num_layers).map Prod.fst = innerToOuter p.num_layers ∧
    (∃ rest, expectedEncodeCalls r t p p.num_layers = res.calls.map EncodeCall.args ++ rest) ∧
    (res.status = .returned → res.buf ≠ none →
      res.calls.map EncodeCall.args = expectedEncodeCalls r t p p.num_layers ∧
      ∀ c, c ∈ res.calls → c.ok = true) ∧
    (res.status = .returned → res.buf = none →
      ∃ pre c, res.calls = pre ++ [c] ∧ c.ok = false ∧ ∀ x, x ∈ pre → x.ok = true) := by
  subst hres
  obtain ⟨st0, hc0, hl0, hcalls, -, hcases⟩ := encode_packet_split b r t enc p len0
  obtain ⟨h1, h2, h3⟩ := encodeLoop_calls r t p p.num_layers st0 (by rw [hc0]; simp)
  obtain ⟨rest, hr1, hr2⟩ := encodeLoop_args r t p p.num_layers st0 hl0
  rw [hc0] at hr1
  simp only [List.map_nil, List.nil_append] at hr1
  rw [hcalls]
  refine ⟨expectedEncodeCalls_indices r t p _, ⟨rest, hr1⟩, ?_, ?_⟩
  · intro hret hbuf
    rcases hcases with ⟨f, -, hs, -⟩ | ⟨-, -, hb, -⟩ | ⟨he, -, -, -⟩
    · rw [hs] at hret
      exact absurd hret (by simp)
    · exact absurd hb hbuf
    · rw [hr1, hr2 he]
      exact ⟨by simp, (h1 he).1⟩
  · intro hret hbuf
    rcases hcases with ⟨f, -, hs, -⟩ | ⟨he, -, -, -⟩ | ⟨-, -, hb, -⟩
    · rw [hs] at hret
      exact absurd hret (by simp)
    · exact h2 he
    · rw [hb] at hbuf
      exact absurd hbuf (by simp)

/-- C7, exercised: for the decoded packet of scenario S1 and codecs that all
succeed, encode is called for the layers 2, 1, 0 in this order, with
enc->layer 2, 1, 0, the codecs 5 (mapped from id 17), 3 (mapped from id 2048)
and 2 (the grinder), and the header starts 34, 14 and 0. -/
theorem encode_packet_calls_witness :
    (encode_packet sampleBuild sampleRegistry (threadOf 2) sampleEnc udpPacket 0).status =
      .returned ∧
    (encode_packet sampleBuild sampleRegistry (threadOf 2) sampleEnc udpPacket 0).buf ≠ none ∧
    (encode_packet sampleBuild sampleRegistry (threadOf 2) sampleEnc udpPacket 0).calls.map
        EncodeCall.args = expectedEncodeCalls sampleRegistry (threadOf 2) udpPacket 3 ∧
    expectedEncodeCalls sampleRegistry (threadOf 2) udpPacket 3 =
      [(2, 2, 5, 34), (1, 1, 3, 14), (0, 0, 2, 0)] :=
  ⟨by decide, by decide,
   ((encode_packet_calls sampleBuild sampleRegistry (threadOf 2) sampleEnc udpPacket 0 _ rfl).2.2.1
      (by decide) (by decide)).1,
   by decide⟩

/-- C7, refuted as stated: the decoded packet of scenario S1 has three layers;
with an IPv4 codec whose encode gives up, encode_packet returns after the calls
for layers 2 and 1 and never calls encode for layer 0. -/
theorem encode_packet_calls_counterexample :
    udpPacket.num_layers = 3 ∧
    (encode_packet sampleBuild refusingRegistry (threadOf 2) sampleEnc udpPacket 0).status =
      .returned ∧
    (encode_packet sampleBuild refusingRegistry (threadOf 2) sampleEnc udpPacket 0).calls.map
      EncodeCall.i = [2, 1] ∧
    (encode_packet sampleBuild refusingRegistry (threadOf 2) sampleEnc udpPacket 0).calls.map
      EncodeCall.i ≠ innerToOuter udpPacket.num_layers := by
  refine ⟨by decide, by decide, by decide, by decide⟩

/-- The loop of `encode_update` over layers that all resolve to a bound codec:
it runs to its end, calls `update` for the layers n-1, ..., 0 with the mapped
codec, hands the accumulator from call to call, and changes nothing of the
packet but its bytes. -/
theorem updateLoop_spec (r : Registry) (t : ThreadCtx) :
    ∀ (n : Nat) (st : UpdateState),
      (∀ i, i < n → ∃ m cd, mappedProt r t i (st.p.layers i) = .ok m ∧ codecAt r m = .ok cd) →
      (updateLoop r t n st).1 = none ∧
      (updateLoop r t n st).2.p.layers = st.p.layers ∧
      (updateLoop r t n st).2.p.cf = st.p.cf ∧
      (updateLoop r t n st).2.p.pkth = st.p.pkth ∧
      (updateLoop r t n st).2.p.num_layers = st.p.num_layers ∧
      ∃ new, (updateLoop r t n st).2.calls = st.calls ++ new ∧
        new.map UpdateCall.i = innerToOuter n ∧
        threaded st.len new (updateLoop r t n st).2.len ∧
        ∀ c, c ∈ new →
          c.mapped_prot =
            if c.i ≠ 0 then r.s_proto_map (st.p.layers c.i).prot_id else t.grinder := by
  intro n
  induction n with
  | zero =>
    intro st _
    exact ⟨rfl, rfl, rfl, rfl, rfl, [], by simp [updateLoop], rfl, rfl, by simp⟩
  | succ i ih =>
    intro st hb
    obtain ⟨m, cd, hm, hc⟩ := hb i (by omega)
    have hstep : updateLoop r t (i + 1) st =
        updateLoop r t i
          { p := { st.p with pkt := (cd.update st.p i st.len).pkt },
            len := u32 (cd.update st.p i st.len).len,
            calls := st.calls ++
              [{ i := i, mapped_prot := m, len_in := st.len,
                 len_out := u32 (cd.update st.p i st.len).len }] } := by
      simp [updateLoop, hm, hc]
    rw [hstep]
    obtain ⟨h1, h2, h3, h4, h5, new, h6, h7, h8, h9⟩ :=
      ih { p := { st.p with pkt := (cd.update st.p i st.len).pkt },
           len := u32 (cd.update st.p i st.len).len,
           calls := st.calls ++
             [{ i := i, mapped_prot := m, len_in := st.len,
                len_out := u32 (cd.update st.p i st.len).len }] }
        (fun j hj => hb j (by omega))
    refine ⟨h1, h2, h3, h4, h5,
      { i := i, mapped_prot := m, len_in := st.len,
        len_out := u32 (cd.update st.p i st.len).len } :: new, ?_, ?_, ?_, ?_⟩
    · rw [h6]
      simp
    · simp [innerToOuter, h7]
    · exact ⟨rfl, h8⟩
    · intro c hcm
      rcases List.mem_cons.mp hcm with hcm | hcm
      · rw [hcm]
        exact mappedProt_ok r t i _ m hm
      · exact h9 c hcm

/-- C8. The function encode_update: for a packet whose layers all resolve to a
bound codec it returns after calling update once per layer from the innermost
(num_layers - 1) to the outermost (0), each with the grinder codec for layer 0
and the mapped codec otherwise, handing on one length accumulator that starts
at 0; afterwards caplen and pktlen hold the accumulated length when
PKT_MODIFIED is clear or PKT_RESIZED is set, and are unchanged when
PKT_MODIFIED is set and PKT_RESIZED is clear. -/
theorem encode_update_walk (b : Build) (r : Registry) (t : ThreadCtx) (p : Packet)
    (res : UpdateResult) (hres : encode_update b r t p = res) (hb : LayersBound r t p) :
    res.status = .returned ∧
    res.calls.map UpdateCall.i = innerToOuter p.num_layers ∧
    threaded 0 res.calls res.len ∧
    (∀ c, c ∈ res.calls →
      c.mapped_prot = if c.i ≠ 0 then r.s_proto_map (p.layers c.i).prot_id else t.grinder) ∧
    (p.cf.packet_flags &&& b.PKT_MODIFIED = 0 ∨ p.cf.packet_flags &&& b.PKT_RESIZED ≠ 0 →
      res.p.pkth.caplen = res.len ∧ res.p.pkth.pktlen = res.len) ∧
    (p.cf.packet_flags &&& b.PKT_MODIFIED ≠ 0 ∧ p.cf.packet_flags &&& b.PKT_RESIZED = 0 →
      res.p.pkth.caplen = p.pkth.caplen ∧ res.p.pkth.pktlen = p.pkth.pktlen) := by
  subst hres
  obtain ⟨h1, -, h3, h4, -, new, h6, h7, h8, h9⟩ :=
    updateLoop_spec r t p.num_layers { p := p, len := 0, calls := [] } hb
  simp only [List.nil_append] at h6
  unfold encode_update
  rcases hL : updateLoop r t p.num_layers { p := p, len := 0, calls := [] } with ⟨e, st⟩
  rw [hL] at h1 h3 h4 h6 h8
  simp only at h1 h3 h4 h6 h8
  subst h1
  simp only
  by_cases hcond : st.p.cf.packet_flags &&& b.PKT_MODIFIED = 0 ∨
      st.p.cf.packet_flags &&& b.PKT_RESIZED ≠ 0
  · rw [if_pos hcond]
    rw [h3] at hcond
    refine ⟨rfl, by rw [h6]; exact h7, by rw [h6]; exact h8, by rw [h6]; exact h9,
      fun _ => ⟨rfl, rfl⟩, fun hn => ?_⟩
    rcases hcond with hc | hc
    · exact absurd hc hn.1
    · exact absurd hn.2 hc
  · rw [if_neg hcond]
    rw [h3] at hcond
    refine ⟨rfl, by rw [h6]; exact h7, by rw [h6]; exact h8, by rw [h6]; exact h9,
      fun hc => absurd hc hcond, fun _ => by rw [h4]; exact ⟨rfl, rfl⟩⟩

/-- C8, exercised: for the decoded packet of scenario S1, whose flags are clear,
update is called for the layers 2, 1, 0 with the accumulator 0, 26, 46, and
caplen and pktlen end as the accumulated 60. -/
theorem encode_update_walk_witness :
    (encode_update sampleBuild sampleRegistry (threadOf 2) udpPacket).calls =
      [⟨2, 5, 0, 26⟩, ⟨1, 3, 26, 46⟩, ⟨0, 2, 46, 60⟩] ∧
    (encode_update sampleBuild sampleRegistry (threadOf 2) udpPacket).len = 60 ∧
    (encode_update sampleBuild sampleRegistry (threadOf 2) udpPacket).p.pkth.caplen =
      (encode_update sampleBuild sampleRegistry (threadOf 2) udpPacket).len ∧
    (encode_update sampleBuild sampleRegistry (threadOf 2) udpPacket).p.pkth.pktlen =
      (encode_update sampleBuild sampleRegistry (threadOf 2) udpPacket).len :=
  ⟨by decide, by decide,
   (encode_update_walk sampleBuild sampleRegistry (threadOf 2) udpPacket _ rfl
      (by
        intro i hi
        have hn : udpPacket.num_layers = 3 := by decide
        rw [hn] at hi
        interval_cases i
        · exact ⟨2, ethCodec, rfl, rfl⟩
        · exact ⟨3, ipv4Codec, rfl, rfl⟩
        · exact ⟨5, udpCodec, rfl, rfl⟩)).2.2.2.2.1 (Or.inl (by decide))⟩

theorem toInt32_of_lt (x : Nat) (h : x < 2147483648) : toInt32 (x : Int) = (x : Int) := by
  unfold toInt32
  omega

theorem toUnsigned_of_lt (x : Nat) (h : x < 4294967296) : toUnsigned (x : Int) = x := by
  unfold toUnsigned
  omega

theorem or_and_self_bits (x m : Nat) : (x ||| m) &&& m = m := by
  apply Nat.eq_of_testBit_eq
  intro i
  simp only [Nat.testBit_and, Nat.testBit_or]
  cases x.testBit i <;> cases m.testBit i <;> rfl

theorem get_inner_ip_loop_ge (b : Build) (p : Packet) : ∀ n, -1 ≤ get_inner_ip_loop b p n := by
  intro n
  induction n with
  | zero => simp [get_inner_ip_loop]
  | succ i ih =>
    unfold get_inner_ip_loop
    split
    · omega
    · exact ih

/-- The loop of `encode_format_with_daq_info`: it leaves the capture header
alone; when it runs to its end it has called `format` once per layer, in rising
order, each time through a bound codec and with a clone layer that carries the
four fields of the source layer; the layers below `i` are as before; and the
clone's layers from `i` on are those of the source when the callbacks keep
their layer. -/
theorem formatLoop_spec (r : Registry) (t : ThreadCtx) (f : Nat) (p : Packet) :
    ∀ (k i : Nat) (st : FormatState),
      (formatLoop r t f p k i st).2.c.pkth = st.c.pkth ∧
      ((formatLoop r t f p k i st).1 = none →
        (formatLoop r t f p k i st).2.calls = st.calls ++ expectedFormatCalls r t p k i ∧
        (∀ call, call ∈ expectedFormatCalls r t p k i →
          ∃ cd, r.s_protocols call.mapped_prot = some cd) ∧
        (∀ j, j < i → (formatLoop r t f p k i st).2.c.layers j = st.c.layers j) ∧
        (FormatKeepsLayer r f p →
          ∀ j, i ≤ j → j < i + k → (formatLoop r t f p k i st).2.c.layers j = p.layers j)) := by
  intro k
  induction k with
  | zero =>
    intro i st
    refine ⟨rfl, fun _ => ⟨by simp [formatLoop, expectedFormatCalls], ?_, fun _ _ => rfl,
      fun _ j h1 h2 => by omega⟩⟩
    intro call hcall
    simp [expectedFormatCalls] at hcall
  | succ k ih =>
    intro i st
    have hlit : Layer.mk (p.layers i).proto (p.layers i).prot_id (p.layers i).start
        (p.layers i).length = p.layers i := rfl
    cases hm : mappedProt r t i
        { proto := (p.layers i).proto, prot_id := (p.layers i).prot_id,
          start := (p.layers i).start, length := (p.layers i).length } with
    | error e => simp [formatLoop, hm]
    | ok m =>
      cases hc : codecAt r m with
      | error e => simp [formatLoop, hm, hc]
      | ok cd =>
        have hm1 := mappedProt_ok r t i _ m hm
        simp only at hm1
        have hcd := codecAt_ok r m cd hc
        simp only [formatLoop, ↓reduceIte, hm, hc]
        refine ⟨(ih _ _).1, fun hn => ?_⟩
        obtain ⟨h1, h2, h3, h4⟩ := (ih _ _).2 hn
        refine ⟨?_, fun call hcall => ?_, fun j hj => ?_, fun hk j hj1 hj2 => ?_⟩
        · rw [h1, hlit]
          simp [expectedFormatCalls, hm1]
        · simp only [expectedFormatCalls, List.mem_cons] at hcall
          rcases hcall with hcall | hcall
          · rw [hcall, ← hm1]
            exact ⟨cd, hcd.2⟩
          · exact h2 call hcall
        · rw [h3 j (by omega)]
          simp only
          rw [if_neg (by omega), if_neg (by omega)]
        · by_cases hji : j = i
          · subst hji
            rw [h3 j (by omega)]
            simp only [if_true]
            rw [hk m cd hcd.2]
            simp only [if_true]
          · exact h4 hk j (by omega) (by omega)

/-- When `encode_format_with_daq_info` gets as far as its `assert`, the part
before it went through: the header block, the layer count, the copy and the
loop with its `format` calls. -/
theorem encode_format_reaches_finish (b : Build) (r : Registry) (t : ThreadCtx) (f : Nat)
    (p : Packet) (c : Packet) (type : Nat) (phdr : Option DAQ_PktHdr) (opaque_arg : Nat)
    (h : (encode_format_with_daq_info b r t f p c type phdr opaque_arg).status = .ret0 ∨
      (encode_format_with_daq_info b r t f p c type phdr opaque_arg).status = .assertFailed) :
    ∃ st pkth,
      encode_format_with_daq_info b r t f p c type phdr opaque_arg =
        formatFinish b t p type (copiedLayers b f p).toNat
          (toInt32 ((copiedLen b f p : Nat) : Int)).toNat st ∧
      cloneHeader b c.pkth phdr opaque_arg = .ok pkth ∧
      st.c.pkth = pkth ∧
      1 ≤ (copiedLayers b f p).toNat ∧
      0 ≤ toInt32 ((copiedLen b f p : Nat) : Int) ∧
      st.calls = expectedFormatCalls r t p (copiedLayers b f p).toNat 0 ∧
      (∀ call, call ∈ expectedFormatCalls r t p (copiedLayers b f p).toNat 0 →
        ∃ cd, r.s_protocols call.mapped_prot = some cd) ∧
      (FormatKeepsLayer r f p →
        ∀ j, j < (copiedLayers b f p).toNat → st.c.layers j = p.layers j) := by
  unfold encode_format_with_daq_info at h ⊢
  by_cases hn : (p.num_layers : Int) ≤ 0
  · simp [hn] at h
  · simp only [hn, if_false] at h ⊢
    cases hh : cloneHeader b c.pkth phdr opaque_arg with
    | error e => simp [hh] at h
    | ok pkth =>
      simp only [hh] at h ⊢
      by_cases hnet : f &&& b.ENC_FLAG_NET ≠ 0 ∧ copiedLayers b f p = 0
      · simp [hnet] at h
      · simp only [hnet, if_false] at h ⊢
        by_cases hlen : toInt32 ((copiedLen b f p : Nat) : Int) < 0
        · simp [hlen] at h
        · simp only [hlen, if_false] at h ⊢
          have hone : 1 ≤ (copiedLayers b f p).toNat := by
            by_cases hf : f &&& b.ENC_FLAG_NET ≠ 0
            · have hge := get_inner_ip_loop_ge b p p.num_layers
              have hne : copiedLayers b f p ≠ 0 := fun h0 => hnet ⟨hf, h0⟩
              unfold copiedLayers at hne ⊢
              simp only [hf, if_true, ne_eq, not_false_eq_true] at hne ⊢
              unfold get_inner_ip_lyr at hne ⊢
              omega
            · unfold copiedLayers
              simp only [hf, if_false]
              omega
          have hspec := formatLoop_spec r t f p (copiedLayers b f p).toNat 0
              { c := { c with
                        num_layers := 0, cf := CodecFields.zero, pkth := pkth,
                        pkt := p.pkt.take (toInt32 ((copiedLen b f p : Nat) : Int)).toNat ++
                          c.pkt.drop (toInt32 ((copiedLen b f p : Nat) : Int)).toNat },
                calls := [] }
          rcases hL : formatLoop r t f p (copiedLayers b f p).toNat 0
              { c := { c with
                        num_layers := 0, cf := CodecFields.zero, pkth := pkth,
                        pkt := p.pkt.take (toInt32 ((copiedLen b f p : Nat) : Int)).toNat ++
                          c.pkt.drop (toInt32 ((copiedLen b f p : Nat) : Int)).toNat },
                calls := [] } with ⟨e, st⟩
          rw [hL] at h hspec
          cases e with
          | some e => simp at h
          | none =>
            obtain ⟨a1, a2, -, a5⟩ := hspec.2 rfl
            simp only [List.nil_append] at a1
            refine ⟨st, pkth, rfl, rfl, hspec.1, hone, by omega, a1, a2, fun hk j hj => ?_⟩
            exact a5 hk j (by omega) (by omega)

/-- Reading `user_policy_id` back from a result record. -/
theorem formatResult_user_policy_id (s : FormatStatus) (h : DAQ_PktHdr) (pk : List Nat)
    (d ds : Nat) (md : Int) (nl : Nat) (ls : Nat → Layer) (cf : CodecFields) (pt up : Nat)
    (tr : Nat) (ca : List FormatCall) (co : Nat) :
    (FormatResult.mk s (Packet.mk h pk d ds md nl ls cf pt up) tr ca co).c.user_policy_id = up :=
  rfl

/-- Reading `proto_bits` back from a result record. -/
theorem formatResult_proto_bits (s : FormatStatus) (h : DAQ_PktHdr) (pk : List Nat)
    (d ds : Nat) (md : Int) (nl : Nat) (ls : Nat → Layer) (df pf pb en ix ptrs : Nat)
    (pt up : Nat) (tr : Nat) (ca : List FormatCall) (co : Nat) :
    (FormatResult.mk s (Packet.mk h pk d ds md nl ls (CodecFields.mk df pf pb en ix ptrs) pt up)
      tr ca co).c.cf.proto_bits = pb :=
  rfl

/-- The tail of `encode_format_with_daq_info` when it returns 0: the clone's
fields in terms of the clone the loop left. -/
theorem formatFinish_ret0 (b : Build) (t : ThreadCtx) (p : Packet) (type : Nat) (n : Nat)
    (copied : Nat) (st : FormatState)
    (h0 : (formatFinish b t p type n copied st).status = .ret0) :
    (formatFinish b t p type n copied st).c.num_layers = n ∧
    (formatFinish b t p type n copied st).c.layers = st.c.layers ∧
    (formatFinish b t p type n copied st).calls = st.calls ∧
    (formatFinish b t p type n copied st).copied = copied ∧
    (formatFinish b t p type n copied st).c.data =
      (st.c.layers (n - 1)).start + (st.c.layers (n - 1)).length ∧
    (formatFinish b t p type n copied st).c.pkth.caplen =
      toUnsigned (toInt32 (((st.c.layers (n - 1)).start + (st.c.layers (n - 1)).length : Nat) : Int)) ∧
    (formatFinish b t p type n copied st).c.pkth.pktlen =
      toUnsigned (toInt32 (((st.c.layers (n - 1)).start + (st.c.layers (n - 1)).length : Nat) : Int)) ∧
    (formatFinish b t p type n copied st).c.max_dsize =
      (b.IP_MAXPACKET : Int) -
        toInt32 (((st.c.layers (n - 1)).start + (st.c.layers (n - 1)).length : Nat) : Int) ∧
    (b.NDEBUG = false →
      toUnsigned (toInt32 (((st.c.layers (n - 1)).start + (st.c.layers (n - 1)).length : Nat) : Int))
        < b.PKT_MAX - b.IP_MAXPACKET) ∧
    (formatFinish b t p type n copied st).c.cf.packet_flags &&& b.PKT_PSEUDO = b.PKT_PSEUDO ∧
    (formatFinish b t p type n copied st).c.pseudo_type = type ∧
    (formatFinish b t p type n copied st).c.cf.proto_bits = p.cf.proto_bits ∧
    (formatFinish b t p type n copied st).c.user_policy_id = p.user_policy_id := by
  unfold formatFinish at h0 ⊢
  simp only at h0 ⊢
  split at h0
  · simp at h0
  · rename_i hassert
    rw [if_neg hassert]
    refine ⟨?_, ?_, ?_, ?_, ?_, ?_, ?_, ?_, fun hnd => ?_, ?_, ?_, ?_, ?_⟩
    · simp only
    · simp only
    · simp only
    · simp only
    · simp only
    · simp only
    · simp only
    · simp only
    · by_contra hcon
      exact hassert ⟨hnd, hcon⟩
    · simp only
      exact or_and_self_bits _ _
    · simp only
    · exact formatResult_proto_bits _ _ _ _ _ _ _ _ _ _ _ _ _ _ _ _ _ _ _
    · exact formatResult_user_policy_id _ _ _ _ _ _ _ _ _ _ _ _ _ _

/-- What `encode_format_with_daq_info` leaves behind when it returns 0: the
layer count, the `format` calls, the payload pointer and the capture lengths at
the end of the clone's last layer as the callbacks left it, the `assert`, the
marks of a pseudo packet, and the number of bytes copied. -/
theorem encode_format_ret0 (b : Build) (r : Registry) (t : ThreadCtx) (f : Nat)
    (p : Packet) (c : Packet) (type : Nat) (phdr : Option DAQ_PktHdr) (opaque_arg : Nat)
    (res : FormatResult)
    (hres : encode_format_with_daq_info b r t f p c type phdr opaque_arg = res)
    (h0 : res.status = .ret0) :
    res.c.num_layers = (copiedLayers b f p).toNat ∧
    1 ≤ (copiedLayers b f p).toNat ∧
    res.calls = expectedFormatCalls r t p (copiedLayers b f p).toNat 0 ∧
    (∀ call, call ∈ expectedFormatCalls r t p (copiedLayers b f p).toNat 0 →
      ∃ cd, r.s_protocols call.mapped_prot = some cd) ∧
    (FormatKeepsLayer r f p →
      ∀ j, j < (copiedLayers b f p).toNat → res.c.layers j = p.layers j) ∧
    res.c.data = lastLayerEnd res.c ∧
    res.c.pkth.caplen = toUnsigned (toInt32 ((lastLayerEnd res.c : Nat) : Int)) ∧
    res.c.pkth.pktlen = toUnsigned (toInt32 ((lastLayerEnd res.c : Nat) : Int)) ∧
    res.c.max_dsize = (b.IP_MAXPACKET : Int) - toInt32 ((lastLayerEnd res.c : Nat) : Int) ∧
    (b.NDEBUG = false →
      toUnsigned (toInt32 ((lastLayerEnd res.c : Nat) : Int)) < b.PKT_MAX - b.IP_MAXPACKET) ∧
    res.copied = (toInt32 ((copiedLen b f p : Nat) : Int)).toNat ∧
    0 ≤ toInt32 ((copiedLen b f p : Nat) : Int) ∧
    res.c.cf.packet_flags &&& b.PKT_PSEUDO = b.PKT_PSEUDO ∧
    res.c.pseudo_type = type ∧
    res.c.cf.proto_bits = p.cf.proto_bits ∧
    res.c.user_policy_id = p.user_policy_id := by
  subst hres
  obtain ⟨st, pkth, hfin, -, -, hone, hlen, hcalls, hbound, hlay⟩ :=
    encode_format_reaches_finish b r t f p c type phdr opaque_arg (Or.inl h0)
  rw [hfin] at h0 ⊢
  obtain ⟨f1, f2, f3, f4, f5, f6, f7, f8, f9, f10, f11, f12, f13⟩ :=
    formatFinish_ret0 _ _ _ _ _ _ _ h0
  have hend : lastLayerEnd (formatFinish b t p type (copiedLayers b f p).toNat
        (toInt32 ((copiedLen b f p : Nat) : Int)).toNat st).c =
      (st.c.layers ((copiedLayers b f p).toNat - 1)).start +
        (st.c.layers ((copiedLayers b f p).toNat - 1)).length := by
    unfold lastLayerEnd
    rw [f1, f2]
  rw [hend]
  exact ⟨f1, hone, f3.trans hcalls, hbound, fun hk j hj => by rw [f2]; exact hlay hk j hj,
    f5, f6, f7, f8, f9, f4, hlen, f10, f11, f12, f13⟩

/-- C10, as amended. The clone of encode_format_with_daq_info: whenever the
function returns 0, the clone has PKT_PSEUDO set, the requested pseudo_type and
the proto_bits and user_policy_id of the source; its data offset, caplen and
pktlen are the offset at which the clone's last layer ends as the `format`
callbacks left it, and max_dsize is IP_MAXPACKET minus that length; the number
of bytes copied is the offset at which the source's last copied layer ends.
When the clone's last layer is as it was copied (as it is when the callbacks
leave their layer alone) the two offsets are one, and caplen == pktlen == the
number of bytes copied, data is at that offset and max_dsize is IP_MAXPACKET
minus it. -/
theorem encode_format_clone (b : Build) (r : Registry) (t : ThreadCtx) (f : Nat)
    (p : Packet) (c : Packet) (type : Nat) (phdr : Option DAQ_PktHdr) (opaque_arg : Nat)
    (res : FormatResult)
    (hres : encode_format_with_daq_info b r t f p c type phdr opaque_arg = res)
    (h0 : res.status = .ret0) :
    res.c.cf.packet_flags &&& b.PKT_PSEUDO = b.PKT_PSEUDO ∧
    res.c.pseudo_type = type ∧
    res.c.cf.proto_bits = p.cf.proto_bits ∧
    res.c.user_policy_id = p.user_policy_id ∧
    res.c.data = lastLayerEnd res.c ∧
    res.c.pkth.caplen = toUnsigned (toInt32 ((lastLayerEnd res.c : Nat) : Int)) ∧
    res.c.pkth.pktlen = toUnsigned (toInt32 ((lastLayerEnd res.c : Nat) : Int)) ∧
    res.c.max_dsize = (b.IP_MAXPACKET : Int) - toInt32 ((lastLayerEnd res.c : Nat) : Int) ∧
    (lastLayerEnd res.c < 2147483648 →
      res.c.pkth.caplen = lastLayerEnd res.c ∧
      res.c.pkth.pktlen = lastLayerEnd res.c ∧
      res.c.max_dsize = (b.IP_MAXPACKET : Int) - (lastLayerEnd res.c : Int)) ∧
    res.copied = (toInt32 ((copiedLen b f p : Nat) : Int)).toNat ∧
    (copiedLen b f p < 2147483648 → res.copied = copiedLen b f p) ∧
    (FormatKeepsLayer r f p →
      res.c.layers (res.c.num_layers - 1) = p.layers (res.c.num_layers - 1)) ∧
    (res.c.layers (res.c.num_layers - 1) = p.layers (res.c.num_layers - 1) →
      lastLayerEnd res.c = copiedLen b f p) ∧
    (res.c.layers (res.c.num_layers - 1) = p.layers (res.c.num_layers - 1) →
      copiedLen b f p < 2147483648 →
      res.c.pkth.caplen = copiedLen b f p ∧
      res.c.pkth.pktlen = copiedLen b f p ∧
      res.copied = copiedLen b f p ∧
      res.c.data = copiedLen b f p ∧
      res.c.max_dsize = (b.IP_MAXPACKET : Int) - (copiedLen b f p : Int)) := by
  obtain ⟨g1, g2, -, -, g5, g6, g7, g8, g9, -, g11, -, g13, g14, g15, g16⟩ :=
    encode_format_ret0 b r t f p c type phdr opaque_arg res hres h0
  have hend : res.c.layers (res.c.num_layers - 1) = p.layers (res.c.num_layers - 1) →
      lastLayerEnd res.c = copiedLen b f p := by
    intro hk
    unfold lastLayerEnd copiedLen
    rw [hk, g1]
  have hcap : ∀ x : Nat, x < 2147483648 → toUnsigned (toInt32 (x : Int)) = x := by
    intro x hx
    rw [toInt32_of_lt x hx, toUnsigned_of_lt x (by omega)]
  have hcop : copiedLen b f p < 2147483648 → res.copied = copiedLen b f p := by
    intro hfit
    rw [g11, toInt32_of_lt _ hfit]
    exact Int.toNat_ofNat _
  refine ⟨g13, g14, g15, g16, g6, g7, g8, g9, fun hfit => ?_, g11, hcop, fun hk => ?_, hend,
    fun hk hfit => ?_⟩
  · refine ⟨?_, ?_, ?_⟩
    · rw [g7, hcap _ hfit]
    · rw [g8, hcap _ hfit]
    · rw [g9, toInt32_of_lt _ hfit]
  · rw [g1]
    exact g5 hk _ (by omega)
  · have he := hend hk
    rw [he] at g6 g7 g8 g9
    refine ⟨?_, ?_, hcop hfit, g6, ?_⟩
    · rw [g7, hcap _ hfit]
    · rw [g8, hcap _ hfit]
    · rw [g9, toInt32_of_lt _ hfit]

/-- The sample codecs leave the layer behind `lyr` as they find it. -/
theorem sampleRegistry_keeps (f : Nat) (p : Packet) : FormatKeepsLayer sampleRegistry f p := by
  intro idx cd h c i
  have hcases : cd = nullCodec ∨ cd = ethCodec ∨ cd = ipv4Codec ∨ cd = ipv6Codec ∨
      cd = udpCodec := by
    unfold sampleRegistry at h
    simp only at h
    split at h
    · exact Or.inl (Option.some.inj h).symm
    · split at h
      · exact Or.inl (Option.some.inj h).symm
      · split at h
        · exact Or.inr (Or.inl (Option.some.inj h).symm)
        · split at h
          · exact Or.inr (Or.inr (Or.inl (Option.some.inj h).symm))
          · split at h
            · exact Or.inr (Or.inr (Or.inr (Or.inl (Option.some.inj h).symm)))
            · split at h
              · exact Or.inr (Or.inr (Or.inr (Or.inr (Option.some.inj h).symm)))
              · exact absurd h (by simp)
  rcases hcases with h | h | h | h | h <;> rw [h] <;> rfl

set_option maxRecDepth 100000 in
/-- C10, exercised: the decoded packet of scenario S1 is cloned whole through
codecs that leave their layers alone: 42 bytes are copied, caplen and the data
offset are 42 and max_dsize is 65535 - 42; with ENC_FLAG_NET the clone ends
with the IPv4 layer, at 34 bytes. -/
theorem encode_format_clone_witness :
    (encode_format_with_daq_info sampleBuild sampleRegistry (threadOf 2) 0 udpPacket blankPacket
        5 (some (hdrOf 60)) 9).status = .ret0 ∧
    copiedLen sampleBuild 0 udpPacket = 42 ∧
    ((encode_format_with_daq_info sampleBuild sampleRegistry (threadOf 2) 0 udpPacket blankPacket
        5 (some (hdrOf 60)) 9).c.pkth.caplen = copiedLen sampleBuild 0 udpPacket ∧
      (encode_format_with_daq_info sampleBuild sampleRegistry (threadOf 2) 0 udpPacket blankPacket
        5 (some (hdrOf 60)) 9).c.pkth.pktlen = copiedLen sampleBuild 0 udpPacket ∧
      (encode_format_with_daq_info sampleBuild sampleRegistry (threadOf 2) 0 udpPacket blankPacket
        5 (some (hdrOf 60)) 9).copied = copiedLen sampleBuild 0 udpPacket ∧
      (encode_format_with_daq_info sampleBuild sampleRegistry (threadOf 2) 0 udpPacket blankPacket
        5 (some (hdrOf 60)) 9).c.data = copiedLen sampleBuild 0 udpPacket ∧
      (encode_format_with_daq_info sampleBuild sampleRegistry (threadOf 2) 0 udpPacket blankPacket
        5 (some (hdrOf 60)) 9).c.max_dsize =
          (sampleBuild.IP_MAXPACKET : Int) - (copiedLen sampleBuild 0 udpPacket : Int)) ∧
    (encode_format_with_daq_info sampleBuild sampleRegistry (threadOf 2) 0 udpPacket blankPacket
        5 (some (hdrOf 60)) 9).c.max_dsize = 65493 ∧
    (encode_format_with_daq_info sampleBuild sampleRegistry (threadOf 2) 1 udpPacket blankPacket
        5 (some (hdrOf 60)) 9).c.pkth.caplen = 34 :=
  ⟨by decide, by decide,
   (encode_format_clone sampleBuild sampleRegistry (threadOf 2) 0 udpPacket blankPacket 5
      (some (hdrOf 60)) 9 _ rfl (by decide)).2.2.2.2.2.2.2.2.2.2.2.2.2
      ((encode_format_clone sampleBuild sampleRegistry (threadOf 2) 0 udpPacket blankPacket 5
        (some (hdrOf 60)) 9 _ rfl (by decide)).2.2.2.2.2.2.2.2.2.2.2.1
          (sampleRegistry_keeps 0 udpPacket))
      (by decide),
   by decide, by decide⟩

set_option maxRecDepth 100000 in
/-- C10, refuted as stated: a source packet whose IPv4 header of 24 bytes
carries options is cloned through an IPv4 codec whose `format` sets the length
of its layer to the 20 bytes of a plain header. The function returns 0 after
copying 38 bytes, the end of the source's last layer, while the clone's caplen,
pktlen and data offset are 34, the end of the clone's last layer, and max_dsize
is 65535 - 34. -/
theorem encode_format_clone_counterexample :
    (encode_format_with_daq_info sampleBuild plainHeaderRegistry (threadOf 2) 0 optionsPacket
        blankPacket 5 (some (hdrOf 60)) 9).status = .ret0 ∧
    copiedLen sampleBuild 0 optionsPacket = 38 ∧
    (encode_format_with_daq_info sampleBuild plainHeaderRegistry (threadOf 2) 0 optionsPacket
        blankPacket 5 (some (hdrOf 60)) 9).copied = 38 ∧
    (encode_format_with_daq_info sampleBuild plainHeaderRegistry (threadOf 2) 0 optionsPacket
        blankPacket 5 (some (hdrOf 60)) 9).c.pkth.caplen = 34 ∧
    (encode_format_with_daq_info sampleBuild plainHeaderRegistry (threadOf 2) 0 optionsPacket
        blankPacket 5 (some (hdrOf 60)) 9).c.pkth.pktlen = 34 ∧
    (encode_format_with_daq_info sampleBuild plainHeaderRegistry (threadOf 2) 0 optionsPacket
        blankPacket 5 (some (hdrOf 60)) 9).c.data = 34 ∧
    (encode_format_with_daq_info sampleBuild plainHeaderRegistry (threadOf 2) 0 optionsPacket
        blankPacket 5 (some (hdrOf 60)) 9).c.max_dsize = 65501 ∧
    (encode_format_with_daq_info sampleBuild plainHeaderRegistry (threadOf 2) 0 optionsPacket
        blankPacket 5 (some (hdrOf 60)) 9).c.pkth.caplen ≠
      (encode_format_with_daq_info sampleBuild plainHeaderRegistry (threadOf 2) 0 optionsPacket
        blankPacket 5 (some (hdrOf 60)) 9).copied := by
  refine ⟨by decide, by decide, by decide, by decide, by decide, by decide, by decide, by decide⟩

/-- The ways `encode_format_with_daq_info` ends: it returns -1 only when the
source packet has no layer or, with ENC_FLAG_NET, no IP layer, and always
returns -1 for a source without layers; the header length is guarded by the
`assert` alone: in a build with asserts compiled in, whenever the function
returns 0 the clone's caplen is below PKT_MAX - IP_MAXPACKET. -/
theorem encode_format_failure (b : Build) (r : Registry) (t : ThreadCtx) (f : Nat)
    (p : Packet) (c : Packet) (type : Nat) (phdr : Option DAQ_PktHdr) (opaque_arg : Nat)
    (res : FormatResult)
    (hres : encode_format_with_daq_info b r t f p c type phdr opaque_arg = res) :
    (res.status = .retNeg1 →
      p.num_layers = 0 ∨ (f &&& b.ENC_FLAG_NET ≠ 0 ∧ get_inner_ip_lyr b p = -1)) ∧
    (p.num_layers = 0 → res.status = .retNeg1) ∧
    (b.NDEBUG = false → res.status = .ret0 →
      res.c.pkth.caplen < b.PKT_MAX - b.IP_MAXPACKET) := by
  refine ⟨fun hneg => ?_, fun hz => ?_, fun hnd h0 => ?_⟩
  · subst hres
    by_cases hn : p.num_layers = 0
    · exact Or.inl hn
    · right
      unfold encode_format_with_daq_info at hneg
      have hn1 : ¬ (p.num_layers : Int) ≤ 0 := by omega
      simp only [hn1, if_false] at hneg
      cases hh : cloneHeader b c.pkth phdr opaque_arg with
      | error e => simp [hh] at hneg
      | ok pkth =>
        simp only [hh] at hneg
        by_cases hnet : f &&& b.ENC_FLAG_NET ≠ 0 ∧ copiedLayers b f p = 0
        · refine ⟨hnet.1, ?_⟩
          have h2 := hnet.2
          unfold copiedLayers at h2
          simp only [hnet.1, if_true, ne_eq, not_false_eq_true] at h2
          omega
        · simp only [hnet, if_false] at hneg
          by_cases hlen : toInt32 ((copiedLen b f p : Nat) : Int) < 0
          · simp [hlen] at hneg
          · simp only [hlen, if_false] at hneg
            rcases hL : formatLoop r t f p (copiedLayers b f p).toNat 0
                { c := { c with
                          num_layers := 0, cf := CodecFields.zero, pkth := pkth,
                          pkt := p.pkt.take (toInt32 ((copiedLen b f p : Nat) : Int)).toNat ++
                            c.pkt.drop (toInt32 ((copiedLen b f p : Nat) : Int)).toNat },
                  calls := [] } with ⟨e, st⟩
            rw [hL] at hneg
            cases e with
            | some e => simp at hneg
            | none =>
              simp only [formatFinish] at hneg
              split at hneg <;> simp at hneg
  · subst hres
    unfold encode_format_with_daq_info
    simp [hz]
  · obtain ⟨-, -, -, -, -, -, g7, -, -, g10, -⟩ :=
      encode_format_ret0 b r t f p c type phdr opaque_arg res hres h0
    rw [g7]
    exact g10 hnd

set_option maxRecDepth 100000 in
/-- C9, evaluated at the failing input: a source packet with one layer of 2000
bytes, which is not below the headroom 67053 - 65535 = 1518. The source states
the bound as `assert((unsigned)len < Codec::PKT_MAX - IP_MAXPACKET)` and has no
return of -1 for it: with asserts compiled in the function stops at the assert
and does not return -1; with asserts compiled out it returns 0 with a caplen of
2000, above the headroom. -/
theorem encode_format_assert :
    ¬ (copiedLen sampleBuild 0 longPacket < sampleBuild.PKT_MAX - sampleBuild.IP_MAXPACKET) ∧
    (encode_format_with_daq_info sampleBuild sampleRegistry (threadOf 2) 0 longPacket
        blankPacket 5 (some (hdrOf 60)) 9).status = .assertFailed ∧
    (encode_format_with_daq_info sampleBuild sampleRegistry (threadOf 2) 0 longPacket
        blankPacket 5 (some (hdrOf 60)) 9).status ≠ .retNeg1 ∧
    (encode_format_with_daq_info releaseBuild sampleRegistry (threadOf 2) 0 longPacket
        blankPacket 5 (some (hdrOf 60)) 9).status = .ret0 ∧
    (encode_format_with_daq_info releaseBuild sampleRegistry (threadOf 2) 0 longPacket
        blankPacket 5 (some (hdrOf 60)) 9).c.pkth.caplen = 2000 ∧
    ¬ ((encode_format_with_daq_info releaseBuild sampleRegistry (threadOf 2) 0 longPacket
        blankPacket 5 (some (hdrOf 60)) 9).c.pkth.caplen <
      releaseBuild.PKT_MAX - releaseBuild.IP_MAXPACKET) := by
  refine ⟨by decide, by decide, by decide, by decide, by decide, by decide⟩

/-- The expected `format` calls carry the indices `i, i + 1, ...` in this order. -/
theorem expectedFormatCalls_indices (r : Registry) (t : ThreadCtx) (p : Packet) :
    ∀ k i, (expectedFormatCalls r t p k i).map FormatCall.i = List.range' i k := by
  intro k
  induction k with
  | zero => intro i; rfl
  | succ k ih =>
    intro i
    simp [expectedFormatCalls, ih, List.range']

/-- Every expected `format` call goes to the grinder for layer 0 and to the
mapped codec otherwise, and is handed the source layer of its index. -/
theorem expectedFormatCalls_mem (r : Registry) (t : ThreadCtx) (p : Packet) :
    ∀ (k i : Nat) (call : FormatCall), call ∈ expectedFormatCalls r t p k i →
      call.mapped_prot =
        (if call.i ≠ 0 then r.s_proto_map (p.layers call.i).prot_id else t.grinder) ∧
      call.lyr = p.layers call.i := by
  intro k
  induction k with
  | zero =>
    intro i call h
    simp [expectedFormatCalls] at h
  | succ k ih =>
    intro i call h
    simp only [expectedFormatCalls, List.mem_cons] at h
    rcases h with h | h
    · rw [h]
      exact ⟨rfl, rfl⟩
    · exact ih (i + 1) call h

/-- The search behind `layer::get_inner_ip_lyr`: a result `k` is below `n`,
layer `k` has an IP tag, and no layer between `k` and `n` has one. -/
theorem get_inner_ip_loop_spec (b : Build) (p : Packet) :
    ∀ (n k : Nat), get_inner_ip_loop b p n = (k : Int) →
      k < n ∧ b.is_ip_proto (p.layers k).proto = true ∧
      ∀ j, k < j → j < n → b.is_ip_proto (p.layers j).proto = false := by
  intro n
  induction n with
  | zero =>
    intro k h
    simp only [get_inner_ip_loop] at h
    omega
  | succ i ih =>
    intro k h
    unfold get_inner_ip_loop at h
    by_cases hip : b.is_ip_proto (p.layers i).proto = true
    · simp only [hip, if_true] at h
      have hk : k = i := by omega
      subst hk
      exact ⟨by omega, hip, fun j h1 h2 => by omega⟩
    · simp only [hip, if_false, Bool.false_eq_true] at h
      obtain ⟨h1, h2, h3⟩ := ih k h
      refine ⟨by omega, h2, fun j hj1 hj2 => ?_⟩
      by_cases hji : j = i
      · subst hji
        simpa using hip
      · exact h3 j hj1 (by omega)

/-- C11, as amended. The layers of the clone and the `format` calls: whenever
encode_format_with_daq_info returns 0, the clone's layer count is the source's
layer count, or with ENC_FLAG_NET the index of the source's innermost IP layer
plus one (that layer has an IP tag and no layer further in has one); `format`
has been called once per such layer in increasing order of the index, through
the codec bound at the grinder index for layer 0 and at s_proto_map[prot_id]
otherwise, and at each call the clone layer behind `lyr` has the proto,
prot_id, length and start offset of the source layer of the same index. On
return every clone layer below the count still has these four fields when the
`format` callbacks leave their layer alone; a callback that writes through
`lyr` leaves the layer as it wrote it. -/
theorem encode_format_layers (b : Build) (r : Registry) (t : ThreadCtx) (f : Nat)
    (p : Packet) (c : Packet) (type : Nat) (phdr : Option DAQ_PktHdr) (opaque_arg : Nat)
    (res : FormatResult)
    (hres : encode_format_with_daq_info b r t f p c type phdr opaque_arg = res)
    (h0 : res.status = .ret0) :
    (f &&& b.ENC_FLAG_NET = 0 → res.c.num_layers = p.num_layers) ∧
    (f &&& b.ENC_FLAG_NET ≠ 0 →
      (res.c.num_layers : Int) = get_inner_ip_lyr b p + 1 ∧
      res.c.num_layers ≤ p.num_layers ∧
      b.is_ip_proto (p.layers (res.c.num_layers - 1)).proto = true ∧
      ∀ j, res.c.num_layers ≤ j → j < p.num_layers →
        b.is_ip_proto (p.layers j).proto = false) ∧
    res.calls = expectedFormatCalls r t p res.c.num_layers 0 ∧
    res.calls.map FormatCall.i = List.range res.c.num_layers ∧
    (∀ call, call ∈ res.calls →
      (call.mapped_prot =
        if call.i ≠ 0 then r.s_proto_map (p.layers call.i).prot_id else t.grinder) ∧
      (∃ cd, r.s_protocols call.mapped_prot = some cd) ∧
      call.lyr.proto = (p.layers call.i).proto ∧
      call.lyr.prot_id = (p.layers call.i).prot_id ∧
      call.lyr.length = (p.layers call.i).length ∧
      call.lyr.start = (p.layers call.i).start) ∧
    (FormatKeepsLayer r f p →
      ∀ i, i < res.c.num_layers →
        (res.c.layers i).proto = (p.layers i).proto ∧
        (res.c.layers i).prot_id = (p.layers i).prot_id ∧
        (res.c.layers i).length = (p.layers i).length ∧
        (res.c.layers i).start = (p.layers i).start) := by
  obtain ⟨hnum, hone, hcalls, hbound, hlay, -⟩ :=
    encode_format_ret0 b r t f p c type phdr opaque_arg res hres h0
  rw [hnum, hcalls]
  refine ⟨fun hf => ?_, fun hf => ?_, rfl, ?_, fun call hcall => ⟨?_, ?_, ?_⟩,
    fun hk i hi => ?_⟩
  · unfold copiedLayers
    simp [hf]
  · have hcl : copiedLayers b f p = get_inner_ip_lyr b p + 1 := by
      unfold copiedLayers
      simp [hf]
    have hge := get_inner_ip_loop_ge b p p.num_layers
    have hk : get_inner_ip_loop b p p.num_layers =
        (((copiedLayers b f p).toNat - 1 : Nat) : Int) := by
      unfold get_inner_ip_lyr at hcl
      omega
    obtain ⟨h1, h2, h3⟩ := get_inner_ip_loop_spec b p p.num_layers _ hk
    refine ⟨?_, by omega, h2, fun j hj1 hj2 => h3 j (by omega) hj2⟩
    rw [← hcl]
    omega
  · rw [expectedFormatCalls_indices, List.range_eq_range']
  · exact (expectedFormatCalls_mem r t p _ _ call hcall).1
  · exact hbound call hcall
  · rw [(expectedFormatCalls_mem r t p _ _ call hcall).2]
    exact ⟨rfl, rfl, rfl, rfl⟩
  · rw [hlay hk i hi]
    exact ⟨rfl, rfl, rfl, rfl⟩

set_option maxRecDepth 100000 in
/-- C11, exercised: the decoded packet of scenario S1 is cloned with its three
layers, `format` going to the codecs 2 (the grinder), 3 and 5 in this order,
each handed the source layer of its index; the sample codecs leave their layer
alone and clone layer 1 has the length of source layer 1; with ENC_FLAG_NET the
clone ends at the IPv4 layer, index 1. -/
theorem encode_format_layers_witness :
    (encode_format_with_daq_info sampleBuild sampleRegistry (threadOf 2) 0 udpPacket blankPacket
        5 (some (hdrOf 60)) 9).status = .ret0 ∧
    (encode_format_with_daq_info sampleBuild sampleRegistry (threadOf 2) 0 udpPacket blankPacket
        5 (some (hdrOf 60)) 9).c.num_layers = 3 ∧
    (encode_format_with_daq_info sampleBuild sampleRegistry (threadOf 2) 0 udpPacket blankPacket
        5 (some (hdrOf 60)) 9).calls =
      [{ i := 0, mapped_prot := 2, lyr := udpPacket.layers 0 },
       { i := 1, mapped_prot := 3, lyr := udpPacket.layers 1 },
       { i := 2, mapped_prot := 5, lyr := udpPacket.layers 2 }] ∧
    (encode_format_with_daq_info sampleBuild sampleRegistry (threadOf 2) 0 udpPacket blankPacket
        5 (some (hdrOf 60)) 9).calls.map FormatCall.i =
      List.range (encode_format_with_daq_info sampleBuild sampleRegistry (threadOf 2) 0 udpPacket
        blankPacket 5 (some (hdrOf 60)) 9).c.num_layers ∧
    ((encode_format_with_daq_info sampleBuild sampleRegistry (threadOf 2) 0 udpPacket blankPacket
        5 (some (hdrOf 60)) 9).c.layers 1).length = (udpPacket.layers 1).length ∧
    get_inner_ip_lyr sampleBuild udpPacket = 1 ∧
    ((encode_format_with_daq_info sampleBuild sampleRegistry (threadOf 2) 1 udpPacket blankPacket
        5 (some (hdrOf 60)) 9).c.num_layers : Int) = get_inner_ip_lyr sampleBuild udpPacket + 1 :=
  ⟨by decide, by decide, by decide,
   (encode_format_layers sampleBuild sampleRegistry (threadOf 2) 0 udpPacket blankPacket 5
      (some (hdrOf 60)) 9 _ rfl (by decide)).2.2.2.1,
   ((encode_format_layers sampleBuild sampleRegistry (threadOf 2) 0 udpPacket blankPacket 5
      (some (hdrOf 60)) 9 _ rfl (by decide)).2.2.2.2.2 (sampleRegistry_keeps 0 udpPacket) 1
      (by decide)).2.2.1,
   by decide,
   ((encode_format_layers sampleBuild sampleRegistry (threadOf 2) 1 udpPacket blankPacket 5
      (some (hdrOf 60)) 9 _ rfl (by decide)).2.1 (by decide)).1⟩

set_option maxRecDepth 100000 in
/-- C11, refuted as stated: a source packet whose IPv4 header of 24 bytes
carries options is cloned through an IPv4 codec whose `format` sets the length
of its layer to the 20 bytes of a plain header. The function returns 0 with two
layers; the IPv4 layer was handed to `format` with the source's length 24, and
clone layer 1 has the length 20 on return, not that of source layer 1. -/
theorem encode_format_layers_counterexample :
    (encode_format_with_daq_info sampleBuild plainHeaderRegistry (threadOf 2) 0 optionsPacket
        blankPacket 5 (some (hdrOf 60)) 9).status = .ret0 ∧
    (encode_format_with_daq_info sampleBuild plainHeaderRegistry (threadOf 2) 0 optionsPacket
        blankPacket 5 (some (hdrOf 60)) 9).c.num_layers = 2 ∧
    (encode_format_with_daq_info sampleBuild plainHeaderRegistry (threadOf 2) 0 optionsPacket
        blankPacket 5 (some (hdrOf 60)) 9).calls =
      [{ i := 0, mapped_prot := 2, lyr := optionsPacket.layers 0 },
       { i := 1, mapped_prot := 3, lyr := optionsPacket.layers 1 }] ∧
    (optionsPacket.layers 1).length = 24 ∧
    ((encode_format_with_daq_info sampleBuild plainHeaderRegistry (threadOf 2) 0 optionsPacket
        blankPacket 5 (some (hdrOf 60)) 9).c.layers 1).length = 20 ∧
    ((encode_format_with_daq_info sampleBuild plainHeaderRegistry (threadOf 2) 0 optionsPacket
        blankPacket 5 (some (hdrOf 60)) 9).c.layers 1).length ≠ (optionsPacket.layers 1).length := by
  refine ⟨by decide, by decide, by decide, by decide, by decide, by decide⟩

/-- The bits of `x & ~m`: those of `x` that are not in `m`. -/
theorem andNot_testBit (x m i : Nat) :
    (andNot x m).testBit i = (x.testBit i && !m.testBit i) := by
  unfold andNot
  simp only [Nat.testBit_xor, Nat.testBit_and]
  cases x.testBit i <;> cases m.testBit i <;> rfl

/-- C12, as amended. The capture metadata of the clone: whenever
encode_format_with_daq_info returns 0, the clone's time stamp is that of the
source packet's own capture header; in a build with HAVE_DAQ_ADDRESS_SPACE_ID a
header was supplied and the clone's ingress/egress index and group and
address-space id equal the supplied header's, its opaque equals the supplied
opaque value and its flags are the supplied header's flags without the bits of
HW_TCP_CS_GOOD; in a build with HAVE_DAQ_ACQUIRE_WITH_META only the opaque
is set, and in a build with neither none of these fields is written (they stay
as the clone's header had them). -/
theorem encode_format_capture_header (b : Build) (r : Registry) (t : ThreadCtx) (f : Nat)
    (p : Packet) (c : Packet) (type : Nat) (phdr : Option DAQ_PktHdr) (opaque_arg : Nat)
    (res : FormatResult)
    (hres : encode_format_with_daq_info b r t f p c type phdr opaque_arg = res)
    (h0 : res.status = .ret0) :
    res.c.pkth.ts = p.pkth.ts ∧
    (b.daq = .HAVE_DAQ_ADDRESS_SPACE_ID →
      ∃ h, phdr = some h ∧
        res.c.pkth.ingress_index = h.ingress_index ∧
        res.c.pkth.egress_index = h.egress_index ∧
        res.c.pkth.ingress_group = h.ingress_group ∧
        res.c.pkth.egress_group = h.egress_group ∧
        res.c.pkth.address_space_id = h.address_space_id ∧
        res.c.pkth.opaque_val = opaque_arg ∧
        res.c.pkth.flags = andNot h.flags b.DAQ_PKT_FLAG_HW_TCP_CS_GOOD ∧
        ∀ i, res.c.pkth.flags.testBit i =
          (h.flags.testBit i && !b.DAQ_PKT_FLAG_HW_TCP_CS_GOOD.testBit i)) ∧
    (b.daq ≠ .HAVE_DAQ_ADDRESS_SPACE_ID →
      res.c.pkth.ingress_index = c.pkth.ingress_index ∧
      res.c.pkth.egress_index = c.pkth.egress_index ∧
      res.c.pkth.ingress_group = c.pkth.ingress_group ∧
      res.c.pkth.egress_group = c.pkth.egress_group ∧
      res.c.pkth.address_space_id = c.pkth.address_space_id ∧
      res.c.pkth.flags = c.pkth.flags) ∧
    (b.daq = .HAVE_DAQ_ACQUIRE_WITH_META → res.c.pkth.opaque_val = opaque_arg) ∧
    (b.daq = .plain → res.c.pkth.opaque_val = c.pkth.opaque_val) := by
  subst hres
  obtain ⟨st, pkth, hfin, hch, hst, -⟩ :=
    encode_format_reaches_finish b r t f p c type phdr opaque_arg (Or.inl h0)
  have hpk : (encode_format_with_daq_info b r t f p c type phdr opaque_arg).c.pkth =
      { pkth with
        caplen := (encode_format_with_daq_info b r t f p c type phdr opaque_arg).c.pkth.caplen,
        pktlen := (encode_format_with_daq_info b r t f p c type phdr opaque_arg).c.pkth.pktlen,
        ts := p.pkth.ts } := by
    rw [hfin] at h0 ⊢
    simp only [formatFinish] at h0 ⊢
    split at h0
    · simp at h0
    · rename_i hassert
      rw [if_neg hassert]
      simp only [hst]
  rw [hpk]
  unfold cloneHeader at hch
  refine ⟨rfl, fun hd => ?_, fun hd => ?_, fun hd => ?_, fun hd => ?_⟩
  · rw [hd] at hch
    cases phdr with
    | none => simp at hch
    | some h =>
      simp only [Except.ok.injEq] at hch
      subst hch
      exact ⟨h, rfl, rfl, rfl, rfl, rfl, rfl, rfl, rfl, fun i => andNot_testBit _ _ i⟩
  · cases hdq : b.daq with
    | HAVE_DAQ_ADDRESS_SPACE_ID => exact absurd hdq hd
    | HAVE_DAQ_ACQUIRE_WITH_META =>
      rw [hdq] at hch
      simp only [Except.ok.injEq] at hch
      subst hch
      exact ⟨rfl, rfl, rfl, rfl, rfl, rfl⟩
    | plain =>
      rw [hdq] at hch
      simp only [Except.ok.injEq] at hch
      subst hch
      exact ⟨rfl, rfl, rfl, rfl, rfl, rfl⟩
  · rw [hd] at hch
    simp only [Except.ok.injEq] at hch
    subst hch
    rfl
  · rw [hd] at hch
    simp only [Except.ok.injEq] at hch
    subst hch
    rfl

/-- C12, exercised: cloning the packet of scenario S1 with a supplied header
whose flags are 12 = 8 + 4 leaves the flags 4, and the supplied ingress index
and opaque value arrive in the clone. -/
theorem encode_format_capture_header_witness :
    (encode_format_with_daq_info sampleBuild sampleRegistry (threadOf 2) 0 udpPacket blankPacket
        5 (some stampedHdr) 9).c.pkth.ts = udpPacket.pkth.ts ∧
    (encode_format_with_daq_info sampleBuild sampleRegistry (threadOf 2) 0 udpPacket blankPacket
        5 (some stampedHdr) 9).c.pkth.flags = 4 ∧
    (encode_format_with_daq_info sampleBuild sampleRegistry (threadOf 2) 0 udpPacket blankPacket
        5 (some stampedHdr) 9).c.pkth.ingress_index = 3 ∧
    (encode_format_with_daq_info sampleBuild sampleRegistry (threadOf 2) 0 udpPacket blankPacket
        5 (some stampedHdr) 9).c.pkth.opaque_val = 9 :=
  ⟨(encode_format_capture_header sampleBuild sampleRegistry (threadOf 2) 0 udpPacket blankPacket
      5 (some stampedHdr) 9 _ rfl (by decide)).1,
   by decide, by decide, by decide⟩

/-- C12, refuted as stated: the packet of scenario S1 (time stamp 0) is cloned
with a supplied header of time stamp 7. The function returns 0 and the clone's
time stamp is 0, that of the source, not 7; and in a build without the
capture-header options the supplied ingress index 3 and opaque value 9 do not
arrive in the clone. -/
theorem encode_format_capture_header_counterexample :
    (encode_format_with_daq_info sampleBuild sampleRegistry (threadOf 2) 0 udpPacket blankPacket
        5 (some stampedHdr) 9).status = .ret0 ∧
    (encode_format_with_daq_info sampleBuild sampleRegistry (threadOf 2) 0 udpPacket blankPacket
        5 (some stampedHdr) 9).c.pkth.ts = 0 ∧
    (encode_format_with_daq_info sampleBuild sampleRegistry (threadOf 2) 0 udpPacket blankPacket
        5 (some stampedHdr) 9).c.pkth.ts ≠ stampedHdr.ts ∧
    (encode_format_with_daq_info plainBuild sampleRegistry (threadOf 2) 0 udpPacket blankPacket
        5 (some stampedHdr) 9).status = .ret0 ∧
    (encode_format_with_daq_info plainBuild sampleRegistry (threadOf 2) 0 udpPacket blankPacket
        5 (some stampedHdr) 9).c.pkth.ingress_index ≠ stampedHdr.ingress_index ∧
    (encode_format_with_daq_info plainBuild sampleRegistry (threadOf 2) 0 udpPacket blankPacket
        5 (some stampedHdr) 9).c.pkth.opaque_val ≠ 9 := by
  refine ⟨by decide, by decide, by decide, by decide, by decide, by decide⟩

/-- C17, evaluated at the failing input: the codec named "eth" is bound through
its module (index 1) before `instantiate()` binds the default codec, named
"ethernet" (index 2). The lookup `get_codec("ethernet")` stops at index 1,
whose name "eth" is the start of "ethernet", so slot 0 receives the "eth"
instance and not the one constructed from the default codec; when nothing is
bound before, slot 0 does receive the default codec's instance. -/
theorem instantiate_default_slot :
    runOps (apiOf 200 ethernetCodec) shadowOps Registry.start =
      .ok (registryAfter (apiOf 200 ethernetCodec) shadowOps) ∧
    (registryAfter (apiOf 200 ethernetCodec) shadowOps).log =
      [.pinit 100, .ctor 100 1, .pinit 200, .ctor 200 2] ∧
    (registryAfter (apiOf 200 ethernetCodec) shadowOps).history.map
      (fun e => (e.1, e.2.name)) = [(1, "eth"), (2, "ethernet")] ∧
    strncasecmp_zero "eth" "ethernet" = true ∧
    get_codec (registryAfter (apiOf 200 ethernetCodec) shadowOps) "ethernet" = 1 ∧
    ((registryAfter (apiOf 200 ethernetCodec) shadowOps).s_protocols 0).map Codec.name =
      some "eth" ∧
    ((registryAfter (apiOf 200 ethernetCodec) shadowOps).s_protocols 2).map Codec.name =
      some "ethernet" ∧
    ((registryAfter (apiOf 200 ethernetCodec) [.instantiate_all]).s_protocols 0).map Codec.name =
      some "ethernet" := by
  refine ⟨rfl, by decide, by decide, by decide, by decide, by decide, by decide, by decide⟩

/-- C20, evaluated at the failing input: the codec named "ethernet" (descriptor
200) is registered and `instantiate()` binds the default codec, named "eth"
(descriptor 100), at index 1 and "ethernet" at index 2. In `release_plugins`
the lookup for "ethernet" stops at index 1, so descriptor 200 destroys the
"eth" instance; the lookup for "eth" then finds nothing, and the "ethernet"
instance in slot 2 is neither destroyed nor removed from the table. -/
theorem release_plugins_by_name :
    runOps (apiOf 100 ethCodec) releaseOps Registry.start =
      .ok (registryAfter (apiOf 100 ethCodec) releaseOps) ∧
    (registryAfter (apiOf 100 ethCodec) releaseOps).s_codecs.map CodecApi.addr = [200, 100] ∧
    (registryAfter (apiOf 100 ethCodec) releaseOps).log =
      [.pinit 100, .ctor 100 1, .pinit 200, .ctor 200 2] ∧
    release_plugins (registryAfter (apiOf 100 ethCodec) releaseOps) =
      .ok (registryReleased (registryAfter (apiOf 100 ethCodec) releaseOps)) ∧
    (registryReleased (registryAfter (apiOf 100 ethCodec) releaseOps)).log =
      [.pinit 100, .ctor 100 1, .pinit 200, .ctor 200 2,
       .pterm 200, .dtor 200 1, .pterm 100] ∧
    ((registryReleased (registryAfter (apiOf 100 ethCodec) releaseOps)).s_protocols 2).map
      Codec.name = some "ethernet" ∧
    (registryReleased (registryAfter (apiOf 100 ethCodec) releaseOps)).s_codecs.length = 0 ∧
    ((registryReleased (registryAfter (apiOf 100 ethCodec) releaseOps)).s_protocols 0).isNone =
      true := by
  refine ⟨rfl, by decide, by decide, rfl, by decide, by decide, by decide, by decide⟩

/-- A call of `instantiate` keeps every start-up stable property. -/
theorem instantiate_rule (I : Registry → Prop) (hI : StartupStable I) (cd_api : CodecApi)
    (m : Nat) (r r1 : Registry) (h : instantiate cd_api m r = .ok r1) (hr : I r) : I r1 := by
  rcases instantiate_ok cd_api m r r1 h with ⟨v, rfl⟩ | ⟨hlt, ctor, -, h1, h2, -, h3, -⟩
  · exact hI.2.1 r v hr
  · exact hI.2.2.1 r r1 (ctor m) hr hlt h1 h2 h3

/-- The loop over the descriptors keeps every start-up stable property. -/
theorem instantiateEach_rule (I : Registry → Prop) (hI : StartupStable I) :
    ∀ (apis : List CodecApi) (r r1 : Registry), instantiateEach apis r = .ok r1 → I r → I r1 := by
  intro apis
  induction apis with
  | nil =>
    intro r r1 h hr
    simp only [instantiateEach, Except.ok.injEq] at h
    subst h
    exact hr
  | cons a rest ih =>
    intro r r1 h hr
    unfold instantiateEach at h
    split at h
    · simp at h
    · rename_i r2 h2
      exact ih r2 r1 h (instantiate_rule I hI a 0 r r2 h2 hr)

/-- The no-argument form of `instantiate` keeps every start-up stable property. -/
theorem instantiate_all_rule (I : Registry → Prop) (hI : StartupStable I)
    (default_codec : CodecApi) (r r1 : Registry)
    (h : instantiate_all default_codec r = .ok r1) (hr : I r) : I r1 := by
  unfold instantiate_all at h
  split at h
  · simp at h
  · rename_i ra ha
    have hra := add_plugin_ok default_codec r ra ha
    split at h
    · simp at h
    · rename_i rb hb
      have hIa : I ra := by
        rw [hra]; exact hI.1 r default_codec hr
      have hIb := instantiate_rule I hI default_codec 0 ra rb hb hIa
      exact instantiateEach_rule I hI _ _ r1 h (hI.2.2.2 rb _ hIb)

/-- Every sequence of start-up calls keeps every start-up stable property. -/
theorem runOps_rule (I : Registry → Prop) (hI : StartupStable I) (default_codec : CodecApi) :
    ∀ (ops : List RegOp) (r r1 : Registry), runOps default_codec ops r = .ok r1 → I r → I r1 := by
  intro ops
  induction ops with
  | nil =>
    intro r r1 h hr
    simp only [runOps, Except.ok.injEq] at h
    subst h
    exact hr
  | cons op rest ih =>
    intro r r1 h hr
    unfold runOps at h
    split at h
    · simp at h
    · rename_i r2 h2
      refine ih r2 r1 h ?_
      cases op with
      | add_plugin api =>
        rw [add_plugin_ok api r r2 h2]
        exact hI.1 r api hr
      | instantiate api m => exact instantiate_rule I hI api m r r2 h2 hr
      | instantiate_all => exact instantiate_all_rule I hI default_codec r r2 h2 hr

/-- The slot invariant is start-up stable. -/
theorem slotInv_stable : StartupStable SlotInv := by
  refine ⟨fun r api h => h, fun r v h => h, ?_, ?_⟩
  · intro r r1 cd ⟨h1, h2, h3, h4, h5, h6⟩ hlt hc hh hs
    refine ⟨?_, ?_, ?_, ?_, ?_, ?_⟩
    · rw [hh, List.map_append, h1, List.length_append, List.length_singleton,
        List.range'_concat, h2]
      simp [Nat.add_comm]
    · rw [hc, hh, h2, List.length_append, List.length_singleton]
    · rw [hc]; omega
    · intro i hi
      rw [hs i, if_neg (by omega)]
      exact h4 i (by omega)
    · intro i hi1 hi2
      rw [hs i, hh]
      by_cases hic : i = r.codec_id
      · rw [if_pos hic]
        exact ⟨cd, rfl, by rw [hic]; simp⟩
      · rw [if_neg hic]
        obtain ⟨cd1, e1, e2⟩ := h5 i hi1 (by omega)
        exact ⟨cd1, e1, List.mem_append_left _ e2⟩
    · rcases h6 with h6 | ⟨k, k1, k2, k3⟩
      · left
        rw [hs 0, if_neg (by omega)]
        exact h6
      · right
        refine ⟨k, k1, by omega, ?_⟩
        rw [hs 0, hs k, if_neg (by omega), if_neg (by omega)]
        exact k3
  · intro r k ⟨h1, h2, h3, h4, h5, h6⟩
    refine ⟨h1, h2, h3, ?_, ?_, ?_⟩
    · intro i hi
      have hi1 : r.codec_id ≤ i := hi
      simp only
      rw [if_neg (by omega)]
      exact h4 i hi1
    · intro i hi1 hi2
      have hi3 : i < r.codec_id := hi2
      simp only
      rw [if_neg (by omega)]
      exact h5 i hi1 hi3
    · simp only [if_true]
      by_cases hk0 : k = 0
      · subst hk0
        rcases h6 with h6 | ⟨k, k1, k2, k3⟩
        · exact Or.inl h6
        · exact Or.inr ⟨k, k1, k2, by rw [if_neg (by omega)]; exact k3⟩
      · by_cases hkc : k < r.codec_id
        · exact Or.inr ⟨k, by omega, hkc, by rw [if_neg hk0]⟩
        · exact Or.inl (h4 k (by omega))

/-- The statics at program start satisfy the slot invariant. -/
theorem slotInv_start : SlotInv Registry.start := by
  refine ⟨rfl, rfl, by decide, fun i _ => rfl, fun i h1 h2 => ?_, Or.inl rfl⟩
  simp only [Registry.start] at h2
  omega


/-- The id loop of `instantiate` does not raise a fatal error. -/
theorem installIds_not_fatal : ∀ (ids : List Nat) (r : Registry),
    installIds ids r ≠ .error .fatalError := by
  intro ids
  induction ids with
  | nil =>
    intro r h
    simp [installIds] at h
  | cons a rest ih =>
    intro r h
    unfold installIds at h
    by_cases ha : a < max_protocol_id
    · simp only [ha, if_true] at h
      by_cases hz : r.s_proto_map a ≠ 0
      · simp only [hz, if_true, ne_eq, not_false_eq_true] at h
        cases hc : codecAt r (r.s_proto_map a) with
        | error f =>
          simp only [hc, Except.error.injEq] at h
          unfold codecAt at hc
          split at hc
          · split at hc
            · simp at hc
            · simp only [Except.error.injEq] at hc
              rw [← hc] at h
              exact absurd h (by decide)
          · simp only [Except.error.injEq] at hc
            rw [← hc] at h
            exact absurd h (by decide)
        | ok cd =>
          simp only [hc] at h
          exact ih _ h
      · simp only [hz, if_false] at h
        exact ih _ h
    · simp [ha] at h

/-- When `instantiate` raises its fatal error for a registered descriptor: the
descriptor is not yet marked and the counter has reached `UINT8_MAX`. -/
theorem instantiate_fatal (cd_api : CodecApi) (m : Nat) (r : Registry) (pos : Nat)
    (hfind : findApi r.s_codecs cd_api.addr = some pos)
    (hpos : pos < (instantiatedFlags r).length) :
    instantiate cd_api m r = .error .fatalError ↔
      ((instantiatedFlags r).getD pos false = false ∧ UINT8_MAX ≤ r.codec_id) := by
  unfold instantiate api_instantiated
  simp only [hfind, hpos, if_true]
  cases hflag : (instantiatedFlags r).getD pos false with
  | true => simp
  | false =>
    simp only [Bool.false_eq_true, if_false, true_and]
    by_cases hge : r.codec_id ≥ UINT8_MAX
    · simp only [hge, if_true]
    · simp only [hge, if_false]
      refine ⟨fun h => ?_, fun h => h.elim⟩
      split at h
      · simp at h
      · split at h
        · rename_i hids
          simp only [Except.error.injEq] at h
          rw [h] at hids
          exact installIds_not_fatal _ _ hids
        · simp at h


/-- C19, as amended. The indices `instantiate` hands out: after any sequence of
add_plugin and instantiate calls from program start that runs without a fault,
the codecs bound so far carry the indices 1, 2, 3, ... in the order in which
they were bound, all within 1..254 and no two alike, each in the slot of its
index; a further instantiate call that returns either binds nothing or binds
its codec to the next index, at most 254, whose slot was empty and which no
other codec holds, leaving all other slots as they were; and for a registered
descriptor instantiate raises its fatal error exactly when the descriptor is
not yet instantiated and 254 codecs are bound already, that is when the number
of bound codecs would exceed 254. -/
theorem instantiate_fresh_index (default_codec : CodecApi) (ops : List RegOp) (r : Registry)
    (hrun : runOps default_codec ops Registry.start = .ok r) :
    r.history.map Prod.fst = List.range' 1 r.history.length ∧
    r.history.length ≤ 254 ∧
    (r.history.map Prod.fst).Nodup ∧
    (∀ e, e ∈ r.history → 1 ≤ e.1 ∧ e.1 ≤ 254 ∧ r.s_protocols e.1 = some e.2) ∧
    (∀ cd_api m r1, instantiate cd_api m r = .ok r1 →
      (r1.history = r.history ∧ ∀ i, r1.s_protocols i = r.s_protocols i) ∨
      ∃ cd, r1.history = r.history ++ [(r.history.length + 1, cd)] ∧
        r.history.length + 1 ≤ 254 ∧
        r.s_protocols (r.history.length + 1) = none ∧
        (∀ e, e ∈ r.history → e.1 ≠ r.history.length + 1) ∧
        r1.s_protocols (r.history.length + 1) = some cd ∧
        ∀ i, i ≠ r.history.length + 1 → r1.s_protocols i = r.s_protocols i) ∧
    (∀ cd_api m pos, findApi r.s_codecs cd_api.addr = some pos →
      pos < (instantiatedFlags r).length →
      (instantiate cd_api m r = .error .fatalError ↔
        ((instantiatedFlags r).getD pos false = false ∧ 254 ≤ r.history.length))) := by
  obtain ⟨h1, h2, h3, h4, h5, -⟩ :=
    runOps_rule SlotInv slotInv_stable default_codec ops Registry.start r hrun slotInv_start
  obtain ⟨-, hhist, -⟩ := runOps_inv default_codec ops Registry.start r hrun registry_start_inv
  have h255 : UINT8_MAX = 255 := rfl
  refine ⟨h1, by omega, ?_, fun e he => ?_, fun cd_api m r1 hi => ?_,
    fun cd_api m pos hfind hpos => ?_⟩
  · rw [h1]
    exact List.nodup_range' 1 _
  · obtain ⟨e1, e2, e3⟩ := hhist e he
    exact ⟨e1, by omega, e3⟩
  · rcases instantiate_ok cd_api m r r1 hi with ⟨v, rfl⟩ | ⟨hlt, ctor, -, -, b2, -, b3, -⟩
    · exact Or.inl ⟨rfl, fun _ => rfl⟩
    · right
      rw [h2] at b2 b3 hlt
      refine ⟨ctor m, b2, by omega, h4 _ (by omega), fun e he => ?_, ?_, fun i hne => ?_⟩
      · obtain ⟨-, e2, -⟩ := hhist e he
        omega
      · rw [b3]
        simp
      · rw [b3, if_neg hne]
  · rw [instantiate_fatal cd_api m r pos hfind hpos, h2, h255]
    constructor
    · rintro ⟨a, b⟩
      exact ⟨a, by omega⟩
    · rintro ⟨a, b⟩
      exact ⟨a, by omega⟩

/-- C19, exercised: in the sample start-up two codecs are bound, with the
indices 1 and 2 in this order. -/
theorem instantiate_fresh_index_witness :
    runOps (apiOf 0 nullCodec) sampleOps Registry.start =
      .ok (registryAfter (apiOf 0 nullCodec) sampleOps) ∧
    (registryAfter (apiOf 0 nullCodec) sampleOps).history.map Prod.fst =
      List.range' 1 (registryAfter (apiOf 0 nullCodec) sampleOps).history.length ∧
    (registryAfter (apiOf 0 nullCodec) sampleOps).history.map Prod.fst = [1, 2] :=
  ⟨rfl,
   (instantiate_fresh_index (apiOf 0 nullCodec) sampleOps
      (registryAfter (apiOf 0 nullCodec) sampleOps) rfl).1,
   by decide⟩

set_option maxRecDepth 1000000 in
/-- C19, refuted as stated: 255 descriptors are registered and bound one after
the other. The first 254 calls bind their codecs, and the 255th call raises the
fatal error although the number of codecs would then be 255, which does not
exceed 255. -/
theorem instantiate_fresh_index_counterexample :
    faultOf (runOps (apiOf 0 nullCodec) (manyOps 255 254) Registry.start) = none ∧
    (registryAfter (apiOf 0 nullCodec) (manyOps 255 254)).history.length = 254 ∧
    (registryAfter (apiOf 0 nullCodec) (manyOps 255 254)).codec_id = 255 ∧
    faultOf (runOps (apiOf 0 nullCodec) (manyOps 255 255) Registry.start) =
      some .fatalError := by
  decide!

/-- The loop over the data link types of one codec goes through when the
grinder so far is 0 or names a bound codec, and leaves the index of the codec
in the grinder exactly when the codec lists the base protocol. -/
theorem scanTypes_spec (r : Registry) (daq_dlt : Int) (i : Nat) (hi : i < UINT8_MAX)
    (hbound : ∃ cd, r.s_protocols i = some cd) :
    ∀ (types : List Int) (st : GrinderScan),
      (st.grinder = 0 ∨ ∃ cd, codecAt r st.grinder = .ok cd) →
      ∃ st1, scanTypes r daq_dlt i types st = .ok st1 ∧
        st1.grinder = (if daq_dlt ∈ types then i else st.grinder) ∧
        (st1.grinder = 0 ∨ ∃ cd, codecAt r st1.grinder = .ok cd) := by
  have hu8 : u8 i = i := Nat.mod_eq_of_lt (by unfold UINT8_MAX at hi; omega)
  have hnew : i = 0 ∨ ∃ cd, codecAt r i = .ok cd := by
    obtain ⟨cd, hcd⟩ := hbound
    right
    exact ⟨cd, by simp [codecAt, hi, hcd]⟩
  intro types
  induction types with
  | nil =>
    intro st hst
    exact ⟨st, rfl, by simp, hst⟩
  | cons d rest ih =>
    intro st hst
    unfold scanTypes
    by_cases hd : d = daq_dlt
    · simp only [hd, if_true]
      by_cases hg : st.grinder ≠ 0
      · simp only [hg, if_true, ne_eq, not_false_eq_true]
        rcases hst with hst | ⟨cd, hcd⟩
        · exact absurd hst hg
        · simp only [hcd]
          obtain ⟨st1, e1, e2, e3⟩ := ih
            { grinder := u8 i, log := st.log ++ [RegEvent.warn_grinder st.grinder i] }
            (by simp only [hu8]; exact hnew)
          refine ⟨st1, e1, ?_, e3⟩
          rw [e2]
          simp [hu8]
      · simp only [hg, if_false]
        obtain ⟨st1, e1, e2, e3⟩ := ih { st with grinder := u8 i }
            (by simp only [hu8]; exact hnew)
        refine ⟨st1, e1, ?_, e3⟩
        rw [e2]
        simp [hu8]
    · simp only [hd, if_false]
      obtain ⟨st1, e1, e2, e3⟩ := ih st hst
      refine ⟨st1, e1, ?_, e3⟩
      rw [e2]
      have hd1 : ¬ daq_dlt = d := fun h => hd h.symm
      simp [hd1]

/-- The scan of `thread_init` over `k` bound slots from index `i` on, followed
by an empty slot inside the array: it goes through, and the grinder is either
as before, no scanned codec listing the base protocol, or the last scanned
index whose codec lists it. -/
theorem grinderLoop_spec (r : Registry) (daq_dlt : Int) :
    ∀ (k n i : Nat) (st : GrinderScan),
      (∀ j, i ≤ j → j < i + k → ∃ cd, r.s_protocols j = some cd) →
      r.s_protocols (i + k) = none → i + k < UINT8_MAX → k < n →
      (st.grinder = 0 ∨ ∃ cd, codecAt r st.grinder = .ok cd) →
      ∃ st1, grinderLoop r daq_dlt n i st = .ok st1 ∧
        (st1.grinder = 0 ∨ ∃ cd, codecAt r st1.grinder = .ok cd) ∧
        ((st1.grinder = st.grinder ∧
            ∀ j cd, i ≤ j → j < i + k → r.s_protocols j = some cd →
              daq_dlt ∉ cd.data_link_types) ∨
          (i ≤ st1.grinder ∧ st1.grinder < i + k ∧
            (∃ cd, r.s_protocols st1.grinder = some cd ∧ daq_dlt ∈ cd.data_link_types) ∧
            ∀ j cd, i ≤ j → j < i + k → r.s_protocols j = some cd →
              daq_dlt ∈ cd.data_link_types → j ≤ st1.grinder)) := by
  intro k
  induction k with
  | zero =>
    intro n i st _ hend _ hn hst
    obtain ⟨n1, rfl⟩ : ∃ n1, n = n1 + 1 := ⟨n - 1, by omega⟩
    simp only [Nat.add_zero] at hend
    refine ⟨st, by simp [grinderLoop, hend], hst, Or.inl ⟨rfl, fun j cd h1 h2 => ?_⟩⟩
    omega
  | succ k ih =>
    intro n i st hb hend hlt hn hst
    obtain ⟨n1, rfl⟩ : ∃ n1, n = n1 + 1 := ⟨n - 1, by omega⟩
    obtain ⟨cd, hcd⟩ := hb i (by omega) (by omega)
    obtain ⟨st1, e1, e2, e3⟩ := scanTypes_spec r daq_dlt i (by omega) ⟨cd, hcd⟩
      cd.data_link_types st hst
    obtain ⟨st2, f1, f2, f3⟩ := ih n1 (i + 1) st1 (fun j h1 h2 => hb j (by omega) (by omega))
      (by rw [← hend]; congr 1; omega) (by omega) (by omega) e3
    refine ⟨st2, by simp [grinderLoop, hcd, e1, f1], f2, ?_⟩
    rcases f3 with ⟨g1, g2⟩ | ⟨g1, g2, g3, g4⟩
    · by_cases hl : daq_dlt ∈ cd.data_link_types
      · right
        rw [if_pos hl] at e2
        rw [g1, e2]
        refine ⟨by omega, by omega, ⟨cd, hcd, hl⟩, fun j cd1 h1 h2 h3 h4 => ?_⟩
        by_cases hji : j = i
        · omega
        · exact absurd h4 (g2 j cd1 (by omega) (by omega) h3)
      · left
        rw [if_neg hl] at e2
        refine ⟨by rw [g1, e2], fun j cd1 h1 h2 h3 => ?_⟩
        by_cases hji : j = i
        · subst hji
          rw [hcd] at h3
          cases h3
          exact hl
        · exact g2 j cd1 (by omega) (by omega) h3
    · right
      refine ⟨by omega, by omega, g3, fun j cd1 h1 h2 h3 h4 => ?_⟩
      by_cases hji : j = i
      · omega
      · exact g4 j cd1 (by omega) (by omega) h3 h4


/-- The grinder after thread_init for a registry as start-up leaves it, with
slot 0 bound and a free slot left in the table, and a thread whose grinder is
still 0: the "unable to find a codec" fatal error is raised if and only if no
instantiated codec lists the base protocol of the capture source; otherwise the
grinder is the highest index of an instantiated codec that lists it; and the
call ends without a fault. -/
theorem thread_init_scan (default_codec : CodecApi) (ops : List RegOp) (r : Registry)
    (hrun : runOps default_codec ops Registry.start = .ok r)
    (hzero : (r.s_protocols 0).isSome = true) (hroom : r.codec_id < UINT8_MAX)
    (env : ThreadEnv) (t : ThreadCtx) (hg : t.grinder = 0)
    (res : ThreadInitResult) (hres : thread_init env r t = res) :
    (res.status = .fatalNoCodec ↔
      ∀ e, e ∈ r.history → env.daq_dlt ∉ e.2.data_link_types) ∧
    (res.status ≠ .fatalNoCodec →
      (∃ cd, (res.t.grinder, cd) ∈ r.history ∧ env.daq_dlt ∈ cd.data_link_types) ∧
      (∀ e, e ∈ r.history → env.daq_dlt ∈ e.2.data_link_types → e.1 ≤ res.t.grinder) ∧
      (res.status = .returned ∨ res.status = .fatalRand)) ∧
    (∀ f, res.status ≠ .fault f) := by
  subst hres
  obtain ⟨-, h2, -, h4, h5, h6⟩ :=
    runOps_rule SlotInv slotInv_stable default_codec ops Registry.start r hrun slotInv_start
  obtain ⟨-, hhist, -⟩ := runOps_inv default_codec ops Registry.start r hrun registry_start_inv
  obtain ⟨cd0, hcd0⟩ := Option.isSome_iff_exists.mp hzero
  have hdup : ∃ k, 1 ≤ k ∧ k < r.codec_id ∧ r.s_protocols 0 = r.s_protocols k := by
    rcases h6 with h6 | h6
    · rw [hcd0] at h6
      cases h6
    · exact h6
  have hbound : ∀ j, 0 ≤ j → j < 0 + r.codec_id → ∃ cd, r.s_protocols j = some cd := by
    intro j _ hj
    by_cases hj0 : j = 0
    · subst hj0
      exact ⟨cd0, hcd0⟩
    · obtain ⟨cd, e1, -⟩ := h5 j (by omega) (by omega)
      exact ⟨cd, e1⟩
  obtain ⟨st1, e1, e2, e3⟩ := grinderLoop_spec r env.daq_dlt r.codec_id UINT8_MAX 0
    { grinder := t.grinder, log := r.log ++ tinitEvents r.s_codecs } hbound
    (by rw [Nat.zero_add]; exact h4 _ (Nat.le_refl _)) (by omega) hroom (Or.inl hg)
  simp only [Nat.zero_add, hg] at e3
  have hnone : st1.grinder = 0 →
      ∀ e, e ∈ r.history → env.daq_dlt ∉ e.2.data_link_types := by
    intro hz e he
    obtain ⟨a1, a2, a3⟩ := hhist e he
    rcases e3 with ⟨-, g2⟩ | ⟨-, g2, ⟨cd, g3, g4⟩, g5⟩
    · exact g2 e.1 e.2 (by omega) a2 a3
    · intro hl
      have := g5 e.1 e.2 (by omega) a2 a3 hl
      omega
  have hsome : st1.grinder ≠ 0 →
      (∃ cd, (st1.grinder, cd) ∈ r.history ∧ env.daq_dlt ∈ cd.data_link_types) ∧
      (∀ e, e ∈ r.history → env.daq_dlt ∈ e.2.data_link_types → e.1 ≤ st1.grinder) := by
    intro hnz
    rcases e3 with ⟨g1, -⟩ | ⟨-, g2, ⟨cd, g3, g4⟩, g5⟩
    · exact absurd g1 hnz
    · obtain ⟨cd1, b1, b2⟩ := h5 st1.grinder (by omega) g2
      rw [g3] at b1
      cases b1
      refine ⟨⟨cd, b2, g4⟩, fun e he hl => ?_⟩
      obtain ⟨a1, a2, a3⟩ := hhist e he
      exact g5 e.1 e.2 (by omega) a2 a3 hl
  unfold thread_init
  simp only [e1]
  by_cases hz : st1.grinder = 0
  · simp only [hz, if_true]
    refine ⟨⟨fun _ => hnone hz, fun _ => trivial⟩, fun h => absurd rfl h, fun f h => ?_⟩
    cases h
  · simp only [hz, if_false]
    have hok : ∃ cd, codecAt r st1.grinder = .ok cd := by
      rcases e2 with e2 | e2
      · exact absurd e2 hz
      · exact e2
    obtain ⟨cdg, hcdg⟩ := hok
    have hmsg : ∃ cd, (if env.log_decoder = true then codecAt r st1.grinder
        else (Except.ok nullCodec : Except Fault Codec)) = .ok cd := by
      by_cases hlog : env.log_decoder = true
      · exact ⟨cdg, by rw [if_pos hlog, hcdg]⟩
      · exact ⟨nullCodec, by rw [if_neg hlog]⟩
    obtain ⟨cdm, hcdm⟩ := hmsg
    simp only [hcdm]
    have hnot : ¬ ∀ e, e ∈ r.history → env.daq_dlt ∉ e.2.data_link_types := by
      intro hall
      obtain ⟨⟨cd, c1, c2⟩, -⟩ := hsome hz
      exact hall _ c1 c2
    by_cases hv : env.VALGRIND_TESTING = true
    · simp only [hv, if_true]
      refine ⟨⟨fun h => ?_, fun h => absurd h hnot⟩,
        fun _ => ⟨(hsome hz).1, (hsome hz).2, by simp⟩, fun f h => ?_⟩
      · cases h
      · cases h
    · simp only [hv, if_false]
      by_cases hro : env.rand_open_ok = true
      · simp only [hro, if_true]
        refine ⟨⟨fun h => ?_, fun h => absurd h hnot⟩,
          fun _ => ⟨(hsome hz).1, (hsome hz).2, by simp⟩, fun f h => ?_⟩
        · cases h
        · cases h
      · simp only [hro, if_false]
        refine ⟨⟨fun h => ?_, fun h => absurd h hnot⟩,
          fun _ => ⟨(hsome hz).1, (hsome hz).2, by simp⟩, fun f h => ?_⟩
        · cases h
        · cases h

/-- The scan of `thread_init` stops at an empty slot with the grinder as it
was. -/
theorem grinderLoop_empty (r : Registry) (daq_dlt : Int) (n i : Nat) (st : GrinderScan)
    (h : r.s_protocols i = none) : grinderLoop r daq_dlt (n + 1) i st = .ok st := by
  simp [grinderLoop, h]

/-- The scan of `thread_init` over slots that are bound as far as the array
goes: it does not come to an end inside the array. -/
theorem grinderLoop_full (r : Registry) (daq_dlt : Int) :
    ∀ (n i : Nat) (st : GrinderScan),
      (∀ j, i ≤ j → j < i + n → ∃ cd, r.s_protocols j = some cd) →
      ∃ f, grinderLoop r daq_dlt n i st = .error f := by
  intro n
  induction n with
  | zero =>
    intro i st _
    exact ⟨.outOfBounds, rfl⟩
  | succ n ih =>
    intro i st hb
    obtain ⟨cd, hcd⟩ := hb i (by omega) (by omega)
    cases hs : scanTypes r daq_dlt i cd.data_link_types st with
    | error f => exact ⟨f, by simp [grinderLoop, hcd, hs]⟩
    | ok st1 =>
      obtain ⟨f, hf⟩ := ih (i + 1) st1 (fun j h1 h2 => hb j (by omega) (by omega))
      exact ⟨f, by simp [grinderLoop, hcd, hs, hf]⟩

/-- C18, as amended. The grinder after thread_init, for a registry as start-up
leaves it and a thread whose grinder is still 0. When slot 0 of the instance
table is bound (as instantiate() binds it) and a slot of the table is left
free, thread_init raises its "unable to find a codec" fatal error if and only
if no instantiated codec lists the base protocol of the capture source among
its data link types; otherwise the grinder is the index of an instantiated
codec that lists it, the one with the highest index (the last one scanned) when
several do; and the call ends without a fault. When slot 0 is empty the scan
`for (i = 0; s_protocols[i] != 0; i++)` ends at once and the fatal error is
raised whatever the instantiated codecs list. When slot 0 is bound and no slot
is left free the scan reads behind the table. -/
theorem thread_init_grinder (default_codec : CodecApi) (ops : List RegOp) (r : Registry)
    (hrun : runOps default_codec ops Registry.start = .ok r)
    (env : ThreadEnv) (t : ThreadCtx) (hg : t.grinder = 0)
    (res : ThreadInitResult) (hres : thread_init env r t = res) :
    ((r.s_protocols 0).isSome = true → r.codec_id < UINT8_MAX →
      (res.status = .fatalNoCodec ↔
        ∀ e, e ∈ r.history → env.daq_dlt ∉ e.2.data_link_types) ∧
      (res.status ≠ .fatalNoCodec →
        (∃ cd, (res.t.grinder, cd) ∈ r.history ∧ env.daq_dlt ∈ cd.data_link_types) ∧
        (∀ e, e ∈ r.history → env.daq_dlt ∈ e.2.data_link_types → e.1 ≤ res.t.grinder) ∧
        (res.status = .returned ∨ res.status = .fatalRand)) ∧
      (∀ f, res.status ≠ .fault f)) ∧
    ((r.s_protocols 0).isSome = false →
      res.status = .fatalNoCodec ∧ res.t.grinder = 0) ∧
    ((r.s_protocols 0).isSome = true → ¬ r.codec_id < UINT8_MAX →
      ∃ f, res.status = .fault f) := by
  refine ⟨fun hzero hroom =>
    thread_init_scan default_codec ops r hrun hzero hroom env t hg res hres,
    fun hzero => ?_, fun hzero hfull => ?_⟩
  · subst hres
    have hnone : r.s_protocols 0 = none := by
      cases h : r.s_protocols 0 with
      | none => rfl
      | some cd => simp [h] at hzero
    have e := grinderLoop_empty r env.daq_dlt 254 0
      { grinder := t.grinder, log := r.log ++ tinitEvents r.s_codecs } hnone
    have e1 : grinderLoop r env.daq_dlt UINT8_MAX 0
        { grinder := t.grinder, log := r.log ++ tinitEvents r.s_codecs } =
        .ok { grinder := t.grinder, log := r.log ++ tinitEvents r.s_codecs } := e
    rw [hg] at e1
    unfold thread_init
    rw [hg, e1]
    exact ⟨rfl, rfl⟩
  · subst hres
    obtain ⟨-, -, h3, -, h5, -⟩ :=
      runOps_rule SlotInv slotInv_stable default_codec ops Registry.start r hrun slotInv_start
    obtain ⟨cd0, hcd0⟩ := Option.isSome_iff_exists.mp hzero
    obtain ⟨f, hf⟩ := grinderLoop_full r env.daq_dlt UINT8_MAX 0
      { grinder := t.grinder, log := r.log ++ tinitEvents r.s_codecs }
      (fun j _ hj => by
        by_cases hj0 : j = 0
        · subst hj0
          exact ⟨cd0, hcd0⟩
        · obtain ⟨cd, e1, -⟩ := h5 j (by omega) (by omega)
          exact ⟨cd, e1⟩)
    refine ⟨f, ?_⟩
    unfold thread_init
    simp only [hf]

set_option maxRecDepth 100000 in
/-- C18, exercised: after a start-up that binds the codecs "eth" (index 1, also
in slot 0) and "ethernet" (index 2), which both list data link type 1, a thread
with base protocol 1 gets the grinder 2, the last one scanned, with one
warning; with base protocol 9, which no codec lists, the fatal error is
raised. -/
theorem thread_init_grinder_witness :
    (thread_init sampleEnv (registryAfter (apiOf 100 ethCodec) releaseOps) (threadOf 0)).status =
      .returned ∧
    (thread_init sampleEnv (registryAfter (apiOf 100 ethCodec) releaseOps)
      (threadOf 0)).t.grinder = 2 ∧
    (thread_init sampleEnv (registryAfter (apiOf 100 ethCodec) releaseOps) (threadOf 0)).log =
      [.pinit 100, .ctor 100 1, .pinit 200, .ctor 200 2, .warn_grinder 1 2] ∧
    (∀ e, e ∈ (registryAfter (apiOf 100 ethCodec) releaseOps).history →
      sampleEnv.daq_dlt ∈ e.2.data_link_types →
      e.1 ≤ (thread_init sampleEnv (registryAfter (apiOf 100 ethCodec) releaseOps)
        (threadOf 0)).t.grinder) ∧
    (thread_init { sampleEnv with daq_dlt := 9 } (registryAfter (apiOf 100 ethCodec) releaseOps)
      (threadOf 0)).status = .fatalNoCodec :=
  ⟨by decide, by decide, by decide,
   (((thread_init_grinder (apiOf 100 ethCodec) releaseOps
      (registryAfter (apiOf 100 ethCodec) releaseOps) rfl sampleEnv
      (threadOf 0) rfl _ rfl).1 (by decide) (by decide)).2.1 (by decide)).2.1,
   by decide⟩

set_option maxRecDepth 100000 in
/-- C18, refuted as stated: the codec "eth", which lists data link type 1, is
registered and instantiated through its module and `instantiate()` is not
called. The codec is bound at index 1 and slot 0 is empty; a thread with base
protocol 1 and grinder 0 ends thread_init with the "unable to find a codec"
fatal error and its grinder still 0, although an instantiated codec lists the
type. -/
theorem thread_init_grinder_counterexample :
    faultOf (runOps (apiOf 100 ethCodec) moduleOnlyOps Registry.start) = none ∧
    ((registryAfter (apiOf 100 ethCodec) moduleOnlyOps).s_protocols 0).isSome = false ∧
    ((registryAfter (apiOf 100 ethCodec) moduleOnlyOps).s_protocols 1).map Codec.name =
      some "eth" ∧
    ((registryAfter (apiOf 100 ethCodec) moduleOnlyOps).s_protocols 1).map
      Codec.data_link_types = some [1] ∧
    (registryAfter (apiOf 100 ethCodec) moduleOnlyOps).history.map Prod.fst = [1] ∧
    sampleEnv.daq_dlt = 1 ∧
    (threadOf 0).grinder = 0 ∧
    (thread_init sampleEnv (registryAfter (apiOf 100 ethCodec) moduleOnlyOps)
      (threadOf 0)).status = .fatalNoCodec ∧
    (thread_init sampleEnv (registryAfter (apiOf 100 ethCodec) moduleOnlyOps)
      (threadOf 0)).t.grinder = 0 := by
  refine ⟨by decide, by decide, by decide, by decide, by decide, by decide, by decide,
    by decide, by decide⟩

/-- C13. The closed state's data_seg_sent: for every segment, with the flow and
tracker as the handler reads them (after its update of the tracker's send-side
bookkeeping), the handler records exactly one telemetry event -
DATA_AFTER_RESET when the flow has SSNFLAG_RESET and the tracker has sent a
RST, DATA_AFTER_RST_RCVD when the flow has SSNFLAG_RESET and the tracker has
not, DATA_ON_CLOSED when the flow lacks SSNFLAG_RESET - and marks the packet
for drop once, whatever the case. The state it leaves and the value it returns
are those of default_state_action applied to the state after
mark_packet_for_drop, applied to the state after set_tcp_event with the event
of the case, applied to the state after the tracker update. -/
theorem data_seg_sent_event {X : Type} (k : TcpBuild) (ext : TcpExternals X)
    (tsd : TcpSegmentDescriptor) (w : TcpWorld X)
    (res : TcpOut X) (hres : TcpStateClosed.data_seg_sent k ext tsd w = res)
    (w1 : TcpWorld X) (hw1 : ext.update_tracker_ack_sent tsd w = w1) :
    (telemetryOf res.calls).length = 1 ∧
    (w1.session_flags &&& k.SSNFLAG_RESET ≠ 0 → w1.rst_pkt_sent = true →
      telemetryOf res.calls = [.EVENT_DATA_AFTER_RESET]) ∧
    (w1.session_flags &&& k.SSNFLAG_RESET ≠ 0 → w1.rst_pkt_sent = false →
      telemetryOf res.calls = [.EVENT_DATA_AFTER_RST_RCVD]) ∧
    (w1.session_flags &&& k.SSNFLAG_RESET = 0 →
      telemetryOf res.calls = [.EVENT_DATA_ON_CLOSED]) ∧
    res.calls.count .mark_packet_for_drop = 1 ∧
    res.calls =
      [.update_tracker_ack_sent, .set_tcp_event (dataSegSentEvent k w1), .mark_packet_for_drop,
       .default_state_action res.ret] ∧
    res.w =
      (ext.default_state_action tsd
        (ext.mark_packet_for_drop tsd (ext.set_tcp_event (dataSegSentEvent k w1) w1))).2 ∧
    res.ret =
      (ext.default_state_action tsd
        (ext.mark_packet_for_drop tsd (ext.set_tcp_event (dataSegSentEvent k w1) w1))).1 ∧
    (w1.session_flags &&& k.SSNFLAG_RESET ≠ 0 → w1.rst_pkt_sent = true →
      res.w =
        (ext.default_state_action tsd
          (ext.mark_packet_for_drop tsd (ext.set_tcp_event .EVENT_DATA_AFTER_RESET w1))).2) ∧
    (w1.session_flags &&& k.SSNFLAG_RESET ≠ 0 → w1.rst_pkt_sent = false →
      res.w =
        (ext.default_state_action tsd
          (ext.mark_packet_for_drop tsd (ext.set_tcp_event .EVENT_DATA_AFTER_RST_RCVD w1))).2) ∧
    (w1.session_flags &&& k.SSNFLAG_RESET = 0 →
      res.w =
        (ext.default_state_action tsd
          (ext.mark_packet_for_drop tsd (ext.set_tcp_event .EVENT_DATA_ON_CLOSED w1))).2) := by
  subst hres hw1
  refine ⟨rfl, fun h1 h2 => ?_, fun h1 h2 => ?_, fun h1 => ?_, ?_, rfl, rfl, rfl,
    fun h1 h2 => ?_, fun h1 h2 => ?_, fun h1 => ?_⟩
  · simp [TcpStateClosed.data_seg_sent, finishWith, telemetryOf, dataSegSentEvent, h1, h2]
  · simp [TcpStateClosed.data_seg_sent, finishWith, telemetryOf, dataSegSentEvent, h1, h2]
  · simp [TcpStateClosed.data_seg_sent, finishWith, telemetryOf, dataSegSentEvent, h1]
  · simp [TcpStateClosed.data_seg_sent, finishWith, List.count_cons]
  · simp [TcpStateClosed.data_seg_sent, finishWith, dataSegSentEvent, h1, h2]
  · simp [TcpStateClosed.data_seg_sent, finishWith, dataSegSentEvent, h1, h2]
  · simp [TcpStateClosed.data_seg_sent, finishWith, dataSegSentEvent, h1]

/-- C13, exercised: a data segment on a flow with SSNFLAG_RESET whose tracker
has sent a RST gives DATA_AFTER_RESET and a packet marked for drop; with
outside functions that write their name into the state, the state left is the
one after the four calls in their order. -/
theorem data_seg_sent_event_witness :
    telemetryOf (TcpStateClosed.data_seg_sent sampleTcpBuild sampleExternals ⟨7⟩
      sampleWorld).calls = [.EVENT_DATA_AFTER_RESET] ∧
    (TcpStateClosed.data_seg_sent sampleTcpBuild sampleExternals ⟨7⟩ sampleWorld).calls =
      [.update_tracker_ack_sent, .set_tcp_event .EVENT_DATA_AFTER_RESET, .mark_packet_for_drop,
       .default_state_action true] ∧
    (TcpStateClosed.data_seg_sent sampleTcpBuild loggingExternals ⟨7⟩ loggingWorld).w.rest =
      [.update_tracker_ack_sent, .set_tcp_event .EVENT_DATA_AFTER_RESET, .mark_packet_for_drop,
       .default_state_action true] :=
  ⟨(data_seg_sent_event sampleTcpBuild sampleExternals ⟨7⟩ sampleWorld _ rfl _ rfl).2.1
      (by decide) (by decide),
   by decide, by decide⟩

/-- C14. The closed state's rst_recv: for every segment, when the tracker's
update_on_rst_recv accepts the RST the handler updates the session for the RST,
sets the perf base state to CLOSING and flags ACTION_RST, and records no
telemetry event, BAD_RST included; when it rejects the RST the handler records
BAD_RST and nothing else: no action flag, no session update and no perf state
update. In either case the state it leaves and the value it returns are those
of default_state_action applied to the state after these calls, each applied to
the state the call before it left, the first to the state left by
update_on_rst_recv. -/
theorem rst_recv_actions {X : Type} (k : TcpBuild) (ext : TcpExternals X)
    (tsd : TcpSegmentDescriptor) (w : TcpWorld X)
    (res : TcpOut X) (hres : TcpStateClosed.rst_recv k ext tsd w = res) :
    ((ext.update_on_rst_recv tsd w).1 = true →
      res.calls =
        [.update_on_rst_recv true, .update_session_on_rst false,
         .update_perf_base_state .TCP_CLOSING, .set_pkt_action_flag k.ACTION_RST,
         .default_state_action res.ret] ∧
      actionFlagsOf res.calls = [k.ACTION_RST] ∧
      telemetryOf res.calls = [] ∧
      TcpCall.set_tcp_event .EVENT_BAD_RST ∉ res.calls ∧
      res.w =
        (ext.default_state_action tsd
          (ext.set_pkt_action_flag k.ACTION_RST
            (ext.update_perf_base_state .TCP_CLOSING
              (ext.update_session_on_rst tsd false (ext.update_on_rst_recv tsd w).2)))).2 ∧
      res.ret =
        (ext.default_state_action tsd
          (ext.set_pkt_action_flag k.ACTION_RST
            (ext.update_perf_base_state .TCP_CLOSING
              (ext.update_session_on_rst tsd false (ext.update_on_rst_recv tsd w).2)))).1) ∧
    ((ext.update_on_rst_recv tsd w).1 = false →
      res.calls =
        [.update_on_rst_recv false, .set_tcp_event .EVENT_BAD_RST,
         .default_state_action res.ret] ∧
      telemetryOf res.calls = [.EVENT_BAD_RST] ∧
      actionFlagsOf res.calls = [] ∧
      (∀ flag, TcpCall.update_session_on_rst flag ∉ res.calls) ∧
      (∀ s, TcpCall.update_perf_base_state s ∉ res.calls) ∧
      res.w =
        (ext.default_state_action tsd
          (ext.set_tcp_event .EVENT_BAD_RST (ext.update_on_rst_recv tsd w).2)).2 ∧
      res.ret =
        (ext.default_state_action tsd
          (ext.set_tcp_event .EVENT_BAD_RST (ext.update_on_rst_recv tsd w).2)).1) := by
  subst hres
  refine ⟨fun h => ?_, fun h => ?_⟩
  · simp [TcpStateClosed.rst_recv, finishWith, telemetryOf, actionFlagsOf, h]
  · simp [TcpStateClosed.rst_recv, finishWith, telemetryOf, actionFlagsOf, h]

/-- C14, exercised: the sample tracker accepts the RST of packet 1 and rejects
that of packet 2; with outside functions that write their name into the state,
the state left is the one after the calls of the case in their order. -/
theorem rst_recv_actions_witness :
    actionFlagsOf (TcpStateClosed.rst_recv sampleTcpBuild sampleExternals ⟨1⟩
      sampleWorld).calls = [sampleTcpBuild.ACTION_RST] ∧
    telemetryOf (TcpStateClosed.rst_recv sampleTcpBuild sampleExternals ⟨2⟩
      sampleWorld).calls = [.EVENT_BAD_RST] ∧
    actionFlagsOf (TcpStateClosed.rst_recv sampleTcpBuild sampleExternals ⟨2⟩
      sampleWorld).calls = [] ∧
    (TcpStateClosed.rst_recv sampleTcpBuild loggingExternals ⟨1⟩ loggingWorld).w.rest =
      [.update_on_rst_recv true, .update_session_on_rst false,
       .update_perf_base_state .TCP_CLOSING, .set_pkt_action_flag sampleTcpBuild.ACTION_RST,
       .default_state_action true] ∧
    (TcpStateClosed.rst_recv sampleTcpBuild loggingExternals ⟨2⟩ loggingWorld).w.rest =
      [.update_on_rst_recv false, .set_tcp_event .EVENT_BAD_RST, .default_state_action true] :=
  ⟨((rst_recv_actions sampleTcpBuild sampleExternals ⟨1⟩ sampleWorld _ rfl).1 (by decide)).2.1,
   by decide, by decide, by decide, by decide⟩

/-- C16. The closed state's fin_recv: for every segment and whatever the flow's
session flags, the handler updates the tracker's receive-side ack bookkeeping
once, then records exactly one telemetry event - DATA_AFTER_RESET if the
tracker has sent a RST, DATA_AFTER_RST_RCVD otherwise - and does not mark the
packet for drop. The state it leaves and the value it returns are those of
default_state_action applied to the state after set_tcp_event with the event of
the case, applied to the state after the tracker update. -/
theorem fin_recv_event {X : Type} (ext : TcpExternals X)
    (tsd : TcpSegmentDescriptor) (w : TcpWorld X)
    (res : TcpOut X) (hres : TcpStateClosed.fin_recv ext tsd w = res)
    (w1 : TcpWorld X) (hw1 : ext.update_tracker_ack_recv tsd w = w1) :
    (telemetryOf res.calls).length = 1 ∧
    (w1.rst_pkt_sent = true → telemetryOf res.calls = [.EVENT_DATA_AFTER_RESET]) ∧
    (w1.rst_pkt_sent = false → telemetryOf res.calls = [.EVENT_DATA_AFTER_RST_RCVD]) ∧
    res.calls.count .update_tracker_ack_recv = 1 ∧
    TcpCall.mark_packet_for_drop ∉ res.calls ∧
    res.calls =
      [.update_tracker_ack_recv, .set_tcp_event (finRecvEvent w1),
       .default_state_action res.ret] ∧
    res.w = (ext.default_state_action tsd (ext.set_tcp_event (finRecvEvent w1) w1)).2 ∧
    res.ret = (ext.default_state_action tsd (ext.set_tcp_event (finRecvEvent w1) w1)).1 ∧
    (w1.rst_pkt_sent = true →
      res.w = (ext.default_state_action tsd (ext.set_tcp_event .EVENT_DATA_AFTER_RESET w1)).2) ∧
    (w1.rst_pkt_sent = false →
      res.w =
        (ext.default_state_action tsd (ext.set_tcp_event .EVENT_DATA_AFTER_RST_RCVD w1)).2) := by
  subst hres hw1
  refine ⟨rfl, fun h => ?_, fun h => ?_, ?_, ?_, rfl, rfl, rfl, fun h => ?_, fun h => ?_⟩
  · simp [TcpStateClosed.fin_recv, finishWith, telemetryOf, finRecvEvent, h]
  · simp [TcpStateClosed.fin_recv, finishWith, telemetryOf, finRecvEvent, h]
  · simp [TcpStateClosed.fin_recv, finishWith, List.count_cons]
  · simp [TcpStateClosed.fin_recv, finishWith]
  · simp [TcpStateClosed.fin_recv, finishWith, finRecvEvent, h]
  · simp [TcpStateClosed.fin_recv, finishWith, finRecvEvent, h]

/-- C16, exercised: a FIN on a flow without SSNFLAG_RESET whose tracker has
sent no RST still gives DATA_AFTER_RST_RCVD; with a RST sent it gives
DATA_AFTER_RESET; with outside functions that write their name into the state,
the state left is the one after the three calls in their order. -/
theorem fin_recv_event_witness :
    telemetryOf (TcpStateClosed.fin_recv sampleExternals ⟨7⟩
      { sampleWorld with session_flags := 0, rst_pkt_sent := false }).calls =
        [.EVENT_DATA_AFTER_RST_RCVD] ∧
    telemetryOf (TcpStateClosed.fin_recv sampleExternals ⟨7⟩ sampleWorld).calls =
      [.EVENT_DATA_AFTER_RESET] ∧
    (TcpStateClosed.fin_recv loggingExternals ⟨7⟩ loggingWorld).w.rest =
      [.update_tracker_ack_recv, .set_tcp_event .EVENT_DATA_AFTER_RESET,
       .default_state_action true] :=
  ⟨(fin_recv_event sampleExternals ⟨7⟩
      { sampleWorld with session_flags := 0, rst_pkt_sent := false } _ rfl _ rfl).2.2.1
      (by decide),
   by decide, by decide⟩

/-- C21. Registration of a descriptor: add_plugin raises its fatal error if and
only if the descriptor's ctor or dtor is absent, and raises nothing else; the
fatal error ends the call before anything is written, so no registry with a
changed list results; otherwise add_plugin returns with the descriptor appended
at the end of the registered list, the earlier entries in their order and
everything else unchanged. -/
theorem add_plugin_registers (api : CodecApi) (r : Registry) :
    (add_plugin api r = .error .fatalError ↔ (api.ctor.isNone = true ∨ api.dtor = false)) ∧
    (∀ f, add_plugin api r = .error f → f = .fatalError) ∧
    ((api.ctor.isNone = true ∨ api.dtor = false) → ∀ r1, add_plugin api r ≠ .ok r1) ∧
    (¬ (api.ctor.isNone = true ∨ api.dtor = false) →
      add_plugin api r = .ok { r with s_codecs := r.s_codecs ++ [api] } ∧
      ∀ r1, add_plugin api r = .ok r1 →
        r1.s_codecs = r.s_codecs ++ [api] ∧
        r1.s_codecs.take r.s_codecs.length = r.s_codecs ∧
        r1.s_codecs.length = r.s_codecs.length + 1) := by
  unfold add_plugin
  cases h1 : api.ctor.isNone <;> cases h2 : api.dtor <;> simp


/-- C25, evaluated at the failing input: after a start-up that binds only the
codec named "eth" (index 1), `get_codec("ethernet")` returns 1 although no
instantiated codec is named "ethernet"; with both "eth" (index 1) and
"ethernet" (index 2) bound it still returns 1, not 2. A keyword that differs
from a name in letter case only is found, and a keyword that no name starts
gives 0. -/
theorem get_codec_by_name_start :
    (registryAfter (apiOf 100 ethCodec) [.instantiate_all]).history.map
      (fun e => (e.1, e.2.name)) = [(1, "eth")] ∧
    get_codec (registryAfter (apiOf 100 ethCodec) [.instantiate_all]) "ethernet" = 1 ∧
    (registryAfter (apiOf 100 ethCodec) releaseOps).history.map
      (fun e => (e.1, e.2.name)) = [(1, "eth"), (2, "ethernet")] ∧
    get_codec (registryAfter (apiOf 100 ethCodec) releaseOps) "ethernet" = 1 ∧
    get_codec (registryAfter (apiOf 100 ethCodec) releaseOps) "ETH" = 1 ∧
    get_codec (registryAfter (apiOf 100 ethCodec) releaseOps) "udp" = 0 := by
  refine ⟨by decide, by decide, by decide, by decide, by decide, by decide⟩

/-- A descriptor registered after the first call of `instantiate` has a
position behind the static vector of `api_instantiated`, which keeps the size
the list had at that first call; its instantiation indexes that vector out of
range, and the run stops there, before any hook is called; so does
`instantiate()` for the default codec it has just registered when a codec was
bound through its module before. For descriptors registered before the first
call the sample start-up calls pinit and ctor of each descriptor once. -/
theorem late_registration_stops :
    faultOf (runOps (apiOf 0 nullCodec) lateOps Registry.start) = some .outOfBounds ∧
    faultOf (runOps (apiOf 0 nullCodec) (lateOps.take 3) Registry.start) = none ∧
    instantiatedFlags (registryAfter (apiOf 0 nullCodec) (lateOps.take 3)) = [true] ∧
    findApi (registryAfter (apiOf 0 nullCodec) (lateOps.take 3)).s_codecs 200 = some 1 ∧
    faultOf (runOps (apiOf 0 nullCodec) moduleFirstOps Registry.start) = some .outOfBounds ∧
    (registryAfter (apiOf 0 nullCodec) sampleOps).log =
      [.pinit 100, .ctor 100 1, .pinit 200, .ctor 200 2, .warn_proto 2048 1 2] := by
  refine ⟨by decide, by decide, by decide, by decide, by decide, by decide⟩

/-- C29, evaluated at the failing input: the map has `max_protocol_id` = 65535
entries, so the 16-bit id 65535 is behind its last entry. A codec that claims
65535 makes `instantiate` write there, a codec that hands on 65535 as next
protocol makes `decode` read there, and the encoders read there for a layer
that carries this id; every id below 65535 is inside the map. -/
theorem proto_map_last_id :
    (∀ r : Registry, protoMapAt r 65535 = .error .outOfBounds) ∧
    (∀ (r : Registry) (id : Nat), id < 65535 → protoMapAt r id = .ok (r.s_proto_map id)) ∧
    faultOf (runOps (apiOf 0 nullCodec)
      [.add_plugin (apiOf 100 lastIdCodec), .instantiate (apiOf 100 lastIdCodec) 0]
      Registry.start) = some .outOfBounds ∧
    (decode sampleBuild ⟨-1⟩ (registryWith lastIdNextCodec) (threadOf 1) blankPacket (hdrOf 60)
      (List.replicate 60 0) 0).status = .fault .outOfBounds ∧
    (∀ (r : Registry) (t : ThreadCtx),
      mappedProt r t 1 { proto := 0, prot_id := 65535, start := 0, length := 0 } =
        .error .outOfBounds) := by
  refine ⟨fun r => by simp [protoMapAt, max_protocol_id],
    fun r id h => by simp [protoMapAt, max_protocol_id, h], by decide, by decide,
    fun r t => by simp [mappedProt, protoMapAt, max_protocol_id]⟩

/-- C24, evaluated at the failing input: a frame of link layer, IPv4 and ESP
followed by a UDP header that is cut short. Decode ends with the three layers,
the last of them reached with protocol id ESP (50), DECODE__UNSURE_ENCAP set and
the refused id 17; the test reads the layer slot behind the last layer, which
this decode has not written and which holds id 0, so PKT_TRUST is not set. -/
theorem decode_trust_after_esp :
    (decode sampleBuild ⟨-1⟩ espRegistry (threadOf 2) blankPacket (hdrOf 46) espFrame 0).status =
      .finished ∧
    (decode sampleBuild ⟨-1⟩ espRegistry (threadOf 2) blankPacket (hdrOf 46)
      espFrame 0).st.p.num_layers = 3 ∧
    ((decode sampleBuild ⟨-1⟩ espRegistry (threadOf 2) blankPacket (hdrOf 46)
      espFrame 0).st.p.layers 2).prot_id = sampleBuild.IPPROTO_ID_ESP ∧
    (decode sampleBuild ⟨-1⟩ espRegistry (threadOf 2) blankPacket (hdrOf 46)
      espFrame 0).st.prev_prot_id = 17 ∧
    (decode sampleBuild ⟨-1⟩ espRegistry (threadOf 2) blankPacket (hdrOf 46)
      espFrame 0).st.prev_prot_id ≠ sampleBuild.FINISHED_DECODE ∧
    (decode sampleBuild ⟨-1⟩ espRegistry (threadOf 2) blankPacket (hdrOf 46)
      espFrame 0).st.p.cf.decode_flags &&& sampleBuild.DECODE__UNSURE_ENCAP ≠ 0 ∧
    ((decode sampleBuild ⟨-1⟩ espRegistry (threadOf 2) blankPacket (hdrOf 46)
      espFrame 0).st.p.layers 3).prot_id = 0 ∧
    (decode sampleBuild ⟨-1⟩ espRegistry (threadOf 2) blankPacket (hdrOf 46)
      espFrame 0).st.p.cf.packet_flags &&& sampleBuild.PKT_TRUST = 0 := by
  refine ⟨by decide, by decide, by decide, by decide, by decide, by decide, by decide,
    by decide⟩

/-- Along the loop of `decode` every codec call but the last appends a layer. -/
theorem decodeLoop_calls (b : Build) (r : Registry) (fuel : Nat) (st : DecodeState)
    (hc : st.calls = st.p.num_layers) (hn : st.p.num_layers ≤ b.LAYER_MAX) :
    (decodeLoop b r fuel st).2.calls ≤ b.LAYER_MAX + 1 := by
  refine decodeLoop_rule b r
    (fun st => st.calls = st.p.num_layers ∧ st.p.num_layers ≤ b.LAYER_MAX)
    (fun _ st => st.calls ≤ b.LAYER_MAX + 1) ?_ ?_ ?_ fuel st ⟨hc, hn⟩
  · intro st st1 ⟨hc, hn⟩ h
    obtain ⟨cd, -, -, hl, rfl⟩ := decodeStep_next b r st st1 h
    have hlt : st.p.num_layers < b.LAYER_MAX := lt_of_le_of_ne hn hl
    simp only [push_layer, hlt, if_true]
    exact ⟨by omega, hlt⟩
  · intro st s st1 ⟨hc, hn⟩ h
    rcases decodeStep_stop b r st st1 s h with ⟨f, -, rfl, rfl⟩ | ⟨cd, -, h1 | h1 | h1⟩
    · omega
    · obtain ⟨-, rfl, rfl⟩ := h1
      simp only
      omega
    · obtain ⟨-, -, rfl, rfl⟩ := h1
      simp only
      omega
    · obtain ⟨-, -, -, rfl, rfl⟩ := h1
      simp only
      omega
  · intro st ⟨hc, hn⟩
    omega

/-- C28. Termination of PacketManager::decode: for every frame, every registry
and every behaviour of the codecs, the loop of decode ends within its bound of
LAYER_MAX + 1 rounds, and decode makes at most LAYER_MAX + 1 codec decode
calls. -/
theorem decode_terminates (b : Build) (sc : SnortConfig) (r : Registry) (t : ThreadCtx)
    (p : Packet) (pkthdr : DAQ_PktHdr) (pkt : List Nat) (prot_id0 : Nat) :
    (decode b sc r t p pkthdr pkt prot_id0).status ≠ .fuelExhausted ∧
    (decode b sc r t p pkthdr pkt prot_id0).st.calls ≤ b.LAYER_MAX + 1 := by
  have hfuel := decodeLoop_fuel b r (b.LAYER_MAX + 1) (decodeInit b t p pkthdr pkt prot_id0)
    (by simp [decodeInit]) (by simp [decodeInit])
  have hcalls := decodeLoop_calls b r (b.LAYER_MAX + 1) (decodeInit b t p pkthdr pkt prot_id0)
    (by simp [decodeInit]) (by simp [decodeInit])
  rcases decode_split b sc r t p pkthdr pkt prot_id0 with ⟨hs, hd⟩ | ⟨hs, hd⟩
  · rcases decodeFinish_shape b sc r
        (decodeLoop b r (b.LAYER_MAX + 1) (decodeInit b t p pkthdr pkt prot_id0)).2 with
      ⟨f, -, hf⟩ | ⟨stats, flags, evs, chk, hf, -⟩
    · rw [hd, hf]
      exact ⟨by simp, hcalls⟩
    · rw [hd, hf]
      exact ⟨by simp, hcalls⟩
  · rw [hd]
    exact ⟨hfuel, hcalls⟩

/-- C28, exercised: a codec that accepts an empty header for ever, and two
codecs whose next-protocol ids lead to each other, are each called 33 times
with 32 layer slots; then decode returns. -/
theorem decode_terminates_witness :
    (decode sampleBuild ⟨-1⟩ (registryOf greedyCodec) (threadOf 0) blankPacket (hdrOf 60)
      (List.replicate 60 0) 0).st.calls = 33 ∧
    (decode sampleBuild ⟨-1⟩ cycleRegistry (threadOf 1) blankPacket (hdrOf 60)
      (List.replicate 60 0) 0).st.calls = 33 ∧
    (decode sampleBuild ⟨-1⟩ cycleRegistry (threadOf 1) blankPacket (hdrOf 60)
      (List.replicate 60 0) 0).status = .tooManyLayers ∧
    (decode sampleBuild ⟨-1⟩ cycleRegistry (threadOf 1) blankPacket (hdrOf 60)
      (List.replicate 60 0) 0).st.calls ≤ sampleBuild.LAYER_MAX + 1 :=
  ⟨by decide, by decide, by decide,
   (decode_terminates sampleBuild ⟨-1⟩ cycleRegistry (threadOf 1) blankPacket (hdrOf 60)
      (List.replicate 60 0) 0).2⟩


/-- The global counters after a sequence of `thread_term` calls: inside the
array each has grown by the sum of the threads' counters, behind it nothing is
written. -/
theorem threadsTerm_stats : ∀ (ts : List ThreadCtx) (r : Registry) (i : Nat),
    (i < stat_offset + UINT8_MAX →
      (threadsTerm ts r).g_stats i = r.g_stats i + (ts.map (fun t => t.s_stats i)).sum) ∧
    (¬ i < stat_offset + UINT8_MAX → (threadsTerm ts r).g_stats i = r.g_stats i) := by
  intro ts
  induction ts with
  | nil =>
    intro r i
    simp [threadsTerm]
  | cons t rest ih =>
    intro r i
    obtain ⟨h1, h2⟩ := ih (thread_term r t).1 i
    refine ⟨fun hi => ?_, fun hi => ?_⟩
    · rw [threadsTerm, h1 hi]
      simp only [thread_term, accumulate, sum_stats, hi, if_true, List.map_cons, List.sum_cons]
      omega
    · rw [threadsTerm, h2 hi]
      simp only [thread_term, accumulate, sum_stats, hi, if_false]

/-- C22. Statistics additivity: starting from zeroed global counters, after any
number of threads have run thread_term, in whatever order their accumulate
calls take the mutex, every entry of the global statistics array - total,
other, discards and each codec column - equals the sum over those threads of
the same entry of the thread's counters at its termination. -/
theorem thread_term_additive (r : Registry) (hzero : ∀ i, r.g_stats i = 0)
    (ts : List ThreadCtx) :
    (∀ i, i < stat_offset + UINT8_MAX →
      (threadsTerm ts r).g_stats i = (ts.map (fun t => t.s_stats i)).sum) ∧
    (∀ ts2 : List ThreadCtx, ts.Perm ts2 →
      ∀ i, (threadsTerm ts2 r).g_stats i = (threadsTerm ts r).g_stats i) := by
  refine ⟨fun i hi => ?_, fun ts2 hperm i => ?_⟩
  · rw [(threadsTerm_stats ts r i).1 hi, hzero i, Nat.zero_add]
  · by_cases hi : i < stat_offset + UINT8_MAX
    · rw [(threadsTerm_stats ts2 r i).1 hi, (threadsTerm_stats ts r i).1 hi]
      congr 1
      exact ((hperm.map (fun t => t.s_stats i)).sum_eq).symm
    · rw [(threadsTerm_stats ts2 r i).2 hi, (threadsTerm_stats ts r i).2 hi]

/-- C22, exercised: two threads that have each decoded one frame, the frame of
scenario S1 and the one of scenario S3; the global `total` ends at 2, `other`
at 1, and the column of the link-layer codec (index 2) at 2. -/
theorem thread_term_additive_witness :
    (threadsTerm [threadAfter udpFrame,
        threadAfter (ethHdr 2048 ++ ip4Hdr 253 ++ List.replicate 26 0)]
      sampleRegistry).g_stats total_processed =
      ([threadAfter udpFrame,
        threadAfter (ethHdr 2048 ++ ip4Hdr 253 ++ List.replicate 26 0)].map
          (fun t => t.s_stats total_processed)).sum ∧
    (threadsTerm [threadAfter udpFrame,
        threadAfter (ethHdr 2048 ++ ip4Hdr 253 ++ List.replicate 26 0)]
      sampleRegistry).g_stats total_processed = 2 ∧
    (threadsTerm [threadAfter udpFrame,
        threadAfter (ethHdr 2048 ++ ip4Hdr 253 ++ List.replicate 26 0)]
      sampleRegistry).g_stats other_codecs = 1 ∧
    (threadsTerm [threadAfter udpFrame,
        threadAfter (ethHdr 2048 ++ ip4Hdr 253 ++ List.replicate 26 0)]
      sampleRegistry).g_stats (2 + stat_offset) = 2 :=
  ⟨(thread_term_additive sampleRegistry (fun _ => rfl)
      [threadAfter udpFrame,
       threadAfter (ethHdr 2048 ++ ip4Hdr 253 ++ List.replicate 26 0)]).1 total_processed
      (by decide),
   by decide, by decide, by decide⟩

/-- A continuing round has read the protocol map inside its bounds. -/
theorem decodeStep_next_id (b : Build) (r : Registry) (st st1 : DecodeState)
    (h : decodeStep b r st = .next st1) :
    protoMapAt r st1.prev_prot_id = .ok st1.mapped_prot := by
  have h0 := h
  unfold decodeStep at h
  split at h
  · simp at h
  · rename_i cd hc
    cases hok : (cd.decode st.pkt st.len st.p st.lyr_len st.prot_id).ok with
    | false => simp [hok] at h
    | true =>
      by_cases hl : st.p.num_layers = b.LAYER_MAX
      · simp [hok, hl] at h
      · by_cases hp : u16 (cd.decode st.pkt st.len st.p st.lyr_len st.prot_id).prot_id <
            max_protocol_id
        · obtain ⟨cd1, hc1, -, -, rfl⟩ := decodeStep_next b r st st1 h0
          rw [hc] at hc1
          cases hc1
          simp only [protoMapAt, hp, if_true]
        · simp [hok, hl, protoMapAt, hp] at h

/-- The loop of `decode` and the codecs behind its layers: when the loop ends
by a refusal or at the layer limit, it has appended one layer per listed codec,
raised the counter of each listed codec once per entry and no other counter,
kept the layers it found, and given each new layer the proto tag of its codec;
and the codec of a layer is the grinder for layer 0 and the map's entry for
the layer's protocol id otherwise. -/
theorem decodeLoop_trace (b : Build) (r : Registry) (g : Nat) :
    ∀ (fuel : Nat) (st : DecodeState), st.p.num_layers ≤ b.LAYER_MAX →
      (st.p.num_layers ≠ 0 → protoMapAt r st.prev_prot_id = .ok st.mapped_prot) →
      (st.p.num_layers = 0 → st.mapped_prot = g) →
      ((decodeLoop b r fuel st).1 = .finished ∨ (decodeLoop b r fuel st).1 = .tooManyLayers) →
      (decodeLoop b r fuel st).2.p.num_layers =
        st.p.num_layers + (decodeCodecs b r fuel st).length ∧
      (∀ k, (decodeLoop b r fuel st).2.s_stats (k + stat_offset) =
        st.s_stats (k + stat_offset) + (decodeCodecs b r fuel st).count k) ∧
      (∀ j, j < stat_offset → (decodeLoop b r fuel st).2.s_stats j = st.s_stats j) ∧
      (∀ j, j < st.p.num_layers → (decodeLoop b r fuel st).2.p.layers j = st.p.layers j) ∧
      (∀ i k, (decodeCodecs b r fuel st)[i]? = some k →
        (∃ cd, codecAt r k = .ok cd ∧
          ((decodeLoop b r fuel st).2.p.layers (st.p.num_layers + i)).proto = cd.proto_id) ∧
        (st.p.num_layers + i ≠ 0 →
          protoMapAt r ((decodeLoop b r fuel st).2.p.layers (st.p.num_layers + i)).prot_id =
            .ok k) ∧
        (st.p.num_layers + i = 0 → k = g)) := by
  intro fuel
  induction fuel with
  | zero =>
    intro st _ _ _ hs
    simp [decodeLoop] at hs
  | succ n ih =>
    intro st hn hsel hg hs
    unfold decodeLoop at hs ⊢
    unfold decodeCodecs
    cases hstep : decodeStep b r st with
    | next st1 =>
      simp only [hstep] at hs ⊢
      have hid := decodeStep_next_id b r st st1 hstep
      obtain ⟨cd, hc, -, hl, hst1⟩ := decodeStep_next b r st st1 hstep
      have hlt : st.p.num_layers < b.LAYER_MAX := lt_of_le_of_ne hn hl
      have hn1 : st1.p.num_layers = st.p.num_layers + 1 := by
        rw [hst1]; simp only [push_layer, hlt, if_true]
      have hstats1 : st1.s_stats = bump st.s_stats (st.mapped_prot + stat_offset) := by
        rw [hst1]
      have hlay1 : ∀ j, st1.p.layers j =
          if j = st.p.num_layers then
            { proto := cd.proto_id, prot_id := st.prev_prot_id, start := st.pkt,
              length := u16 (u16 (cd.decode st.pkt st.len st.p st.lyr_len st.prot_id).lyr_len) }
          else st.p.layers j := by
        intro j
        rw [hst1]; simp only [push_layer, hlt, if_true]
      obtain ⟨a1, a2, a3, a4, a5⟩ := ih st1 (by omega) (fun _ => hid) (fun h0 => by omega) hs
      refine ⟨?_, fun k => ?_, fun j hj => ?_, fun j hj => ?_, fun i k hik => ?_⟩
      · rw [a1, hn1, List.length_cons]; omega
      · rw [a2 k, hstats1, List.count_cons]
        by_cases hk : k = st.mapped_prot
        · subst hk
          rw [bump_eq]
          simp
          omega
        · rw [bump_ne _ _ _ (by omega)]
          have : (st.mapped_prot == k) = false := by
            simp only [beq_eq_false_iff_ne, ne_eq]
            exact fun h => hk h.symm
          simp [this]
      · rw [a3 j hj, hstats1, bump_ne _ _ _ (by omega)]
      · rw [a4 j (by omega), hlay1 j, if_neg (by omega)]
      · cases i with
        | zero =>
          simp only [List.getElem?_cons_zero, Option.some.injEq] at hik
          subst hik
          have hlayer := a4 st.p.num_layers (by omega)
          rw [hlay1, if_pos rfl] at hlayer
          simp only [Nat.add_zero]
          rw [hlayer]
          exact ⟨⟨cd, hc, rfl⟩, fun h0 => hsel h0, fun h0 => hg h0⟩
        | succ i =>
          simp only [List.getElem?_cons_succ] at hik
          obtain ⟨b1, b2, -⟩ := a5 i k hik
          have hidx : st1.p.num_layers + i = st.p.num_layers + (i + 1) := by omega
          rw [hidx] at b1 b2
          exact ⟨b1, fun _ => b2 (by omega), fun h0 => by omega⟩
    | stop s st1 =>
      simp only [hstep] at hs ⊢
      rcases decodeStep_stop b r st st1 s hstep with ⟨f, -, rfl, rfl⟩ | ⟨cd, -, h1 | h1 | h1⟩
      · simp at hs
      · obtain ⟨-, rfl, rfl⟩ := h1
        simp
      · obtain ⟨-, -, rfl, rfl⟩ := h1
        simp
      · obtain ⟨-, -, -, rfl, -⟩ := h1
        simp at hs


/-- The accounting of a refused layer touches the counters `discards` and
`other` only. -/
theorem decodeRefused_columns (b : Build) (r : Registry) (st st1 : DecodeState)
    (h : decodeRefused b r st = .ok st1) (j : Nat) (hd : j ≠ discards) (ho : j ≠ other_codecs) :
    st1.s_stats j = st.s_stats j := by
  obtain ⟨hA, hB⟩ := decodeRefused_stats b r st st1 h
  by_cases hc : st.prev_prot_id ≠ b.FINISHED_DECODE ∧
      st.p.cf.decode_flags &&& b.DECODE__UNSURE_ENCAP = 0
  · by_cases hm : r.s_proto_map st.prev_prot_id = 0
    · rw [(hA hc).2 hm, bump_ne _ _ _ ho]
    · rw [(hA hc).1 hm, bump_ne _ _ _ hd]
  · have hc2 : st.prev_prot_id = b.FINISHED_DECODE ∨
        st.p.cf.decode_flags &&& b.DECODE__UNSURE_ENCAP ≠ 0 := by
      by_cases hp : st.prev_prot_id = b.FINISHED_DECODE
      · exact Or.inl hp
      · exact Or.inr (fun hu => hc ⟨hp, hu⟩)
    rw [hB hc2]

/-- A run of `decode` that returns, and the codecs behind its layers: the
packet has one layer per listed codec, each with the proto tag of its codec;
the codec of layer 0 is the grinder and that of a later layer the map's entry
for the layer's protocol id; `total` has grown by one; each codec column has
grown by the number of layers of that codec, and at the end of the function by
one more for the codec selected last. -/
theorem decode_trace (b : Build) (sc : SnortConfig) (r : Registry) (t : ThreadCtx)
    (p : Packet) (pkthdr : DAQ_PktHdr) (pkt : List Nat) (prot_id0 : Nat)
    (hret : (decode b sc r t p pkthdr pkt prot_id0).status = .finished ∨
      (decode b sc r t p pkthdr pkt prot_id0).status = .tooManyLayers) :
    (decode b sc r t p pkthdr pkt prot_id0).st.p.num_layers =
      (decodedBy b r t p pkthdr pkt prot_id0).length ∧
    (∀ i k, (decodedBy b r t p pkthdr pkt prot_id0)[i]? = some k →
      (∃ cd, codecAt r k = .ok cd ∧
        ((decode b sc r t p pkthdr pkt prot_id0).st.p.layers i).proto = cd.proto_id) ∧
      (i ≠ 0 →
        protoMapAt r ((decode b sc r t p pkthdr pkt prot_id0).st.p.layers i).prot_id = .ok k) ∧
      (i = 0 → k = t.grinder)) ∧
    (decode b sc r t p pkthdr pkt prot_id0).st.s_stats total_processed =
      t.s_stats total_processed + 1 ∧
    ((decode b sc r t p pkthdr pkt prot_id0).status = .finished →
      ∀ k, (decode b sc r t p pkthdr pkt prot_id0).st.s_stats (k + stat_offset) =
        t.s_stats (k + stat_offset) + (decodedBy b r t p pkthdr pkt prot_id0).count k +
          (if k = (decode b sc r t p pkthdr pkt prot_id0).st.mapped_prot then 1 else 0)) ∧
    ((decode b sc r t p pkthdr pkt prot_id0).status = .tooManyLayers →
      ∀ k, (decode b sc r t p pkthdr pkt prot_id0).st.s_stats (k + stat_offset) =
        t.s_stats (k + stat_offset) + (decodedBy b r t p pkthdr pkt prot_id0).count k) := by
  have htrace := decodeLoop_trace b r t.grinder (b.LAYER_MAX + 1)
    (decodeInit b t p pkthdr pkt prot_id0) (by simp [decodeInit])
    (fun h => absurd rfl h) (fun _ => rfl)
  have hinit3 : ∀ k, (decodeInit b t p pkthdr pkt prot_id0).s_stats (k + stat_offset) =
      t.s_stats (k + stat_offset) := by
    intro k
    simp only [decodeInit]
    rw [bump_ne _ _ _ (by simp [total_processed, stat_offset])]
  have hinit0 : (decodeInit b t p pkthdr pkt prot_id0).s_stats total_processed =
      t.s_stats total_processed + 1 := by
    simp only [decodeInit]
    rw [bump_eq]
  have hn0 : (decodeInit b t p pkthdr pkt prot_id0).p.num_layers = 0 := rfl
  unfold decodedBy
  rcases decode_split b sc r t p pkthdr pkt prot_id0 with ⟨hs, hd⟩ | ⟨hs, hd⟩
  · obtain ⟨a1, a2, a3, -, a5⟩ := htrace (Or.inl hs)
    rw [hn0, Nat.zero_add] at a1
    rw [hd] at hret ⊢
    simp only at hret ⊢
    have hfin : (decodeFinish b sc r
        (decodeLoop b r (b.LAYER_MAX + 1) (decodeInit b t p pkthdr pkt prot_id0)).2).1 =
          .finished := by
      rcases hret with h | h
      · exact h
      · rcases decodeFinish_shape b sc r
            (decodeLoop b r (b.LAYER_MAX + 1) (decodeInit b t p pkthdr pkt prot_id0)).2 with
          ⟨f, -, hf⟩ | ⟨stats, flags, evs, chk, hf, -⟩
        · rw [hf] at h; simp at h
        · rw [hf]
    obtain ⟨st1, hr, hstats⟩ := decodeFinish_stats b sc r _ hfin
    have hshape : (decodeFinish b sc r
          (decodeLoop b r (b.LAYER_MAX + 1) (decodeInit b t p pkthdr pkt prot_id0)).2).2.p.num_layers =
          (decodeLoop b r (b.LAYER_MAX + 1) (decodeInit b t p pkthdr pkt prot_id0)).2.p.num_layers ∧
        (decodeFinish b sc r
          (decodeLoop b r (b.LAYER_MAX + 1) (decodeInit b t p pkthdr pkt prot_id0)).2).2.p.layers =
          (decodeLoop b r (b.LAYER_MAX + 1) (decodeInit b t p pkthdr pkt prot_id0)).2.p.layers ∧
        (decodeFinish b sc r
          (decodeLoop b r (b.LAYER_MAX + 1) (decodeInit b t p pkthdr pkt prot_id0)).2).2.mapped_prot =
          (decodeLoop b r (b.LAYER_MAX + 1) (decodeInit b t p pkthdr pkt prot_id0)).2.mapped_prot := by
      rcases decodeFinish_shape b sc r
          (decodeLoop b r (b.LAYER_MAX + 1) (decodeInit b t p pkthdr pkt prot_id0)).2 with
        ⟨f, -, hf⟩ | ⟨stats, flags, evs, chk, hf, -⟩
      · rw [hf] at hfin; simp at hfin
      · rw [hf]; exact ⟨rfl, rfl, rfl⟩
    rw [hshape.1, hshape.2.1, hshape.2.2, hstats, hfin]
    refine ⟨a1, fun i k hik => ?_, ?_, fun _ k => ?_, fun h => by simp at h⟩
    · obtain ⟨c1, c2, c3⟩ := a5 i k hik
      rw [hn0, Nat.zero_add] at c1 c2 c3
      exact ⟨c1, c2, c3⟩
    · rw [bump_ne _ _ _ (by simp [total_processed, stat_offset]),
        decodeRefused_columns b r _ st1 hr _ (by simp [total_processed, discards])
          (by simp [total_processed, other_codecs]),
        a3 _ (by simp [total_processed, stat_offset]), hinit0]
    · by_cases hk : k = (decodeLoop b r (b.LAYER_MAX + 1)
          (decodeInit b t p pkthdr pkt prot_id0)).2.mapped_prot
      · rw [if_pos hk, ← hk, bump_eq,
          decodeRefused_columns b r _ st1 hr _ (by simp [stat_offset, discards])
            (by simp [stat_offset, other_codecs]), a2 k, hinit3 k]
      · rw [if_neg hk, bump_ne _ _ _ (by omega),
          decodeRefused_columns b r _ st1 hr _ (by simp [stat_offset, discards])
            (by simp [stat_offset, other_codecs]), a2 k, hinit3 k]
        rfl
  · rw [hd] at hret ⊢
    simp only at hret ⊢
    have htl : (decodeLoop b r (b.LAYER_MAX + 1) (decodeInit b t p pkthdr pkt prot_id0)).1 =
        .tooManyLayers := by
      rcases hret with h | h
      · exact absurd h hs
      · exact h
    obtain ⟨a1, a2, a3, -, a5⟩ := htrace (Or.inr htl)
    rw [hn0, Nat.zero_add] at a1
    refine ⟨a1, fun i k hik => ?_, ?_, fun h => absurd h hs, fun _ k => ?_⟩
    · obtain ⟨c1, c2, c3⟩ := a5 i k hik
      rw [hn0, Nat.zero_add] at c1 c2 c3
      exact ⟨c1, c2, c3⟩
    · rw [a3 _ (by simp [total_processed, stat_offset]), hinit0]
    · rw [a2 k, hinit3 k]


/-- C23, as amended. The counters of a PacketManager::decode call that returns:
the total counter is incremented exactly once; the per-codec counters are
incremented once per appended layer, each for the codec that decoded that
layer; and when decode runs to the end of the function the counter of the codec
selected last, the one whose decode call refused, is incremented once more,
which a return at the layer limit does not do. No other codec counter
changes. -/
theorem decode_codec_counters (b : Build) (sc : SnortConfig) (r : Registry) (t : ThreadCtx)
    (p : Packet) (pkthdr : DAQ_PktHdr) (pkt : List Nat) (prot_id0 : Nat) (res : DecodeResult)
    (hres : decode b sc r t p pkthdr pkt prot_id0 = res)
    (hret : res.status = .finished ∨ res.status = .tooManyLayers) :
    res.st.s_stats total_processed = t.s_stats total_processed + 1 ∧
    (decodedBy b r t p pkthdr pkt prot_id0).length = res.st.p.num_layers ∧
    (∀ i k, (decodedBy b r t p pkthdr pkt prot_id0)[i]? = some k →
      ∃ cd, codecAt r k = .ok cd ∧ (res.st.p.layers i).proto = cd.proto_id) ∧
    (res.status = .finished →
      ∀ k, res.st.s_stats (k + stat_offset) =
        t.s_stats (k + stat_offset) + (decodedBy b r t p pkthdr pkt prot_id0).count k +
          (if k = res.st.mapped_prot then 1 else 0)) ∧
    (res.status = .tooManyLayers →
      ∀ k, res.st.s_stats (k + stat_offset) =
        t.s_stats (k + stat_offset) + (decodedBy b r t p pkthdr pkt prot_id0).count k) := by
  subst hres
  obtain ⟨h1, h2, h3, h4, h5⟩ := decode_trace b sc r t p pkthdr pkt prot_id0 hret
  exact ⟨h3, h1.symm, fun i k hik => (h2 i k hik).1, h4, h5⟩

set_option maxRecDepth 100000 in
/-- C23, exercised (scenario S1): the frame is decoded by the codecs 2, 3 and 5,
whose counters and that of the codec selected last, index 1, each read 1
afterwards, and `total` reads 1. -/
theorem decode_codec_counters_witness :
    decodedBy sampleBuild sampleRegistry (threadOf 2) blankPacket (hdrOf 60) udpFrame 0 =
      [2, 3, 5] ∧
    (decode sampleBuild ⟨-1⟩ sampleRegistry (threadOf 2) blankPacket (hdrOf 60)
      udpFrame 0).st.mapped_prot = 1 ∧
    (decode sampleBuild ⟨-1⟩ sampleRegistry (threadOf 2) blankPacket (hdrOf 60)
      udpFrame 0).st.s_stats total_processed = (threadOf 2).s_stats total_processed + 1 ∧
    (decode sampleBuild ⟨-1⟩ sampleRegistry (threadOf 2) blankPacket (hdrOf 60)
      udpFrame 0).st.s_stats total_processed = 1 ∧
    (List.range 255).map (fun k =>
      (decode sampleBuild ⟨-1⟩ sampleRegistry (threadOf 2) blankPacket (hdrOf 60)
        udpFrame 0).st.s_stats (k + stat_offset)) =
      [0, 1, 1, 1, 0, 1] ++ List.replicate 249 0 :=
  ⟨by decide, by decide,
   (decode_codec_counters sampleBuild ⟨-1⟩ sampleRegistry (threadOf 2) blankPacket (hdrOf 60)
      udpFrame 0 _ rfl (Or.inl (by decide))).1,
   by decide, by decide⟩

set_option maxRecDepth 100000 in
/-- C23, refuted as stated: the frame of scenario S1 is decoded as link layer,
IPv4 and UDP, three layers by the codecs 2, 3 and 5; afterwards four codec
counters have grown by one, the fourth being that of codec 1, the default
codec, which decoded no layer: it was selected for the id FINISHED_DECODE and
refused, and is counted at the end of the function. -/
theorem decode_codec_counters_counterexample :
    (decode sampleBuild ⟨-1⟩ sampleRegistry (threadOf 2) blankPacket (hdrOf 60)
      udpFrame 0).status = .finished ∧
    (decode sampleBuild ⟨-1⟩ sampleRegistry (threadOf 2) blankPacket (hdrOf 60)
      udpFrame 0).st.p.num_layers = 3 ∧
    decodedBy sampleBuild sampleRegistry (threadOf 2) blankPacket (hdrOf 60) udpFrame 0 =
      [2, 3, 5] ∧
    (threadOf 2).s_stats (1 + stat_offset) = 0 ∧
    (decode sampleBuild ⟨-1⟩ sampleRegistry (threadOf 2) blankPacket (hdrOf 60)
      udpFrame 0).st.s_stats (1 + stat_offset) = 1 ∧
    ((List.range 255).filter (fun k =>
      (decode sampleBuild ⟨-1⟩ sampleRegistry (threadOf 2) blankPacket (hdrOf 60)
        udpFrame 0).st.s_stats (k + stat_offset) ≠
      (threadOf 2).s_stats (k + stat_offset))) = [1, 2, 3, 5] := by
  refine ⟨by decide, by decide, by decide, by decide, by decide, by decide⟩

end Snort
